import Mathlib

/-!
# Dolphin: dialect tree to canonical tree conversion

A shallow embedding of `internal/engine/dolphin/convert.go`.

* The dialect tree (package `pcast` of the parser library) is a family of
  inductive types that follows the static types of the Go structs: one type
  per struct the converter reads, and one type per interface (`ExprNode`,
  `ResultSetNode`, `Node`) with a constructor `nil` for the nil interface
  value.
* The canonical tree (package `ast` of this repository) is the single type
  `ANode`.
* The receiver `cc` carries the parameter counter.  `debug.Active` and the
  lines written to the diagnostics sink are carried next to it in `State`.
* A Go `panic` is the `Except.error` result of the statement converters.
-/

namespace Dolphin

/-! ## Dialect tree -/

/-- Identifier of the parser library (`model.CIStr`): `O` is the original
text, which is also what its `String()` method returns. -/
structure CIStr where
  O : String
deriving DecidableEq

/-- A `pcast.ColumnName`.  `Str` is the value of its `String()` method (the
qualified name as the parser library renders it). -/
structure ColumnName where
  Schema : CIStr
  Table : CIStr
  Name : CIStr
  Str : String
deriving DecidableEq

/-- A `pcast.TableName` (the fields the converter reads). -/
structure TableName where
  Schema : CIStr
  Name : CIStr
deriving DecidableEq

/-- The kind of a datum (the constants `Kind...` of the parser library's
`test_driver`): what the literal was written as.  `other` is any kind a
literal of the query text does not have. -/
inductive Kind where
  | KindNull
  | KindInt64
  | KindUint64
  | KindFloat32
  | KindFloat64
  | KindString
  | KindBytes
  | KindBinaryLiteral
  | KindMysqlDecimal
  | other (code : Nat)
deriving DecidableEq

/-- The datum of a literal (`test_driver.Datum`): `k` is its kind, `i` is what
`GetInt64()` returns and `b` what `GetString()` returns.  The library keeps
in `i` the value of an integer literal and, for a float literal, the bits of
the number (`SetFloat64` stores `math.Float64bits` of it); `GetInt64()` gives
`i` back whatever the kind. -/
structure Datum where
  k : Kind
  i : Int
  b : String
deriving DecidableEq

def Datum.GetInt64 (d : Datum) : Int := d.i

def Datum.GetString (d : Datum) : String := d.b

/-- A `driver.ParamMarkerExpr`: `Offset` is the position of the marker in the
query text. -/
structure ParamMarkerExpr where
  Offset : Int
deriving DecidableEq

/-- A `driver.ValueExpr`. -/
structure ValueExpr where
  Datum : Datum
deriving DecidableEq

/-- A `pcast.ColumnNameExpr`. -/
structure ColumnNameExpr where
  Name : ColumnName
deriving DecidableEq

/-- A `pcast.WildCardField`. -/
structure WildCardField where
  Schema : CIStr
  Table : CIStr
deriving DecidableEq

/-- An `opcode.Op`: the three operators the converter names, and any other
operator together with the text its `String()` method returns. -/
inductive Op where
  | LogicAnd
  | LogicOr
  | EQ
  | other (text : String)
deriving DecidableEq

/-- The `String()` method of `opcode.Op`. -/
def Op.Str : Op → String
  | .LogicAnd => "and"
  | .LogicOr => "or"
  | .EQ => "eq"
  | .other text => text

/-- The kinds of expression whose converter is a stub returning `ast.TODO`. -/
inductive ExprKind where
  | BetweenExpr | CaseExpr | CompareSubqueryExpr | DefaultExpr | FuncCastExpr
  | GetFormatSelectorExpr | IsNullExpr | IsTruthExpr | MatchAgainst
  | MaxValueExpr | ParenthesesExpr | PatternInExpr | PatternLikeExpr
  | PatternRegexpExpr | PositionExpr | RowExpr | SetCollationExpr
  | TableNameExpr | TimeUnitExpr | TrimDirectionExpr | UnaryOperationExpr
  | ValuesExpr | VariableExpr | WindowFuncExpr
deriving DecidableEq

/-- The other node kinds whose converter is a stub returning `ast.TODO`. -/
inductive StubKind where
  | AdminStmt | AlterDatabaseStmt | AlterInstanceStmt | AlterTableSpec
  | AlterUserStmt | AnalyzeTableStmt | BRIEStmt | BeginStmt | BinlogStmt
  | ByItem | ChangeStmt | CleanupTableLockStmt | ColumnDef | ColumnName
  | ColumnPosition | CommitStmt | Constraint | CreateBindingStmt
  | CreateDatabaseStmt | CreateIndexStmt | CreateSequenceStmt
  | CreateStatisticsStmt | CreateUserStmt | CreateViewStmt | DeallocateStmt
  | DeleteTableList | DoStmt | DropBindingStmt | DropDatabaseStmt
  | DropIndexStmt | DropSequenceStmt | DropStatisticsStmt | DropStatsStmt
  | DropUserStmt | ExecuteStmt | ExplainForStmt | ExplainStmt
  | FlashBackTableStmt | FlushStmt | FrameBound | FrameClause | GrantRoleStmt
  | GrantStmt | GroupByClause | HavingClause | IndexAdviseStmt
  | IndexLockAndAlgorithm | IndexPartSpecification | KillStmt | Limit
  | LoadDataStmt | LoadStatsStmt | LockTablesStmt | OnCondition | OnDeleteOpt
  | OnUpdateOpt | OrderByClause | PartitionByClause | PlacementSpec
  | PrepareStmt | PrivElem | RecoverTableStmt | ReferenceDef
  | RepairTableStmt | RevokeRoleStmt | RevokeStmt | RollbackStmt
  | SetConfigStmt | SetDefaultRoleStmt | SetOprSelectList | SetPwdStmt
  | SetRoleStmt | SetStmt | ShowStmt | ShutdownStmt | SplitRegionStmt
  | TableOptimizerHint | TableToTable | TraceStmt | TruncateTableStmt
  | UnlockTablesStmt | UseStmt | VariableAssignment | WhenClause | WindowSpec
deriving DecidableEq

/-- A `pcast.JoinType`. -/
inductive JoinType where
  | CrossJoin
  | LeftJoin
  | RightJoin
deriving DecidableEq

mutual

/-- A value of the interface `pcast.ExprNode`.  `stub` is an expression of a
kind whose converter is a stub and `unknown` one of a kind the dispatcher has
no case for (`typeName` is what `%T` prints); the converter reads no field of
either, so their fields are given as the expressions and the result sets
below them, in the order the parser library's `Accept` walks them. -/
inductive ExprNode where
  | nil
  | ParamMarkerExpr (n : ParamMarkerExpr)
  | ValueExpr (n : ValueExpr)
  | AggregateFuncExpr (n : AggregateFuncExpr)
  | BinaryOperationExpr (n : BinaryOperationExpr)
  | ColumnNameExpr (n : ColumnNameExpr)
  | ExistsSubqueryExpr (n : ExistsSubqueryExpr)
  | FuncCallExpr (n : FuncCallExpr)
  | SubqueryExpr (n : SubqueryExpr)
  | stub (kind : ExprKind) (exprs : List ExprNode) (sources : List ResultSetNode)
  | unknown (typeName : String) (exprs : List ExprNode) (sources : List ResultSetNode)

/-- A `pcast.AggregateFuncExpr`. -/
inductive AggregateFuncExpr where
  | mk (F : String) (Args : List ExprNode) (Distinct : Bool)

/-- A `pcast.BinaryOperationExpr`. -/
inductive BinaryOperationExpr where
  | mk (Op : Op) (L : ExprNode) (R : ExprNode)

/-- A `pcast.ExistsSubqueryExpr`. -/
inductive ExistsSubqueryExpr where
  | mk (Sel : ExprNode)

/-- A `pcast.FuncCallExpr`. -/
inductive FuncCallExpr where
  | mk (Schema : CIStr) (FnName : CIStr) (Args : List ExprNode) (Offset : Int)

/-- A `pcast.SubqueryExpr`. -/
inductive SubqueryExpr where
  | mk (Query : ResultSetNode)

/-- A value of the interface `pcast.ResultSetNode`: nil, or one of its
implementations. -/
inductive ResultSetNode where
  | nil
  | SelectStmt (n : SelectStmt)
  | SubqueryExpr (n : SubqueryExpr)
  | TableSource (Source : ResultSetNode) (AsName : CIStr)
  | TableName (n : TableName)
  | Join (n : Join)
  | SetOprStmt (SelectList : List ResultSetNode)

/-- A `pcast.SelectStmt`.  `rest` holds the expressions of the clauses the
converter does not read (GROUP BY, HAVING, ORDER BY, ...). -/
inductive SelectStmt where
  | mk (Fields : FieldList) (From : TableRefsClause) (Where : ExprNode)
      (Limit : Limit) (rest : List ExprNode)

/-- A `*pcast.FieldList`. -/
inductive FieldList where
  | mk (Fields : List SelectField)

/-- A `pcast.SelectField`. -/
inductive SelectField where
  | mk (Offset : Int) (WildCard : Option WildCardField) (Expr : ExprNode)
      (AsName : CIStr)

/-- A `*pcast.Limit`: the nil pointer, or a clause with its count and offset
expressions. -/
inductive Limit where
  | nil
  | mk (Count : ExprNode) (Offset : ExprNode)

/-- A `*pcast.TableRefsClause`: the nil pointer, or a clause with its join
tree. -/
inductive TableRefsClause where
  | nil
  | mk (TableRefs : Join)

/-- A `pcast.Join`.  `On` is the expression of the ON condition, nil when
there is none. -/
inductive Join where
  | mk (Left : ResultSetNode) (Right : ResultSetNode) (Tp : JoinType) (On : ExprNode)
      (Using : List ColumnName)

end

/-- A `pcast.Assignment`. -/
structure Assignment where
  Column : ColumnName
  Expr : ExprNode

/-- A `pcast.ColumnOptionType`. -/
inductive ColumnOptionType where
  | ColumnOptionComment
  | other (code : Nat)
deriving DecidableEq

/-- A `pcast.ColumnOption`. -/
structure ColumnOption where
  Tp : ColumnOptionType
  Expr : ExprNode

/-- A `types.FieldType`: `TypeStr` is the value of `types.TypeStr(Tp)`. -/
structure FieldType where
  TypeStr : String
  Elems : List String
deriving DecidableEq

/-- A `pcast.ColumnDef`.  `NotNull` is the not-null flag of the column. -/
structure ColumnDef where
  Name : ColumnName
  Tp : FieldType
  Options : List ColumnOption
  NotNull : Bool

/-- A `pcast.AlterTableType`. -/
inductive AlterTableType where
  | AlterTableAddColumns
  | AlterTableDropColumn
  | AlterTableChangeColumn
  | AlterTableModifyColumn
  | AlterTableAlterColumn
  | AlterTableAddConstraint
  | AlterTableRenameColumn
  | AlterTableRenameTable
  | other (code : Nat)
deriving DecidableEq

/-- A `pcast.AlterTableSpec`. -/
structure AlterTableSpec where
  Tp : AlterTableType
  NewColumns : List ColumnDef
  OldColumnName : ColumnName
  NewColumnName : ColumnName
  IfExists : Bool
  NewTable : TableName

/-- A `pcast.AlterTableStmt`. -/
structure AlterTableStmt where
  Table : TableName
  Specs : List AlterTableSpec

/-- A `pcast.TableOptionType`. -/
inductive TableOptionType where
  | TableOptionComment
  | other (code : Nat)
deriving DecidableEq

/-- A `pcast.TableOption`. -/
structure TableOption where
  Tp : TableOptionType
  StrValue : String
deriving DecidableEq

/-- A `pcast.CreateTableStmt`. -/
structure CreateTableStmt where
  Table : TableName
  IfNotExists : Bool
  ReferTable : Option TableName
  Cols : List ColumnDef
  Options : List TableOption

/-- A `pcast.DropTableStmt`. -/
structure DropTableStmt where
  IsView : Bool
  IfExists : Bool
  Tables : List TableName
deriving DecidableEq

/-- A `pcast.RenameTableStmt`. -/
structure RenameTableStmt where
  OldTable : TableName
  NewTable : TableName
deriving DecidableEq

/-- A `pcast.DeleteStmt`.  `rest` holds the expressions of the clauses the
converter does not read (ORDER BY, LIMIT). -/
structure DeleteStmt where
  TableRefs : TableRefsClause
  Where : ExprNode
  rest : List ExprNode

/-- A `pcast.InsertStmt`.  `rest` holds the expressions of the clauses the
converter does not read (SET list, ON DUPLICATE KEY UPDATE). -/
structure InsertStmt where
  Table : TableRefsClause
  Columns : List ColumnName
  Lists : List (List ExprNode)
  Select : ResultSetNode
  rest : List ExprNode

/-- A `pcast.UpdateStmt`.  `rest` holds the expressions of the clauses the
converter does not read (ORDER BY, LIMIT). -/
structure UpdateStmt where
  TableRefs : TableRefsClause
  Where : ExprNode
  rest : List ExprNode
  List : List Assignment

/-- A value of the interface `pcast.Node`, the argument of the dispatcher:
nil, an expression, a result set, a statement or clause the dispatcher has a
converter for, a node of a kind whose converter is a stub, or a node of a kind
the dispatcher has no case for (`typeName` is what `%T` prints). -/
inductive Node where
  | nil
  | ExprNode (n : ExprNode)
  | ResultSetNode (n : ResultSetNode)
  | AlterTableStmt (n : AlterTableStmt)
  | Assignment (n : Assignment)
  | CreateTableStmt (n : CreateTableStmt)
  | DeleteStmt (n : DeleteStmt)
  | DropTableStmt (n : DropTableStmt)
  | FieldList (n : FieldList)
  | InsertStmt (n : InsertStmt)
  | RenameTableStmt (n : RenameTableStmt)
  | SelectField (n : SelectField)
  | TableRefsClause (n : TableRefsClause)
  | UpdateStmt (n : UpdateStmt)
  | WildCardField (n : WildCardField)
  | stub (kind : StubKind) (children : List Node)
  | unknown (typeName : String) (children : List Node)

/-! ## Canonical tree -/

/-- An `ast.TableName`. -/
structure ATableName where
  Schema : String
  Name : String
deriving DecidableEq

/-- An `ast.FuncName`. -/
structure FuncName where
  Schema : String
  Name : String
deriving DecidableEq

/-- The subtypes of an `ast.AlterTableCmd` the converter uses.  `AT_none` is
the zero value. -/
inductive AlterSubtype where
  | AT_none
  | AT_AddColumn
  | AT_DropColumn
deriving DecidableEq

/-- A value of the interface `ast.Node`: `nil` is the nil interface value (no
node), the other constructors are the structs the converter builds, with the
fields it sets.  A field holding a node, or a pointer to a node struct, is an
`ANode` (`nil` when the pointer is nil); a `*string` is an `Option String`.
`AstList` is `ast.List` and `AstString` is `ast.String`. -/
inductive ANode where
  | nil
  | TODO
  | AstList (Items : List ANode)
  | AstString (Str : String)
  | A_Star
  | A_Const (Val : ANode)
  | ParamRef (Number : Nat) (Location : Int)
  | ColumnRef (Fields : ANode) (Name : String)
  | ResTarget (Name : Option String) (Val : ANode) (Location : Int)
  | BoolExpr (Args : ANode)
  | A_Expr (Name : ANode) (Lexpr : ANode) (Rexpr : ANode)
  | FuncCall (Func : FuncName) (Funcname : ANode) (Args : ANode)
      (AggOrder : ANode) (AggStar : Bool) (AggDistinct : Bool) (Location : Int)
  | SubLink (Subselect : ANode)
  | RangeVar (Schemaname : String) (Relname : String)
  | SelectStmt (TargetList : ANode) (FromClause : ANode) (WhereClause : ANode)
      (LimitCount : ANode) (LimitOffset : ANode) (ValuesLists : ANode)
  | InsertStmt (Relation : ANode) (Cols : ANode) (ReturningList : ANode)
      (SelectStmt : ANode)
  | UpdateStmt (Relation : ANode) (TargetList : ANode) (WhereClause : ANode)
      (FromClause : ANode) (ReturningList : ANode)
  | DeleteStmt (Relation : ANode) (WhereClause : ANode) (ReturningList : ANode)
  | ColumnDef (Colname : String) (TypeName : String) (IsNotNull : Bool)
      (Comment : String) (Vals : ANode)
  | AlterTableCmd (Name : Option String) (Subtype : AlterSubtype) (Def : ANode)
      (MissingOk : Bool)
  | AlterTableStmt (Table : ATableName) (Cmds : ANode)
  | CreateTableStmt (Name : ATableName) (IfNotExists : Bool)
      (ReferTable : Option ATableName) (Cols : List ANode) (Comment : String)
  | DropTableStmt (IfExists : Bool) (Tables : List ATableName)
  | RenameColumnStmt (Table : ATableName) (Col : ANode) (NewName : Option String)
  | RenameTableStmt (Table : ATableName) (NewName : Option String)

/-! ## Conversion state -/

/-- The receiver of the converters. -/
structure cc where
  paramCount : Nat
deriving DecidableEq

/-- What a conversion runs in: the context `c`, the flag `debug.Active`, and
the lines written so far to the diagnostics sink (`log.Printf`,
`fmt.Printf`). -/
structure State where
  c : cc
  debugActive : Bool
  out : List String
deriving DecidableEq

/-- A fresh context: counter 0, nothing written yet. -/
def State.fresh (debugActive : Bool) : State :=
  { c := { paramCount := 0 }, debugActive := debugActive, out := [] }

/-- Writes one line to the diagnostics sink. -/
def State.print (s : State) (line : String) : State :=
  { s with out := s.out ++ [line] }

/-! ## Helpers that are not in `convert.go` -/

/-- Modelled from the spec: `parseTableName` (a helper of the package that is
not in `convert.go`) gives the canonical table name of a dialect table name,
with the same schema and name. -/
def parseTableName (n : TableName) : ATableName :=
  { Schema := n.Schema.O, Name := n.Name.O }

/-- Modelled from the spec: `isNotNull` (a helper of the package that is not
in `convert.go`) gives the not-null flag of a column definition. -/
def isNotNull (d : ColumnDef) : Bool := d.NotNull

/-- A node as the callback of `visit` sees it: a `*pcast.TableName`, or a node
of any other type. -/
inductive Visited where
  | TableName (n : TableName)
  | other
deriving DecidableEq

mutual

/-- Modelled from the spec: `visit` (a helper of the package that is not in
`convert.go`) walks the subtree below a node depth-first in pre-order and
calls its callback on every node.  These functions give the nodes handed to
the callback, in the order of the calls.  A nil interface value or nil pointer
is not walked.  A node is handed to the callback before its children, and
the children are walked one after the other, each with its whole subtree: the
operands of an operation from left to right, the arguments of a call in
order, for a join its left side, its right side and then its ON condition
(the USING columns are not nodes), and for a SELECT its select list, its FROM
clause, its WHERE condition, the clauses the converter does not read, and
last its LIMIT clause with the count before the offset.  Nodes of a type
this tree has no constructor for (the column name below a column reference,
the wrapper of an ON condition or of a GROUP BY, HAVING or ORDER BY clause)
are never table names and are left out. -/
def ExprNode.visit : ExprNode → List Visited
  | .nil => []
  | .ParamMarkerExpr _ => [.other]
  | .ValueExpr _ => [.other]
  | .AggregateFuncExpr n => n.visit
  | .BinaryOperationExpr n => n.visit
  | .ColumnNameExpr _ => [.other]
  | .ExistsSubqueryExpr n => n.visit
  | .FuncCallExpr n => n.visit
  | .SubqueryExpr n => n.visit
  | .stub _ exprs sources => .other :: (visitOfExprs exprs ++ visitOfSources sources)
  | .unknown _ exprs sources => .other :: (visitOfExprs exprs ++ visitOfSources sources)

def visitOfExprs : List ExprNode → List Visited
  | [] => []
  | e :: es => e.visit ++ visitOfExprs es

def visitOfSources : List ResultSetNode → List Visited
  | [] => []
  | r :: rs => r.visit ++ visitOfSources rs

def AggregateFuncExpr.visit : AggregateFuncExpr → List Visited
  | .mk _ args _ => .other :: visitOfExprs args

def BinaryOperationExpr.visit : BinaryOperationExpr → List Visited
  | .mk _ l r => .other :: (l.visit ++ r.visit)

def ExistsSubqueryExpr.visit : ExistsSubqueryExpr → List Visited
  | .mk sel => .other :: sel.visit

def FuncCallExpr.visit : FuncCallExpr → List Visited
  | .mk _ _ args _ => .other :: visitOfExprs args

def SubqueryExpr.visit : SubqueryExpr → List Visited
  | .mk query => .other :: query.visit

def ResultSetNode.visit : ResultSetNode → List Visited
  | .nil => []
  | .SelectStmt n => n.visit
  | .SubqueryExpr n => n.visit
  | .TableSource source _ => .other :: source.visit
  | .TableName n => [.TableName n]
  | .Join n => n.visit
  | .SetOprStmt selectList => .other :: visitOfSources selectList

def SelectStmt.visit : SelectStmt → List Visited
  | .mk fields from_ where_ limit rest =>
    .other :: (fields.visit ++ from_.visit ++ where_.visit ++ visitOfExprs rest ++ limit.visit)

def FieldList.visit : FieldList → List Visited
  | .mk fields => .other :: visitOfFields fields

def visitOfFields : List SelectField → List Visited
  | [] => []
  | f :: fs => f.visit ++ visitOfFields fs

def SelectField.visit : SelectField → List Visited
  | .mk _ _ expr _ => .other :: expr.visit

def Limit.visit : Limit → List Visited
  | .nil => []
  | .mk count offset => .other :: (count.visit ++ offset.visit)

def TableRefsClause.visit : TableRefsClause → List Visited
  | .nil => []
  | .mk tableRefs => .other :: tableRefs.visit

def Join.visit : Join → List Visited
  | .mk l r _ cond _ => .other :: (l.visit ++ r.visit ++ cond.visit)

end

mutual

/-- The table-name nodes of the subtree below a node, in depth-first
pre-order: those of the first child, then those of the second, and so on, the
children taken in the order of the walk (for a SELECT the select list, the
FROM clause, the WHERE condition, the other clauses, the LIMIT clause). -/
def ExprNode.visitTableNames : ExprNode → List TableName
  | .nil => []
  | .ParamMarkerExpr _ => []
  | .ValueExpr _ => []
  | .AggregateFuncExpr n => n.visitTableNames
  | .BinaryOperationExpr n => n.visitTableNames
  | .ColumnNameExpr _ => []
  | .ExistsSubqueryExpr n => n.visitTableNames
  | .FuncCallExpr n => n.visitTableNames
  | .SubqueryExpr n => n.visitTableNames
  | .stub _ exprs sources => visitExprs exprs ++ visitSources sources
  | .unknown _ exprs sources => visitExprs exprs ++ visitSources sources

def visitExprs : List ExprNode → List TableName
  | [] => []
  | e :: es => e.visitTableNames ++ visitExprs es

def visitSources : List ResultSetNode → List TableName
  | [] => []
  | r :: rs => r.visitTableNames ++ visitSources rs

def AggregateFuncExpr.visitTableNames : AggregateFuncExpr → List TableName
  | .mk _ args _ => visitExprs args

def BinaryOperationExpr.visitTableNames : BinaryOperationExpr → List TableName
  | .mk _ l r => l.visitTableNames ++ r.visitTableNames

def ExistsSubqueryExpr.visitTableNames : ExistsSubqueryExpr → List TableName
  | .mk sel => sel.visitTableNames

def FuncCallExpr.visitTableNames : FuncCallExpr → List TableName
  | .mk _ _ args _ => visitExprs args

def SubqueryExpr.visitTableNames : SubqueryExpr → List TableName
  | .mk query => query.visitTableNames

def ResultSetNode.visitTableNames : ResultSetNode → List TableName
  | .nil => []
  | .SelectStmt n => n.visitTableNames
  | .SubqueryExpr n => n.visitTableNames
  | .TableSource source _ => source.visitTableNames
  | .TableName n => [n]
  | .Join n => n.visitTableNames
  | .SetOprStmt selectList => visitSources selectList

def SelectStmt.visitTableNames : SelectStmt → List TableName
  | .mk fields from_ where_ limit rest =>
    fields.visitTableNames ++ from_.visitTableNames ++ where_.visitTableNames
      ++ visitExprs rest ++ limit.visitTableNames

def FieldList.visitTableNames : FieldList → List TableName
  | .mk fields => visitFields fields

def visitFields : List SelectField → List TableName
  | [] => []
  | f :: fs => f.visitTableNames ++ visitFields fs

def SelectField.visitTableNames : SelectField → List TableName
  | .mk _ _ expr _ => expr.visitTableNames

def Limit.visitTableNames : Limit → List TableName
  | .nil => []
  | .mk count offset => count.visitTableNames ++ offset.visitTableNames

def TableRefsClause.visitTableNames : TableRefsClause → List TableName
  | .nil => []
  | .mk tableRefs => tableRefs.visitTableNames

def Join.visitTableNames : Join → List TableName
  | .mk l r _ cond _ =>
    l.visitTableNames ++ r.visitTableNames ++ cond.visitTableNames

end

/-! ## The converters

Every converter takes the state it runs in and gives back its result with
the state it leaves.  Converters that touch neither the counter nor the
diagnostics sink are plain functions.  A `for` loop that appends to a list is
a recursion over the slice it ranges over. -/

/-- The field `Items` of an `*ast.List`. -/
def ANode.Items : ANode → List ANode
  | .AstList items => items
  | _ => []

def opToName (o : Op) : String :=
  match o with
  | .EQ => "="
  | _ => o.Str

def convertParamMarkerExpr (s : State) (n : ParamMarkerExpr) : ANode × State :=
  let s1 : State := { s with c := { paramCount := s.c.paramCount + 1 } }
  (ANode.ParamRef s1.c.paramCount n.Offset, s1)

def convertValueExpr (n : ValueExpr) : ANode :=
  ANode.A_Const (ANode.AstString n.Datum.GetString)

def convertColumnNameExpr (n : ColumnNameExpr) : ANode :=
  ANode.ColumnRef (ANode.AstList [ANode.AstString n.Name.Name.O]) ""

def convertWildCardField (n : WildCardField) : ANode :=
  let items : List ANode :=
    if n.Table.O ≠ "" then [ANode.AstString n.Table.O] else []
  ANode.ColumnRef (ANode.AstList (items ++ [ANode.A_Star])) ""

/-- The callback `convertTableRefsClause` hands to `visit`: what it appends
to `tables` for a node. -/
def appendedForVisited : Visited → Option ANode
  | .TableName name => some (ANode.RangeVar name.Schema.O name.Name.O)
  | .other => none

def convertTableRefsClause (n : TableRefsClause) : ANode :=
  match n with
  | .nil => ANode.AstList []
  | n => ANode.AstList (n.visit.filterMap appendedForVisited)

/-- The test of the loop of `convertAggregateFuncExpr`: the argument is a
`driver.ValueExpr` whose `GetInt64()` is 1. -/
def isValueOne : ExprNode → Bool
  | .ValueExpr value => value.Datum.GetInt64 = 1
  | _ => false

/-- Writes the line of the default case of the dispatcher when `debug.Active`
is set. -/
def logUnknownNode (s : State) (typeName : String) : State :=
  if s.debugActive then
    s.print ("dolphin.convert: Unknown node type " ++ typeName ++ "\n")
  else s

mutual

/-- The dispatcher `convert` at an argument of static type `ExprNode`. -/
def convertExprNode (s : State) : ExprNode → ANode × State
  | .nil => (ANode.nil, s)
  | .ParamMarkerExpr n => convertParamMarkerExpr s n
  | .ValueExpr n => (convertValueExpr n, s)
  | .AggregateFuncExpr n => convertAggregateFuncExpr s n
  | .BinaryOperationExpr n => convertBinaryOperationExpr s n
  | .ColumnNameExpr n => (convertColumnNameExpr n, s)
  | .ExistsSubqueryExpr n => convertExistsSubqueryExpr s n
  | .FuncCallExpr n => convertFuncCallExpr s n
  | .SubqueryExpr n => convertSubqueryExpr s n
  | .stub _ _ _ => (ANode.TODO, s)
  | .unknown typeName _ _ => (ANode.TODO, logUnknownNode s typeName)

/-- The loop `for _, arg := range n.Args` of `convertFuncCallExpr`, also the
inner loop of `convertLists`: converts the expressions in order. -/
def convertExprNodes (s : State) : List ExprNode → List ANode × State
  | [] => ([], s)
  | e :: es =>
    let r := convertExprNode s e
    let rs := convertExprNodes r.2 es
    (r.1 :: rs.1, rs.2)

def convertAggregateFuncExpr (s : State) : AggregateFuncExpr → ANode × State
  | .mk f args distinct =>
    let r := convertAggregateArgs s args
    (ANode.FuncCall { Schema := "", Name := f } (ANode.AstList [ANode.AstString f])
      (ANode.AstList r.1.1) (ANode.AstList []) r.1.2 distinct 0, r.2)

/-- The loop `for _, a := range n.Args` of `convertAggregateFuncExpr`: the
arguments appended to `fn.Args.Items`, and whether `fn.AggStar` was set. -/
def convertAggregateArgs (s : State) : List ExprNode → (List ANode × Bool) × State
  | [] => (([], false), s)
  | a :: as =>
    if isValueOne a then
      let rs := convertAggregateArgs s as
      ((rs.1.1, true), rs.2)
    else
      let r := convertExprNode s a
      let rs := convertAggregateArgs r.2 as
      ((r.1 :: rs.1.1, rs.1.2), rs.2)

def convertBinaryOperationExpr (s : State) : BinaryOperationExpr → ANode × State
  | .mk op l r =>
    if op = Op.LogicAnd ∨ op = Op.LogicOr then
      let a := convertExprNode s l
      let b := convertExprNode a.2 r
      (ANode.BoolExpr (ANode.AstList [a.1, b.1]), b.2)
    else
      let a := convertExprNode s l
      let b := convertExprNode a.2 r
      (ANode.A_Expr (ANode.AstList [ANode.AstString (opToName op)]) a.1 b.1, b.2)

def convertExistsSubqueryExpr (s : State) : ExistsSubqueryExpr → ANode × State
  | .mk sel =>
    let r := convertExprNode s sel
    match r.1 with
    | .SelectStmt t f w lc lo v => (ANode.SubLink (ANode.SelectStmt t f w lc lo v), r.2)
    | _ => (ANode.SubLink ANode.nil, r.2)

def convertFuncCallExpr (s : State) : FuncCallExpr → ANode × State
  | .mk schema fnName args offset =>
    let items : List ANode :=
      if schema.O ≠ "" then [ANode.AstString schema.O] else []
    let r := convertExprNodes s args
    (ANode.FuncCall { Schema := schema.O, Name := fnName.O }
      (ANode.AstList (items ++ [ANode.AstString fnName.O]))
      (ANode.AstList r.1) ANode.nil false false offset, r.2)

def convertSubqueryExpr (s : State) : SubqueryExpr → ANode × State
  | .mk query => convertResultSetNode s query

/-- The dispatcher `convert` at an argument of static type `ResultSetNode`. -/
def convertResultSetNode (s : State) : ResultSetNode → ANode × State
  | .nil => (ANode.nil, s)
  | .SelectStmt n => convertSelectStmt s n
  | .SubqueryExpr n => convertSubqueryExpr s n
  | .TableSource _ _ => (ANode.TODO, s)
  | .TableName _ => (ANode.TODO, s)
  | .Join _ => (ANode.TODO, s)
  | .SetOprStmt _ => (ANode.TODO, s)

def convertSelectStmt (s : State) : SelectStmt → ANode × State
  | .mk fields from_ where_ limit _ =>
    let t := convertFieldList s fields
    let f := convertTableRefsClause from_
    let w := convertExprNode t.2 where_
    match limit with
    | .nil => (ANode.SelectStmt t.1 f w.1 ANode.nil ANode.nil ANode.nil, w.2)
    | .mk count offset =>
      let lc := convertExprNode w.2 count
      let lo := convertExprNode lc.2 offset
      (ANode.SelectStmt t.1 f w.1 lc.1 lo.1 ANode.nil, lo.2)

def convertFieldList (s : State) : FieldList → ANode × State
  | .mk fields =>
    let r := convertSelectFields s fields
    (ANode.AstList r.1, r.2)

/-- The loop `for i := range n.Fields` of `convertFieldList`. -/
def convertSelectFields (s : State) : List SelectField → List ANode × State
  | [] => ([], s)
  | f :: fs =>
    let r := convertSelectField s f
    let rs := convertSelectFields r.2 fs
    (r.1 :: rs.1, rs.2)

def convertSelectField (s : State) : SelectField → ANode × State
  | .mk offset wildCard expr asName =>
    let name : Option String := if asName.O ≠ "" then some asName.O else none
    match wildCard with
    | some w => (ANode.ResTarget name (convertWildCardField w) offset, s)
    | none =>
      let r := convertExprNode s expr
      (ANode.ResTarget name r.1 offset, r.2)

end

/-- The `ast.ColumnDef` that `convertAlterTableStmt` builds for a new
column. -/
def alterColumnDef (d : ColumnDef) : ANode :=
  ANode.ColumnDef d.Name.Str d.Tp.TypeStr (isNotNull d) "" ANode.nil

/-- The loop `for _, def := range spec.NewColumns` of the add-columns case of
`convertAlterTableStmt`; `cmds` is `alt.Cmds.Items`. -/
def alterAddColumns (cmds : List ANode) : List ColumnDef → List ANode
  | [] => cmds
  | d :: ds =>
    alterAddColumns
      (cmds ++ [ANode.AlterTableCmd (some d.Name.Str) .AT_AddColumn (alterColumnDef d) false])
      ds

/-- The loop `for _, def := range spec.NewColumns` of the modify-column case
of `convertAlterTableStmt`; `cmds` is `alt.Cmds.Items`. -/
def alterModifyColumns (cmds : List ANode) : List ColumnDef → List ANode
  | [] => cmds
  | d :: ds =>
    alterModifyColumns
      (cmds ++ [ANode.AlterTableCmd (some d.Name.Str) .AT_DropColumn ANode.nil false]
        ++ [ANode.AlterTableCmd (some d.Name.Str) .AT_AddColumn (alterColumnDef d) false])
      ds

/-- The loop `for _, spec := range n.Specs` of `convertAlterTableStmt`, with
the `return alt` that follows it; `cmds` is `alt.Cmds.Items`. -/
def alterSpecs (n : AlterTableStmt) (s : State) (cmds : List ANode) :
    List AlterTableSpec → ANode × State
  | [] => (ANode.AlterTableStmt (parseTableName n.Table) (ANode.AstList cmds), s)
  | spec :: specs =>
    match spec.Tp with
    | .AlterTableAddColumns => alterSpecs n s (alterAddColumns cmds spec.NewColumns) specs
    | .AlterTableDropColumn =>
      alterSpecs n s
        (cmds ++ [ANode.AlterTableCmd (some spec.OldColumnName.Str) .AT_DropColumn ANode.nil
          spec.IfExists])
        specs
    | .AlterTableChangeColumn => alterSpecs n s cmds specs
    | .AlterTableModifyColumn => alterSpecs n s (alterModifyColumns cmds spec.NewColumns) specs
    | .AlterTableAlterColumn => alterSpecs n s cmds specs
    | .AlterTableAddConstraint => alterSpecs n s cmds specs
    | .AlterTableRenameColumn =>
      (ANode.RenameColumnStmt (parseTableName n.Table)
        (ANode.ColumnRef ANode.nil spec.OldColumnName.Str) (some spec.NewColumnName.Str), s)
    | .AlterTableRenameTable =>
      (ANode.RenameTableStmt (parseTableName n.Table) (some (parseTableName spec.NewTable).Name),
        s)
    | .other code =>
      alterSpecs n
        (if s.debugActive then
          s.print ("dolphin.convert: Unknown alter table cmd " ++ toString code ++ "\n")
        else s)
        cmds specs

def convertAlterTableStmt (s : State) (n : AlterTableStmt) : ANode × State :=
  alterSpecs n s [] n.Specs

def convertAssignment (s : State) (n : Assignment) : ANode × State :=
  let r := convertExprNode s n.Expr
  (ANode.ResTarget (some n.Column.Name.O) r.1 0, r.2)

/-- The loop `for _, opt := range def.Options` of `convertCreateTableStmt`. -/
def columnComment (comment : String) : List ColumnOption → String
  | [] => comment
  | opt :: opts =>
    match opt.Tp with
    | .ColumnOptionComment =>
      match opt.Expr with
      | .ValueExpr value => columnComment value.Datum.GetString opts
      | _ => columnComment comment opts
    | _ => columnComment comment opts

/-- The loop `for _, opt := range n.Options` of `convertCreateTableStmt`. -/
def tableComment (comment : String) : List TableOption → String
  | [] => comment
  | opt :: opts =>
    match opt.Tp with
    | .TableOptionComment => tableComment opt.StrValue opts
    | _ => tableComment comment opts

/-- The body of the loop `for _, def := range n.Cols` of
`convertCreateTableStmt`. -/
def createColumnDef (d : ColumnDef) : ANode :=
  let vals : ANode :=
    if d.Tp.Elems.length > 0 then ANode.AstList (d.Tp.Elems.map ANode.AstString)
    else ANode.nil
  ANode.ColumnDef d.Name.Str d.Tp.TypeStr (isNotNull d) (columnComment "" d.Options) vals

def convertCreateTableStmt (n : CreateTableStmt) : ANode :=
  ANode.CreateTableStmt (parseTableName n.Table) n.IfNotExists
    (match n.ReferTable with
      | some t => some (parseTableName t)
      | none => none)
    (n.Cols.map createColumnDef) (tableComment "" n.Options)

def convertColumnNames (cols : List ColumnName) : ANode :=
  ANode.AstList (cols.map fun col => ANode.ResTarget (some col.Name.O) ANode.nil 0)

def convertDeleteStmt (s : State) (n : DeleteStmt) : Except String (ANode × State) :=
  let rels := convertTableRefsClause n.TableRefs
  if rels.Items.length ≠ 1 then .error "expected one range var"
  else
    match rels.Items.head? with
    | some (.RangeVar schemaname relname) =>
      let w := convertExprNode s n.Where
      .ok (ANode.DeleteStmt (ANode.RangeVar schemaname relname) w.1 (ANode.AstList []), w.2)
    | _ => .error "expected range var"

def convertDropTableStmt (n : DropTableStmt) : ANode :=
  if n.IsView then ANode.TODO
  else ANode.DropTableStmt n.IfExists (n.Tables.map parseTableName)

def convertRenameTableStmt (n : RenameTableStmt) : ANode :=
  ANode.RenameTableStmt (parseTableName n.OldTable) (some (parseTableName n.NewTable).Name)

def convertLists (s : State) : List (List ExprNode) → ANode × State
  | [] => (ANode.AstList [], s)
  | exprs :: lists =>
    let inner := convertExprNodes s exprs
    let r := convertLists inner.2 lists
    (ANode.AstList (ANode.AstList inner.1 :: r.1.Items), r.2)

def convertInsertStmt (s : State) (n : InsertStmt) : Except String (ANode × State) :=
  let rels := convertTableRefsClause n.Table
  if rels.Items.length ≠ 1 then .error "expected one range var"
  else
    match rels.Items.head? with
    | some (.RangeVar schemaname relname) =>
      let cols := convertColumnNames n.Columns
      let ss := convertResultSetNode s n.Select
      let lists := convertLists ss.2 n.Lists
      match ss.1 with
      | .SelectStmt t f w lc lo _ =>
        .ok (ANode.InsertStmt (ANode.RangeVar schemaname relname) cols (ANode.AstList [])
          (ANode.SelectStmt t f w lc lo lists.1), lists.2)
      | _ =>
        .ok (ANode.InsertStmt (ANode.RangeVar schemaname relname) cols (ANode.AstList [])
          (ANode.SelectStmt (ANode.AstList []) (ANode.AstList []) ANode.nil ANode.nil ANode.nil
            lists.1), lists.2)
    | _ => .error "expected range var"

/-- The loop `for _, a := range n.List` of `convertUpdateStmt`. -/
def convertAssignments (s : State) : List Assignment → List ANode × State
  | [] => ([], s)
  | a :: as =>
    let r := convertAssignment s a
    let rs := convertAssignments r.2 as
    (r.1 :: rs.1, rs.2)

def convertUpdateStmt (s : State) (n : UpdateStmt) : Except String (ANode × State) :=
  let rels := convertTableRefsClause n.TableRefs
  if rels.Items.length ≠ 1 then .error "expected one range var"
  else
    match rels.Items.head? with
    | some (.RangeVar schemaname relname) =>
      let list := convertAssignments s n.List
      let w := convertExprNode list.2 n.Where
      .ok (ANode.UpdateStmt (ANode.RangeVar schemaname relname) (ANode.AstList list.1) w.1
        (ANode.AstList []) (ANode.AstList []), w.2)
    | _ => .error "expected range var"

/-- The dispatcher.  A node of static type `ExprNode` or `ResultSetNode` goes
to the dispatcher at that type; every kind whose converter is a stub gives
`ast.TODO`; a kind without a case reaches the default branch. -/
def convert (s : State) : Node → Except String (ANode × State)
  | .nil => .ok (ANode.nil, s)
  | .ExprNode n => .ok (convertExprNode s n)
  | .ResultSetNode n => .ok (convertResultSetNode s n)
  | .AlterTableStmt n => .ok (convertAlterTableStmt s n)
  | .Assignment n => .ok (convertAssignment s n)
  | .CreateTableStmt n => .ok (convertCreateTableStmt n, s)
  | .DeleteStmt n => convertDeleteStmt s n
  | .DropTableStmt n => .ok (convertDropTableStmt n, s)
  | .FieldList n => .ok (convertFieldList s n)
  | .InsertStmt n => convertInsertStmt s n
  | .RenameTableStmt n => .ok (convertRenameTableStmt n, s)
  | .SelectField n => .ok (convertSelectField s n)
  | .TableRefsClause n => .ok (convertTableRefsClause n, s)
  | .UpdateStmt n => convertUpdateStmt s n
  | .WildCardField n => .ok (convertWildCardField n, s)
  | .stub _ _ => .ok (ANode.TODO, s)
  | .unknown typeName _ => .ok (ANode.TODO, logUnknownNode s typeName)

/-! ## Observations on the two trees -/

mutual

/-- The `ParamRef` nodes of a canonical tree, each as the pair of its
`Number` and its `Location`, in the order of a depth-first walk that takes the
fields of a node in the order they are declared above. -/
def ANode.paramRefs : ANode → List (Nat × Int)
  | .nil => []
  | .TODO => []
  | .AstList items => paramRefsOfList items
  | .AstString _ => []
  | .A_Star => []
  | .A_Const val => val.paramRefs
  | .ParamRef number location => [(number, location)]
  | .ColumnRef fields _ => fields.paramRefs
  | .ResTarget _ val _ => val.paramRefs
  | .BoolExpr args => args.paramRefs
  | .A_Expr name lexpr rexpr => name.paramRefs ++ lexpr.paramRefs ++ rexpr.paramRefs
  | .FuncCall _ funcname args aggOrder _ _ _ =>
    funcname.paramRefs ++ args.paramRefs ++ aggOrder.paramRefs
  | .SubLink subselect => subselect.paramRefs
  | .RangeVar _ _ => []
  | .SelectStmt t f w lc lo v =>
    t.paramRefs ++ f.paramRefs ++ w.paramRefs ++ lc.paramRefs ++ lo.paramRefs ++ v.paramRefs
  | .InsertStmt relation cols returning sel =>
    relation.paramRefs ++ cols.paramRefs ++ returning.paramRefs ++ sel.paramRefs
  | .UpdateStmt relation t w f returning =>
    relation.paramRefs ++ t.paramRefs ++ w.paramRefs ++ f.paramRefs ++ returning.paramRefs
  | .DeleteStmt relation w returning =>
    relation.paramRefs ++ w.paramRefs ++ returning.paramRefs
  | .ColumnDef _ _ _ _ vals => vals.paramRefs
  | .AlterTableCmd _ _ d _ => d.paramRefs
  | .AlterTableStmt _ cmds => cmds.paramRefs
  | .CreateTableStmt _ _ _ cols _ => paramRefsOfList cols
  | .DropTableStmt _ _ => []
  | .RenameColumnStmt _ col _ => col.paramRefs
  | .RenameTableStmt _ _ => []

def paramRefsOfList : List ANode → List (Nat × Int)
  | [] => []
  | x :: xs => x.paramRefs ++ paramRefsOfList xs

end

/-- The `Number`s of the `ParamRef` nodes of a canonical tree. -/
def ANode.paramNumbers (a : ANode) : List Nat := a.paramRefs.map Prod.fst

mutual

/-- The number of parameter markers anywhere in the tree below an
expression. -/
def ExprNode.markers : ExprNode → Nat
  | .nil => 0
  | .ParamMarkerExpr _ => 1
  | .ValueExpr _ => 0
  | .AggregateFuncExpr n => n.markers
  | .BinaryOperationExpr n => n.markers
  | .ColumnNameExpr _ => 0
  | .ExistsSubqueryExpr n => n.markers
  | .FuncCallExpr n => n.markers
  | .SubqueryExpr n => n.markers
  | .stub _ exprs sources => markersOfExprs exprs + markersOfSources sources
  | .unknown _ exprs sources => markersOfExprs exprs + markersOfSources sources

def markersOfExprs : List ExprNode → Nat
  | [] => 0
  | e :: es => e.markers + markersOfExprs es

def markersOfSources : List ResultSetNode → Nat
  | [] => 0
  | r :: rs => r.markers + markersOfSources rs

def AggregateFuncExpr.markers : AggregateFuncExpr → Nat
  | .mk _ args _ => markersOfExprs args

def BinaryOperationExpr.markers : BinaryOperationExpr → Nat
  | .mk _ l r => l.markers + r.markers

def ExistsSubqueryExpr.markers : ExistsSubqueryExpr → Nat
  | .mk sel => sel.markers

def FuncCallExpr.markers : FuncCallExpr → Nat
  | .mk _ _ args _ => markersOfExprs args

def SubqueryExpr.markers : SubqueryExpr → Nat
  | .mk query => query.markers

def ResultSetNode.markers : ResultSetNode → Nat
  | .nil => 0
  | .SelectStmt n => n.markers
  | .SubqueryExpr n => n.markers
  | .TableSource source _ => source.markers
  | .TableName _ => 0
  | .Join n => n.markers
  | .SetOprStmt selectList => markersOfSources selectList

def SelectStmt.markers : SelectStmt → Nat
  | .mk fields from_ where_ limit rest =>
    fields.markers + from_.markers + where_.markers + markersOfExprs rest + limit.markers

def FieldList.markers : FieldList → Nat
  | .mk fields => markersOfFields fields

def markersOfFields : List SelectField → Nat
  | [] => 0
  | f :: fs => f.markers + markersOfFields fs

def SelectField.markers : SelectField → Nat
  | .mk _ _ expr _ => expr.markers

def Limit.markers : Limit → Nat
  | .nil => 0
  | .mk count offset => count.markers + offset.markers

def TableRefsClause.markers : TableRefsClause → Nat
  | .nil => 0
  | .mk tableRefs => tableRefs.markers

def Join.markers : Join → Nat
  | .mk l r _ cond _ => l.markers + r.markers + cond.markers

end

/-- The number of parameter markers in the rows of an INSERT. -/
def markersOfLists : List (List ExprNode) → Nat
  | [] => 0
  | exprs :: lists => markersOfExprs exprs + markersOfLists lists

/-- The number of parameter markers in the column options of column
definitions. -/
def markersOfColumnDefs (ds : List ColumnDef) : Nat :=
  (ds.map fun d => (d.Options.map fun o => o.Expr.markers).sum).sum

mutual

/-- The number of parameter markers anywhere in the tree below a node. -/
def Node.markers : Node → Nat
  | .nil => 0
  | .ExprNode n => n.markers
  | .ResultSetNode n => n.markers
  | .AlterTableStmt n => (n.Specs.map fun spec => markersOfColumnDefs spec.NewColumns).sum
  | .Assignment n => n.Expr.markers
  | .CreateTableStmt n => markersOfColumnDefs n.Cols
  | .DeleteStmt n => n.TableRefs.markers + n.Where.markers + markersOfExprs n.rest
  | .DropTableStmt _ => 0
  | .FieldList n => n.markers
  | .InsertStmt n =>
    n.Table.markers + markersOfLists n.Lists + n.Select.markers + markersOfExprs n.rest
  | .RenameTableStmt _ => 0
  | .SelectField n => n.markers
  | .TableRefsClause n => n.markers
  | .UpdateStmt n =>
    n.TableRefs.markers + (n.List.map fun a => a.Expr.markers).sum + n.Where.markers
      + markersOfExprs n.rest
  | .WildCardField _ => 0
  | .stub _ children => markersOfNodes children
  | .unknown _ children => markersOfNodes children

def markersOfNodes : List Node → Nat
  | [] => 0
  | n :: ns => n.markers + markersOfNodes ns

end

mutual

/-- The parameter markers the dispatcher visits when it converts an
expression, each given by its `Offset`, in the order of the visits. -/
def ExprNode.visited : ExprNode → List Int
  | .nil => []
  | .ParamMarkerExpr n => [n.Offset]
  | .ValueExpr _ => []
  | .AggregateFuncExpr n => n.visited
  | .BinaryOperationExpr n => n.visited
  | .ColumnNameExpr _ => []
  | .ExistsSubqueryExpr n => n.visited
  | .FuncCallExpr n => n.visited
  | .SubqueryExpr n => n.visited
  | .stub _ _ _ => []
  | .unknown _ _ _ => []

def visitedOfExprs : List ExprNode → List Int
  | [] => []
  | e :: es => e.visited ++ visitedOfExprs es

def AggregateFuncExpr.visited : AggregateFuncExpr → List Int
  | .mk _ args _ => visitedOfAggregateArgs args

def visitedOfAggregateArgs : List ExprNode → List Int
  | [] => []
  | a :: as =>
    if isValueOne a then visitedOfAggregateArgs as
    else a.visited ++ visitedOfAggregateArgs as

def BinaryOperationExpr.visited : BinaryOperationExpr → List Int
  | .mk _ l r => l.visited ++ r.visited

def ExistsSubqueryExpr.visited : ExistsSubqueryExpr → List Int
  | .mk sel => sel.visited

def FuncCallExpr.visited : FuncCallExpr → List Int
  | .mk _ _ args _ => visitedOfExprs args

def SubqueryExpr.visited : SubqueryExpr → List Int
  | .mk query => query.visited

def ResultSetNode.visited : ResultSetNode → List Int
  | .nil => []
  | .SelectStmt n => n.visited
  | .SubqueryExpr n => n.visited
  | .TableSource _ _ => []
  | .TableName _ => []
  | .Join _ => []
  | .SetOprStmt _ => []

def SelectStmt.visited : SelectStmt → List Int
  | .mk fields _ where_ limit _ => fields.visited ++ where_.visited ++ limit.visited

def FieldList.visited : FieldList → List Int
  | .mk fields => visitedOfFields fields

def visitedOfFields : List SelectField → List Int
  | [] => []
  | f :: fs => f.visited ++ visitedOfFields fs

def SelectField.visited : SelectField → List Int
  | .mk _ (some _) _ _ => []
  | .mk _ none expr _ => expr.visited

def Limit.visited : Limit → List Int
  | .nil => []
  | .mk count offset => count.visited ++ offset.visited

end

def visitedOfLists : List (List ExprNode) → List Int
  | [] => []
  | exprs :: lists => visitedOfExprs exprs ++ visitedOfLists lists

def visitedOfAssignments : List Assignment → List Int
  | [] => []
  | a :: as => a.Expr.visited ++ visitedOfAssignments as

/-- The parameter markers the dispatcher visits when it converts a node
without aborting, each given by its `Offset`, in the order of the visits. -/
def Node.visited : Node → List Int
  | .nil => []
  | .ExprNode n => n.visited
  | .ResultSetNode n => n.visited
  | .AlterTableStmt _ => []
  | .Assignment n => n.Expr.visited
  | .CreateTableStmt _ => []
  | .DeleteStmt n => n.Where.visited
  | .DropTableStmt _ => []
  | .FieldList n => n.visited
  | .InsertStmt n => n.Select.visited ++ visitedOfLists n.Lists
  | .RenameTableStmt _ => []
  | .SelectField n => n.visited
  | .TableRefsClause _ => []
  | .UpdateStmt n => visitedOfAssignments n.List ++ n.Where.visited
  | .WildCardField _ => []
  | .stub _ _ => []
  | .unknown _ _ => []

/-- The `ParamRef`s of markers numbered from `c + 1` on: the i-th marker gets
the number `c + i` and keeps its offset as location. -/
def numbered (c : Nat) (offsets : List Int) : List (Nat × Int) :=
  (List.range' (c + 1) offsets.length).zip offsets

mutual

/-- Every EXISTS expression the dispatcher converts below this expression has
a subquery expression as its operand, which is the shape the grammar gives
it. -/
def ExprNode.existsOnSubquery : ExprNode → Bool
  | .nil => true
  | .ParamMarkerExpr _ => true
  | .ValueExpr _ => true
  | .AggregateFuncExpr n => n.existsOnSubquery
  | .BinaryOperationExpr n => n.existsOnSubquery
  | .ColumnNameExpr _ => true
  | .ExistsSubqueryExpr n => n.existsOnSubquery
  | .FuncCallExpr n => n.existsOnSubquery
  | .SubqueryExpr n => n.existsOnSubquery
  | .stub _ _ _ => true
  | .unknown _ _ _ => true

def existsOnSubqueryExprs : List ExprNode → Bool
  | [] => true
  | e :: es => e.existsOnSubquery && existsOnSubqueryExprs es

def AggregateFuncExpr.existsOnSubquery : AggregateFuncExpr → Bool
  | .mk _ args _ => existsOnSubqueryExprs args

def BinaryOperationExpr.existsOnSubquery : BinaryOperationExpr → Bool
  | .mk _ l r => l.existsOnSubquery && r.existsOnSubquery

def ExistsSubqueryExpr.existsOnSubquery : ExistsSubqueryExpr → Bool
  | .mk (.SubqueryExpr n) => n.existsOnSubquery
  | .mk _ => false

def FuncCallExpr.existsOnSubquery : FuncCallExpr → Bool
  | .mk _ _ args _ => existsOnSubqueryExprs args

def SubqueryExpr.existsOnSubquery : SubqueryExpr → Bool
  | .mk query => query.existsOnSubquery

def ResultSetNode.existsOnSubquery : ResultSetNode → Bool
  | .nil => true
  | .SelectStmt n => n.existsOnSubquery
  | .SubqueryExpr n => n.existsOnSubquery
  | .TableSource _ _ => true
  | .TableName _ => true
  | .Join _ => true
  | .SetOprStmt _ => true

def SelectStmt.existsOnSubquery : SelectStmt → Bool
  | .mk fields _ where_ limit _ =>
    fields.existsOnSubquery && where_.existsOnSubquery && limit.existsOnSubquery

def FieldList.existsOnSubquery : FieldList → Bool
  | .mk fields => existsOnSubqueryFields fields

def existsOnSubqueryFields : List SelectField → Bool
  | [] => true
  | f :: fs => f.existsOnSubquery && existsOnSubqueryFields fs

def SelectField.existsOnSubquery : SelectField → Bool
  | .mk _ (some _) _ _ => true
  | .mk _ none expr _ => expr.existsOnSubquery

def Limit.existsOnSubquery : Limit → Bool
  | .nil => true
  | .mk count offset => count.existsOnSubquery && offset.existsOnSubquery

end

def existsOnSubqueryLists : List (List ExprNode) → Bool
  | [] => true
  | exprs :: lists => existsOnSubqueryExprs exprs && existsOnSubqueryLists lists

def existsOnSubqueryAssignments : List Assignment → Bool
  | [] => true
  | a :: as => a.Expr.existsOnSubquery && existsOnSubqueryAssignments as

/-- Every EXISTS expression the dispatcher converts below this node has a
subquery expression as its operand. -/
def Node.existsOnSubquery : Node → Bool
  | .ExprNode n => n.existsOnSubquery
  | .ResultSetNode n => n.existsOnSubquery
  | .Assignment n => n.Expr.existsOnSubquery
  | .DeleteStmt n => n.Where.existsOnSubquery
  | .FieldList n => n.existsOnSubquery
  | .InsertStmt n => n.Select.existsOnSubquery && existsOnSubqueryLists n.Lists
  | .SelectField n => n.existsOnSubquery
  | .UpdateStmt n => existsOnSubqueryAssignments n.List && n.Where.existsOnSubquery
  | _ => true

/-- The conversion that led from state `s` to state `s1` with a result whose
`ParamRef`s are `refs` visited the markers `offsets`, and `full` says that no
visited marker was discarded: the counter has advanced by the number of
markers, every `ParamRef` kept is a marker with the number of its visit, and
all of them are kept when `full` holds. -/
def Tracks (s : State) (offsets : List Int) (full : Bool) (refs : List (Nat × Int))
    (s1 : State) : Prop :=
  s1.c.paramCount = s.c.paramCount + offsets.length ∧
  refs.Sublist (numbered s.c.paramCount offsets) ∧
  (full = true → refs = numbered s.c.paramCount offsets)

/-- What the conversion of a result set can be: a select without values
lists, or one of the two results that stand for no select, in which case no
marker was visited. -/
def SelectShape (a : ANode) (offsets : List Int) : Prop :=
  (∃ t f w lc lo, a = ANode.SelectStmt t f w lc lo ANode.nil) ∨
  ((a = ANode.TODO ∨ a = ANode.nil) ∧ offsets = [])

/-- An expression of a kind without an implemented conversion: one whose
converter is a stub, or one the dispatcher has no case for. -/
def ExprNode.unimplemented : ExprNode → Bool
  | .stub _ _ _ => true
  | .unknown _ _ _ => true
  | _ => false

/-- The spec is a rename-column or a rename-table spec. -/
def AlterTableSpec.isRename (spec : AlterTableSpec) : Bool :=
  match spec.Tp with
  | .AlterTableRenameColumn => true
  | .AlterTableRenameTable => true
  | _ => false

/-- The DropColumn command of a column for a modify-column spec, as the
specification of the statement converters words it. -/
def specDropColumn (d : ColumnDef) : ANode :=
  ANode.AlterTableCmd (some d.Name.Str) .AT_DropColumn ANode.nil false

/-- The AddColumn command of a new column, as the specification of the
statement converters words it: the name, and a definition with the column
name, the type name and the not-null flag. -/
def specAddColumn (d : ColumnDef) : ANode :=
  ANode.AlterTableCmd (some d.Name.Str) .AT_AddColumn
    (ANode.ColumnDef d.Name.Str d.Tp.TypeStr (isNotNull d) "" ANode.nil) false

/-- The commands of one alteration spec, as the specification of the
statement converters words them: one AddColumn per new column, one DropColumn
with the IF EXISTS flag, a DropColumn followed by an AddColumn per modified
column, and nothing for any other kind. -/
def specCommands (spec : AlterTableSpec) : List ANode :=
  match spec.Tp with
  | .AlterTableAddColumns => spec.NewColumns.map specAddColumn
  | .AlterTableDropColumn =>
    [ANode.AlterTableCmd (some spec.OldColumnName.Str) .AT_DropColumn ANode.nil spec.IfExists]
  | .AlterTableModifyColumn => spec.NewColumns.flatMap fun d => [specDropColumn d, specAddColumn d]
  | _ => []

/-- The number of commands of one alteration spec. -/
def specCommandCount (spec : AlterTableSpec) : Nat :=
  match spec.Tp with
  | .AlterTableAddColumns => spec.NewColumns.length
  | .AlterTableDropColumn => 1
  | .AlterTableModifyColumn => 2 * spec.NewColumns.length
  | _ => 0

/-- The conversion was aborted by a panic. -/
def aborted (r : Except String (ANode × State)) : Prop :=
  ∃ message, r = .error message

/-- The result of `convertInsertStmt` once it has found the relation: the part
of its body after the two checks. -/
def insertResult (s : State) (n : InsertStmt) (relation : ANode) : ANode × State :=
  let ss := convertResultSetNode s n.Select
  let lists := convertLists ss.2 n.Lists
  match ss.1 with
  | .SelectStmt t f w lc lo _ =>
    (ANode.InsertStmt relation (convertColumnNames n.Columns) (ANode.AstList [])
      (ANode.SelectStmt t f w lc lo lists.1), lists.2)
  | _ =>
    (ANode.InsertStmt relation (convertColumnNames n.Columns) (ANode.AstList [])
      (ANode.SelectStmt (ANode.AstList []) (ANode.AstList []) ANode.nil ANode.nil ANode.nil
        lists.1), lists.2)

/-! ## Sample statements -/

/-- The table clause of `FROM name`. -/
def sampleFrom (name : String) : TableRefsClause :=
  .mk (.mk (.TableSource (.TableName ⟨⟨""⟩, ⟨name⟩⟩) ⟨""⟩) .nil .CrossJoin .nil [])

/-- The select field `*` at offset 7. -/
def sampleStar : SelectField :=
  .mk 7 (some ⟨⟨""⟩, ⟨""⟩⟩) .nil ⟨""⟩

/-- The column reference `name`. -/
def sampleColumn (name : String) : ExprNode :=
  .ColumnNameExpr ⟨⟨⟨""⟩, ⟨""⟩, ⟨name⟩, name⟩⟩

/-- The column name `name`. -/
def sampleColumnName (name : String) : ColumnName :=
  ⟨⟨""⟩, ⟨""⟩, ⟨name⟩, name⟩

/-- The statement `SELECT * FROM t WHERE a BETWEEN ? AND ?`, the markers at offsets 30 and
36. -/
def sampleBetweenSelect : Node :=
  .ResultSetNode (.SelectStmt (.mk (.mk [sampleStar]) (sampleFrom "t")
    (.stub .BetweenExpr
      [sampleColumn "a", .ParamMarkerExpr ⟨30⟩, .ParamMarkerExpr ⟨36⟩] [])
    .nil []))

/-- The statement `SELECT * FROM t LIMIT ?, ?`: the first marker, at offset 22, is the
offset of the limit and the second, at offset 25, is its count. -/
def sampleLimitSelect : Node :=
  .ResultSetNode (.SelectStmt (.mk (.mk [sampleStar]) (sampleFrom "t") .nil
    (.mk (.ParamMarkerExpr ⟨25⟩) (.ParamMarkerExpr ⟨22⟩)) []))

/-- The statement `SELECT * FROM t WHERE a = ? AND EXISTS (SELECT * FROM u WHERE b = ?)`,
the markers at offsets 26 and 64. -/
def sampleExistsSelect : Node :=
  .ResultSetNode (.SelectStmt (.mk (.mk [sampleStar]) (sampleFrom "t")
    (.BinaryOperationExpr (.mk .LogicAnd
      (.BinaryOperationExpr (.mk .EQ (sampleColumn "a") (.ParamMarkerExpr ⟨26⟩)))
      (.ExistsSubqueryExpr (.mk (.SubqueryExpr (.mk (.SelectStmt
        (.mk (.mk [sampleStar]) (sampleFrom "u")
          (.BinaryOperationExpr (.mk .EQ (sampleColumn "b") (.ParamMarkerExpr ⟨64⟩)))
          .nil []))))))))
    .nil []))

/-- The statement `UPDATE t SET a = ?, b = MAX(?) WHERE c = ?`, the markers at offsets 17,
28 and 41. -/
def sampleUpdate : Node :=
  .UpdateStmt
    { TableRefs := sampleFrom "t"
      Where := .BinaryOperationExpr (.mk .EQ (sampleColumn "c") (.ParamMarkerExpr ⟨41⟩))
      rest := []
      List := [⟨sampleColumnName "a", .ParamMarkerExpr ⟨17⟩⟩,
        ⟨sampleColumnName "b", .AggregateFuncExpr (.mk "max" [.ParamMarkerExpr ⟨28⟩] false)⟩] }

/-- A column definition `name typeStr`. -/
def sampleColumnDef (name typeStr : String) : ColumnDef :=
  { Name := sampleColumnName name, Tp := ⟨typeStr, []⟩, Options := [], NotNull := false }

/-- An alteration spec of the given kind with the given new columns, on the
old column `a` and the new column `b`, and the new table `u`. -/
def sampleSpec (tp : AlterTableType) (newColumns : List ColumnDef) : AlterTableSpec :=
  { Tp := tp, NewColumns := newColumns, OldColumnName := sampleColumnName "a",
    NewColumnName := sampleColumnName "b", IfExists := true, NewTable := ⟨⟨""⟩, ⟨"u"⟩⟩ }

/-- The statement `ALTER TABLE t ADD COLUMN c int, RENAME COLUMN a TO b, DROP COLUMN a`. -/
def sampleAlterRename : AlterTableStmt :=
  { Table := ⟨⟨""⟩, ⟨"t"⟩⟩
    Specs := [sampleSpec .AlterTableAddColumns [sampleColumnDef "c" "int"],
      sampleSpec .AlterTableRenameColumn [], sampleSpec .AlterTableDropColumn []] }

/-- The statement `ALTER TABLE t ADD COLUMN c int, MODIFY COLUMN d text, DROP COLUMN IF
EXISTS a, ALTER COLUMN ...`. -/
def sampleAlter : AlterTableStmt :=
  { Table := ⟨⟨""⟩, ⟨"t"⟩⟩
    Specs := [sampleSpec .AlterTableAddColumns [sampleColumnDef "c" "int"],
      sampleSpec .AlterTableModifyColumn [sampleColumnDef "d" "text"],
      sampleSpec .AlterTableDropColumn [], sampleSpec .AlterTableAlterColumn []] }

/-- The statement `INSERT INTO t (a, b) VALUES (?, 1)`, the marker at offset
30. -/
def sampleInsert : InsertStmt :=
  { Table := sampleFrom "t"
    Columns := [sampleColumnName "a", sampleColumnName "b"]
    Lists := [[.ParamMarkerExpr ⟨30⟩, .ValueExpr ⟨⟨.KindInt64, 1, ""⟩⟩]]
    Select := .nil
    rest := [] }

/-- The statement `UPDATE t SET a = ? WHERE b = ?`, the markers at offsets 17
and 29. -/
def sampleUpdateWhere : UpdateStmt :=
  { TableRefs := sampleFrom "t"
    Where := .BinaryOperationExpr (.mk .EQ (sampleColumn "b") (.ParamMarkerExpr ⟨29⟩))
    rest := []
    List := [⟨sampleColumnName "a", .ParamMarkerExpr ⟨17⟩⟩] }

/-- The expression `(SELECT 1 UNION SELECT 2)`, a subquery whose query is a
set operation. -/
def sampleUnionSubquery : ExprNode :=
  .SubqueryExpr (.mk (.SetOprStmt
    [.SelectStmt (.mk (.mk [.mk 8 none (.ValueExpr ⟨⟨.KindInt64, 1, ""⟩⟩) ⟨""⟩]) .nil .nil .nil []),
     .SelectStmt (.mk (.mk [.mk 23 none (.ValueExpr ⟨⟨.KindInt64, 2, ""⟩⟩) ⟨""⟩]) .nil .nil .nil [])]))

/-- The comment of a column as the specification words it: the string of the
last COMMENT option that has a literal as value, and the empty string when
there is none. -/
def specColumnComment (options : List ColumnOption) : String :=
  ((options.filterMap fun opt =>
    match opt.Tp, opt.Expr with
    | .ColumnOptionComment, .ValueExpr value => some value.Datum.GetString
    | _, _ => none).getLast?).getD ""

/-- The comment of a table as the specification words it: the string of the
last COMMENT option, and the empty string when there is none. -/
def specTableComment (options : List TableOption) : String :=
  ((options.filterMap fun opt =>
    match opt.Tp with
    | .TableOptionComment => some opt.StrValue
    | _ => none).getLast?).getD ""

/-- The column definition of a declared column as the specification words
it. -/
def specColumnDef (d : ColumnDef) : ANode :=
  ANode.ColumnDef d.Name.Str d.Tp.TypeStr (isNotNull d) (specColumnComment d.Options)
    (if d.Tp.Elems = [] then ANode.nil else ANode.AstList (d.Tp.Elems.map ANode.AstString))

mutual

/-- The canonical tree with every `ParamRef` number raised by `k`. -/
def ANode.shift (k : Nat) : ANode → ANode
  | .nil => .nil
  | .TODO => .TODO
  | .AstList items => .AstList (shiftList k items)
  | .AstString str => .AstString str
  | .A_Star => .A_Star
  | .A_Const val => .A_Const (val.shift k)
  | .ParamRef number location => .ParamRef (number + k) location
  | .ColumnRef fields name => .ColumnRef (fields.shift k) name
  | .ResTarget name val location => .ResTarget name (val.shift k) location
  | .BoolExpr args => .BoolExpr (args.shift k)
  | .A_Expr name lexpr rexpr => .A_Expr (name.shift k) (lexpr.shift k) (rexpr.shift k)
  | .FuncCall func funcname args aggOrder aggStar aggDistinct location =>
    .FuncCall func (funcname.shift k) (args.shift k) (aggOrder.shift k) aggStar aggDistinct
      location
  | .SubLink subselect => .SubLink (subselect.shift k)
  | .RangeVar schemaname relname => .RangeVar schemaname relname
  | .SelectStmt t f w lc lo v =>
    .SelectStmt (t.shift k) (f.shift k) (w.shift k) (lc.shift k) (lo.shift k) (v.shift k)
  | .InsertStmt relation cols returning sel =>
    .InsertStmt (relation.shift k) (cols.shift k) (returning.shift k) (sel.shift k)
  | .UpdateStmt relation t w f returning =>
    .UpdateStmt (relation.shift k) (t.shift k) (w.shift k) (f.shift k) (returning.shift k)
  | .DeleteStmt relation w returning =>
    .DeleteStmt (relation.shift k) (w.shift k) (returning.shift k)
  | .ColumnDef colname typeName isNotNull comment vals =>
    .ColumnDef colname typeName isNotNull comment (vals.shift k)
  | .AlterTableCmd name subtype d missingOk => .AlterTableCmd name subtype (d.shift k) missingOk
  | .AlterTableStmt table cmds => .AlterTableStmt table (cmds.shift k)
  | .CreateTableStmt name ifNotExists referTable cols comment =>
    .CreateTableStmt name ifNotExists referTable (shiftList k cols) comment
  | .DropTableStmt ifExists tables => .DropTableStmt ifExists tables
  | .RenameColumnStmt table col newName => .RenameColumnStmt table (col.shift k) newName
  | .RenameTableStmt table newName => .RenameTableStmt table newName

def shiftList (k : Nat) : List ANode → List ANode
  | [] => []
  | x :: xs => x.shift k :: shiftList k xs

end

/-- The state with the counter set to `c`. -/
def State.withCount (s : State) (c : Nat) : State :=
  { s with c := { paramCount := c } }

/-- The state with the counter raised by `k`. -/
def State.addCount (s : State) (k : Nat) : State :=
  s.withCount (s.c.paramCount + k)

/-- The result of a conversion with every `ParamRef` number and the counter
raised by `k`; an abort stays the same abort. -/
def shiftResult (k : Nat) (r : Except String (ANode × State)) : Except String (ANode × State) :=
  match r with
  | .ok (a, s) => .ok (a.shift k, s.addCount k)
  | .error message => .error message

/-- The statement `SELECT ? FROM t WHERE a = ? LIMIT ? OFFSET ?`, the markers
at offsets 7, 26, 34 and 43. -/
def sampleNumberedSelect : SelectStmt :=
  .mk (.mk [.mk 7 none (.ParamMarkerExpr ⟨7⟩) ⟨""⟩]) (sampleFrom "t")
    (.BinaryOperationExpr (.mk .EQ (sampleColumn "a") (.ParamMarkerExpr ⟨26⟩)))
    (.mk (.ParamMarkerExpr ⟨34⟩) (.ParamMarkerExpr ⟨43⟩)) []

/-- The table source `name`, without an alias. -/
def sampleTable (name : String) : ResultSetNode :=
  .TableSource (.TableName ⟨⟨""⟩, ⟨name⟩⟩) ⟨""⟩

/-- The subquery `(SELECT 1 FROM name)`. -/
def sampleSubquery (name : String) : ExprNode :=
  .SubqueryExpr (.mk (.SelectStmt
    (.mk (.mk [.mk 0 none (.ValueExpr ⟨⟨.KindInt64, 1, ""⟩⟩) ⟨""⟩]) (sampleFrom name)
      .nil .nil [])))

/-- The clause `FROM a LEFT JOIN b ON x = y`. -/
def sampleJoinOn : TableRefsClause :=
  .mk (.mk (sampleTable "a") (sampleTable "b") .LeftJoin
    (.BinaryOperationExpr (.mk .EQ (sampleColumn "x") (sampleColumn "y"))) [])

/-- The clause `FROM a JOIN b ON EXISTS (SELECT 1 FROM c)`. -/
def sampleJoinOnExists : TableRefsClause :=
  .mk (.mk (sampleTable "a") (sampleTable "b") .CrossJoin
    (.ExistsSubqueryExpr (.mk (sampleSubquery "c"))) [])

/-- The clause
`FROM (SELECT (SELECT 1 FROM a) FROM b WHERE EXISTS (SELECT 1 FROM c)) AS d JOIN e`:
a derived table with a table below its select list, one in its FROM clause
and one below its WHERE condition, joined with a table. -/
def sampleDerivedJoin : TableRefsClause :=
  .mk (.mk
    (.TableSource
      (.SelectStmt (.mk (.mk [.mk 0 none (sampleSubquery "a") ⟨""⟩]) (sampleFrom "b")
        (.ExistsSubqueryExpr (.mk (sampleSubquery "c"))) .nil []))
      ⟨"d"⟩)
    (sampleTable "e") .CrossJoin .nil [])

/-- A literal of integer value 1, as the specification words the argument
that stands for the star: a literal written as an integer, signed or
unsigned, whose value is 1. -/
def isLiteralIntegerOne : ExprNode → Bool
  | .ValueExpr value =>
    (value.Datum.k = .KindInt64 || value.Datum.k = .KindUint64) && value.Datum.i = 1
  | _ => false

/-- The literal `5e-324` as the parser library builds it: a datum of kind
`KindFloat64` whose `i` holds the bits of the number.  It is the smallest
positive float64, and its bits are `0x0000000000000001`. -/
def sampleFloatLiteral : ValueExpr :=
  ⟨⟨.KindFloat64, 1, ""⟩⟩

/-! ## Lemmas on numbering -/

theorem numbered_nil (c : Nat) : numbered c [] = [] := by
  simp [numbered]

theorem numbered_cons (c : Nat) (o : Int) (os : List Int) :
    numbered c (o :: os) = (c + 1, o) :: numbered (c + 1) os := by
  simp [numbered, List.range'_succ]

theorem numbered_append (c : Nat) (xs ys : List Int) :
    numbered c (xs ++ ys) = numbered c xs ++ numbered (c + xs.length) ys := by
  induction xs generalizing c with
  | nil => simp [numbered_nil]
  | cons x xs ih =>
    have e : c + (xs.length + 1) = c + 1 + xs.length := by omega
    simp only [List.cons_append, numbered_cons, ih, List.length_cons, e]

theorem map_fst_numbered (c : Nat) (os : List Int) :
    (numbered c os).map Prod.fst = List.range' (c + 1) os.length := by
  induction os generalizing c with
  | nil => simp [numbered_nil]
  | cons o os ih => simp [numbered_cons, ih, List.range'_succ]

theorem map_snd_numbered (c : Nat) (os : List Int) :
    (numbered c os).map Prod.snd = os := by
  induction os generalizing c with
  | nil => simp [numbered_nil]
  | cons o os ih => simp [numbered_cons, ih]

theorem Tracks.refl (s : State) (full : Bool) : Tracks s [] full [] s := by
  simp [Tracks, numbered_nil]

theorem Tracks.same_counter {s s1 : State} (full : Bool) (h : s1.c = s.c) :
    Tracks s [] full [] s1 := by
  simp [Tracks, numbered_nil, h]

theorem Tracks.append {s s1 s2 : State} {o1 o2 : List Int} {f1 f2 : Bool}
    {r1 r2 : List (Nat × Int)} (h1 : Tracks s o1 f1 r1 s1) (h2 : Tracks s1 o2 f2 r2 s2) :
    Tracks s (o1 ++ o2) (f1 && f2) (r1 ++ r2) s2 := by
  obtain ⟨c1, l1, e1⟩ := h1
  obtain ⟨c2, l2, e2⟩ := h2
  rw [c1] at l2 e2 c2
  refine ⟨?_, ?_, ?_⟩
  · simp only [List.length_append]; omega
  · rw [numbered_append]; exact List.Sublist.append l1 l2
  · intro hf
    simp only [Bool.and_eq_true] at hf
    rw [numbered_append, e1 hf.1, e2 hf.2]

/-! ## The counter and the `ParamRef`s of a conversion -/

theorem isValueOne_visited {a : ExprNode} (h : isValueOne a = true) :
    a.visited = [] ∧ a.existsOnSubquery = true := by
  cases a <;> simp_all [isValueOne, ExprNode.visited, ExprNode.existsOnSubquery]

theorem paramRefsOfList_rangeVars (ts : List TableName) :
    paramRefsOfList (ts.map fun name => ANode.RangeVar name.Schema.O name.Name.O) = [] := by
  induction ts with
  | nil => simp [paramRefsOfList]
  | cons t ts ih => simp [paramRefsOfList, ANode.paramRefs, ih]

mutual

theorem visit_tableNames_exprNode : ∀ e : ExprNode,
    e.visit.filterMap appendedForVisited =
      e.visitTableNames.map fun name => ANode.RangeVar name.Schema.O name.Name.O
  | .nil => by simp [ExprNode.visit, ExprNode.visitTableNames]
  | .ParamMarkerExpr _ => by simp [ExprNode.visit, ExprNode.visitTableNames, appendedForVisited]
  | .ValueExpr _ => by simp [ExprNode.visit, ExprNode.visitTableNames, appendedForVisited]
  | .AggregateFuncExpr n => by
    simpa [ExprNode.visit, ExprNode.visitTableNames] using visit_tableNames_aggregateFuncExpr n
  | .BinaryOperationExpr n => by
    simpa [ExprNode.visit, ExprNode.visitTableNames]
      using visit_tableNames_binaryOperationExpr n
  | .ColumnNameExpr _ => by simp [ExprNode.visit, ExprNode.visitTableNames, appendedForVisited]
  | .ExistsSubqueryExpr n => by
    simpa [ExprNode.visit, ExprNode.visitTableNames] using visit_tableNames_existsSubqueryExpr n
  | .FuncCallExpr n => by
    simpa [ExprNode.visit, ExprNode.visitTableNames] using visit_tableNames_funcCallExpr n
  | .SubqueryExpr n => by
    simpa [ExprNode.visit, ExprNode.visitTableNames] using visit_tableNames_subqueryExpr n
  | .stub _ exprs sources => by
    simp [ExprNode.visit, ExprNode.visitTableNames, appendedForVisited,
      visit_tableNames_exprs exprs, visit_tableNames_sources sources]
  | .unknown _ exprs sources => by
    simp [ExprNode.visit, ExprNode.visitTableNames, appendedForVisited,
      visit_tableNames_exprs exprs, visit_tableNames_sources sources]

theorem visit_tableNames_exprs : ∀ es : List ExprNode,
    (visitOfExprs es).filterMap appendedForVisited =
      (visitExprs es).map fun name => ANode.RangeVar name.Schema.O name.Name.O
  | [] => by simp [visitOfExprs, visitExprs]
  | e :: es => by
    simp [visitOfExprs, visitExprs, visit_tableNames_exprNode e, visit_tableNames_exprs es]

theorem visit_tableNames_sources : ∀ rs : List ResultSetNode,
    (visitOfSources rs).filterMap appendedForVisited =
      (visitSources rs).map fun name => ANode.RangeVar name.Schema.O name.Name.O
  | [] => by simp [visitOfSources, visitSources]
  | r :: rs => by
    simp [visitOfSources, visitSources, visit_tableNames_resultSetNode r,
      visit_tableNames_sources rs]

theorem visit_tableNames_aggregateFuncExpr : ∀ n : AggregateFuncExpr,
    n.visit.filterMap appendedForVisited =
      n.visitTableNames.map fun name => ANode.RangeVar name.Schema.O name.Name.O
  | .mk _ args _ => by
    simp [AggregateFuncExpr.visit, AggregateFuncExpr.visitTableNames, appendedForVisited,
      visit_tableNames_exprs args]

theorem visit_tableNames_binaryOperationExpr : ∀ n : BinaryOperationExpr,
    n.visit.filterMap appendedForVisited =
      n.visitTableNames.map fun name => ANode.RangeVar name.Schema.O name.Name.O
  | .mk _ l r => by
    simp [BinaryOperationExpr.visit, BinaryOperationExpr.visitTableNames, appendedForVisited,
      visit_tableNames_exprNode l, visit_tableNames_exprNode r]

theorem visit_tableNames_existsSubqueryExpr : ∀ n : ExistsSubqueryExpr,
    n.visit.filterMap appendedForVisited =
      n.visitTableNames.map fun name => ANode.RangeVar name.Schema.O name.Name.O
  | .mk sel => by
    simp [ExistsSubqueryExpr.visit, ExistsSubqueryExpr.visitTableNames, appendedForVisited,
      visit_tableNames_exprNode sel]

theorem visit_tableNames_funcCallExpr : ∀ n : FuncCallExpr,
    n.visit.filterMap appendedForVisited =
      n.visitTableNames.map fun name => ANode.RangeVar name.Schema.O name.Name.O
  | .mk _ _ args _ => by
    simp [FuncCallExpr.visit, FuncCallExpr.visitTableNames, appendedForVisited,
      visit_tableNames_exprs args]

theorem visit_tableNames_subqueryExpr : ∀ n : SubqueryExpr,
    n.visit.filterMap appendedForVisited =
      n.visitTableNames.map fun name => ANode.RangeVar name.Schema.O name.Name.O
  | .mk query => by
    simp [SubqueryExpr.visit, SubqueryExpr.visitTableNames, appendedForVisited,
      visit_tableNames_resultSetNode query]

theorem visit_tableNames_resultSetNode : ∀ n : ResultSetNode,
    n.visit.filterMap appendedForVisited =
      n.visitTableNames.map fun name => ANode.RangeVar name.Schema.O name.Name.O
  | .nil => by simp [ResultSetNode.visit, ResultSetNode.visitTableNames]
  | .SelectStmt n => by
    simpa [ResultSetNode.visit, ResultSetNode.visitTableNames] using visit_tableNames_selectStmt n
  | .SubqueryExpr n => by
    simpa [ResultSetNode.visit, ResultSetNode.visitTableNames]
      using visit_tableNames_subqueryExpr n
  | .TableSource source _ => by
    simp [ResultSetNode.visit, ResultSetNode.visitTableNames, appendedForVisited,
      visit_tableNames_resultSetNode source]
  | .TableName n => by
    simp [ResultSetNode.visit, ResultSetNode.visitTableNames, appendedForVisited]
  | .Join n => by
    simpa [ResultSetNode.visit, ResultSetNode.visitTableNames] using visit_tableNames_join n
  | .SetOprStmt selectList => by
    simp [ResultSetNode.visit, ResultSetNode.visitTableNames, appendedForVisited,
      visit_tableNames_sources selectList]

theorem visit_tableNames_selectStmt : ∀ n : SelectStmt,
    n.visit.filterMap appendedForVisited =
      n.visitTableNames.map fun name => ANode.RangeVar name.Schema.O name.Name.O
  | .mk fields from_ where_ limit rest => by
    simp [SelectStmt.visit, SelectStmt.visitTableNames, appendedForVisited,
      visit_tableNames_fieldList fields, visit_tableNames_tableRefsClause from_,
      visit_tableNames_exprNode where_, visit_tableNames_limit limit,
      visit_tableNames_exprs rest]

theorem visit_tableNames_fieldList : ∀ n : FieldList,
    n.visit.filterMap appendedForVisited =
      n.visitTableNames.map fun name => ANode.RangeVar name.Schema.O name.Name.O
  | .mk fields => by
    simp [FieldList.visit, FieldList.visitTableNames, appendedForVisited,
      visit_tableNames_fields fields]

theorem visit_tableNames_fields : ∀ fs : List SelectField,
    (visitOfFields fs).filterMap appendedForVisited =
      (visitFields fs).map fun name => ANode.RangeVar name.Schema.O name.Name.O
  | [] => by simp [visitOfFields, visitFields]
  | f :: fs => by
    simp [visitOfFields, visitFields, visit_tableNames_selectField f,
      visit_tableNames_fields fs]

theorem visit_tableNames_selectField : ∀ n : SelectField,
    n.visit.filterMap appendedForVisited =
      n.visitTableNames.map fun name => ANode.RangeVar name.Schema.O name.Name.O
  | .mk _ _ expr _ => by
    simp [SelectField.visit, SelectField.visitTableNames, appendedForVisited,
      visit_tableNames_exprNode expr]

theorem visit_tableNames_limit : ∀ n : Limit,
    n.visit.filterMap appendedForVisited =
      n.visitTableNames.map fun name => ANode.RangeVar name.Schema.O name.Name.O
  | .nil => by simp [Limit.visit, Limit.visitTableNames]
  | .mk count offset => by
    simp [Limit.visit, Limit.visitTableNames, appendedForVisited,
      visit_tableNames_exprNode count, visit_tableNames_exprNode offset]

theorem visit_tableNames_tableRefsClause : ∀ n : TableRefsClause,
    n.visit.filterMap appendedForVisited =
      n.visitTableNames.map fun name => ANode.RangeVar name.Schema.O name.Name.O
  | .nil => by simp [TableRefsClause.visit, TableRefsClause.visitTableNames]
  | .mk tableRefs => by
    simp [TableRefsClause.visit, TableRefsClause.visitTableNames, appendedForVisited,
      visit_tableNames_join tableRefs]

theorem visit_tableNames_join : ∀ n : Join,
    n.visit.filterMap appendedForVisited =
      n.visitTableNames.map fun name => ANode.RangeVar name.Schema.O name.Name.O
  | .mk l r _ cond _ => by
    simp [Join.visit, Join.visitTableNames, appendedForVisited,
      visit_tableNames_resultSetNode l, visit_tableNames_resultSetNode r,
      visit_tableNames_exprNode cond]

end

theorem items_convertTableRefsClause (n : TableRefsClause) :
    (convertTableRefsClause n).Items =
      n.visitTableNames.map fun name => ANode.RangeVar name.Schema.O name.Name.O := by
  cases n with
  | nil => simp [convertTableRefsClause, ANode.Items, TableRefsClause.visitTableNames]
  | mk j =>
    simpa [convertTableRefsClause, ANode.Items]
      using visit_tableNames_tableRefsClause (.mk j)

theorem convertTableRefsClause_eq (n : TableRefsClause) :
    convertTableRefsClause n =
      ANode.AstList
        (n.visitTableNames.map fun name => ANode.RangeVar name.Schema.O name.Name.O) := by
  cases n with
  | nil => simp [convertTableRefsClause, TableRefsClause.visitTableNames]
  | mk j =>
    simpa [convertTableRefsClause] using visit_tableNames_tableRefsClause (.mk j)

theorem paramRefs_convertTableRefsClause (n : TableRefsClause) :
    (convertTableRefsClause n).paramRefs = [] := by
  rw [convertTableRefsClause_eq]
  simp [ANode.paramRefs, paramRefsOfList_rangeVars]

theorem paramRefs_convertWildCardField (n : WildCardField) :
    (convertWildCardField n).paramRefs = [] := by
  unfold convertWildCardField
  split <;> simp [ANode.paramRefs, paramRefsOfList]

theorem Tracks.empty {s s1 : State} {f f1 : Bool} {r : List (Nat × Int)}
    (h : Tracks s [] f r s1) : Tracks s [] f1 [] s1 :=
  ⟨h.1, List.nil_sublist _, by simp [numbered_nil]⟩

mutual

theorem convertExprNode_tracks : ∀ (e : ExprNode) (s : State),
    Tracks s e.visited e.existsOnSubquery (convertExprNode s e).1.paramRefs
      (convertExprNode s e).2
  | .nil, s => by
    simpa [convertExprNode, ExprNode.visited, ANode.paramRefs] using Tracks.refl s _
  | .ParamMarkerExpr n, s => by
    simp [convertExprNode, convertParamMarkerExpr, ExprNode.visited, ANode.paramRefs, Tracks,
      numbered_cons, numbered_nil]
  | .ValueExpr n, s => by
    simpa [convertExprNode, convertValueExpr, ExprNode.visited, ANode.paramRefs]
      using Tracks.refl s _
  | .AggregateFuncExpr n, s => by
    simpa [convertExprNode, ExprNode.visited, ExprNode.existsOnSubquery]
      using convertAggregateFuncExpr_tracks n s
  | .BinaryOperationExpr n, s => by
    simpa [convertExprNode, ExprNode.visited, ExprNode.existsOnSubquery]
      using convertBinaryOperationExpr_tracks n s
  | .ColumnNameExpr n, s => by
    simpa [convertExprNode, convertColumnNameExpr, ExprNode.visited, ANode.paramRefs,
      paramRefsOfList] using Tracks.refl s _
  | .ExistsSubqueryExpr n, s => by
    simpa [convertExprNode, ExprNode.visited, ExprNode.existsOnSubquery]
      using convertExistsSubqueryExpr_tracks n s
  | .FuncCallExpr n, s => by
    simpa [convertExprNode, ExprNode.visited, ExprNode.existsOnSubquery]
      using convertFuncCallExpr_tracks n s
  | .SubqueryExpr n, s => by
    simpa [convertExprNode, ExprNode.visited, ExprNode.existsOnSubquery]
      using (convertSubqueryExpr_tracks n s).1
  | .stub _ _ _, s => by
    simpa [convertExprNode, ExprNode.visited, ANode.paramRefs] using Tracks.refl s _
  | .unknown t _ _, s => by
    have h : (logUnknownNode s t).c = s.c := by
      unfold logUnknownNode State.print; split <;> rfl
    simpa [convertExprNode, ExprNode.visited, ANode.paramRefs]
      using Tracks.same_counter _ h

theorem convertExprNodes_tracks : ∀ (es : List ExprNode) (s : State),
    Tracks s (visitedOfExprs es) (existsOnSubqueryExprs es)
      (paramRefsOfList (convertExprNodes s es).1) (convertExprNodes s es).2
  | [], s => by
    simpa [convertExprNodes, visitedOfExprs, paramRefsOfList] using Tracks.refl s _
  | e :: es, s => by
    have h1 := convertExprNode_tracks e s
    have h2 := convertExprNodes_tracks es (convertExprNode s e).2
    simpa [convertExprNodes, visitedOfExprs, existsOnSubqueryExprs, paramRefsOfList]
      using h1.append h2

theorem convertAggregateFuncExpr_tracks : ∀ (n : AggregateFuncExpr) (s : State),
    Tracks s n.visited n.existsOnSubquery (convertAggregateFuncExpr s n).1.paramRefs
      (convertAggregateFuncExpr s n).2
  | .mk f args d, s => by
    simpa [convertAggregateFuncExpr, AggregateFuncExpr.visited,
      AggregateFuncExpr.existsOnSubquery, ANode.paramRefs, paramRefsOfList]
      using convertAggregateArgs_tracks args s

theorem convertAggregateArgs_tracks : ∀ (es : List ExprNode) (s : State),
    Tracks s (visitedOfAggregateArgs es) (existsOnSubqueryExprs es)
      (paramRefsOfList (convertAggregateArgs s es).1.1) (convertAggregateArgs s es).2
  | [], s => by
    simpa [convertAggregateArgs, visitedOfAggregateArgs, paramRefsOfList] using Tracks.refl s _
  | a :: as, s => by
    by_cases ha : isValueOne a = true
    · have h2 := convertAggregateArgs_tracks as s
      simpa [convertAggregateArgs, visitedOfAggregateArgs, existsOnSubqueryExprs, ha,
        (isValueOne_visited ha).2] using h2
    · have h1 := convertExprNode_tracks a s
      have h2 := convertAggregateArgs_tracks as (convertExprNode s a).2
      simpa [convertAggregateArgs, visitedOfAggregateArgs, existsOnSubqueryExprs, ha,
        paramRefsOfList] using h1.append h2

theorem convertBinaryOperationExpr_tracks : ∀ (n : BinaryOperationExpr) (s : State),
    Tracks s n.visited n.existsOnSubquery (convertBinaryOperationExpr s n).1.paramRefs
      (convertBinaryOperationExpr s n).2
  | .mk op l r, s => by
    have h1 := convertExprNode_tracks l s
    have h2 := convertExprNode_tracks r (convertExprNode s l).2
    have h := h1.append h2
    unfold convertBinaryOperationExpr
    split <;>
      simpa [BinaryOperationExpr.visited, BinaryOperationExpr.existsOnSubquery,
        ANode.paramRefs, paramRefsOfList] using h

theorem convertExistsSubqueryExpr_tracks : ∀ (n : ExistsSubqueryExpr) (s : State),
    Tracks s n.visited n.existsOnSubquery (convertExistsSubqueryExpr s n).1.paramRefs
      (convertExistsSubqueryExpr s n).2
  | .mk sel, s => by
    have ih := convertExprNode_tracks sel s
    have key : (convertExistsSubqueryExpr s (.mk sel)).2 = (convertExprNode s sel).2 ∧
        ((convertExistsSubqueryExpr s (.mk sel)).1.paramRefs = (convertExprNode s sel).1.paramRefs
          ∨ ((convertExistsSubqueryExpr s (.mk sel)).1.paramRefs = [] ∧
              ∀ t f w lc lo v, (convertExprNode s sel).1 ≠ ANode.SelectStmt t f w lc lo v)) := by
      unfold convertExistsSubqueryExpr
      generalize convertExprNode s sel = r
      obtain ⟨a, s1⟩ := r
      cases a <;> simp [ANode.paramRefs]
    refine ⟨?_, ?_, ?_⟩
    · rw [key.1]; simpa [ExistsSubqueryExpr.visited] using ih.1
    · rcases key.2 with h | h
      · rw [h]; simpa [ExistsSubqueryExpr.visited] using ih.2.1
      · rw [h.1]; exact List.nil_sublist _
    · intro hf
      cases sel with
      | SubqueryExpr n =>
        simp only [ExistsSubqueryExpr.existsOnSubquery] at hf
        have hs := (convertSubqueryExpr_tracks n s)
        have e1 : convertExprNode s (.SubqueryExpr n) = convertSubqueryExpr s n := by
          simp [convertExprNode]
        rw [e1] at key
        rcases key.2 with h | h
        · rw [h]; simpa [ExistsSubqueryExpr.visited, ExprNode.visited] using hs.1.2.2 hf
        · rcases hs.2 with ⟨t, f, w, lc, lo, hh⟩ | ⟨_, hh⟩
          · exact absurd hh (h.2 t f w lc lo _)
          · rw [h.1]; simp [ExistsSubqueryExpr.visited, ExprNode.visited, hh, numbered_nil]
      | _ => simp [ExistsSubqueryExpr.existsOnSubquery] at hf

theorem convertFuncCallExpr_tracks : ∀ (n : FuncCallExpr) (s : State),
    Tracks s n.visited n.existsOnSubquery (convertFuncCallExpr s n).1.paramRefs
      (convertFuncCallExpr s n).2
  | .mk schema fnName args offset, s => by
    have h := convertExprNodes_tracks args s
    by_cases e : schema.O = "" <;>
      simpa [convertFuncCallExpr, FuncCallExpr.visited, FuncCallExpr.existsOnSubquery,
        ANode.paramRefs, paramRefsOfList, e] using h

theorem convertSubqueryExpr_tracks : ∀ (n : SubqueryExpr) (s : State),
    Tracks s n.visited n.existsOnSubquery (convertSubqueryExpr s n).1.paramRefs
      (convertSubqueryExpr s n).2 ∧ SelectShape (convertSubqueryExpr s n).1 n.visited
  | .mk query, s => by
    simpa [convertSubqueryExpr, SubqueryExpr.visited, SubqueryExpr.existsOnSubquery]
      using convertResultSetNode_tracks query s

theorem convertResultSetNode_tracks : ∀ (n : ResultSetNode) (s : State),
    Tracks s n.visited n.existsOnSubquery (convertResultSetNode s n).1.paramRefs
      (convertResultSetNode s n).2 ∧ SelectShape (convertResultSetNode s n).1 n.visited
  | .nil, s => by
    refine ⟨?_, Or.inr ?_⟩
    · simpa [convertResultSetNode, ResultSetNode.visited, ANode.paramRefs] using Tracks.refl s _
    · simp [convertResultSetNode, ResultSetNode.visited]
  | .SelectStmt n, s => by
    have h := convertSelectStmt_tracks n s
    refine ⟨?_, Or.inl ?_⟩
    · simpa [convertResultSetNode, ResultSetNode.visited, ResultSetNode.existsOnSubquery]
        using h.1
    · simpa [convertResultSetNode] using h.2
  | .SubqueryExpr n, s => by
    simpa [convertResultSetNode, ResultSetNode.visited, ResultSetNode.existsOnSubquery]
      using convertSubqueryExpr_tracks n s
  | .TableSource _ _, s => by
    refine ⟨?_, Or.inr ?_⟩
    · simpa [convertResultSetNode, ResultSetNode.visited, ANode.paramRefs] using Tracks.refl s _
    · simp [convertResultSetNode, ResultSetNode.visited]
  | .TableName _, s => by
    refine ⟨?_, Or.inr ?_⟩
    · simpa [convertResultSetNode, ResultSetNode.visited, ANode.paramRefs] using Tracks.refl s _
    · simp [convertResultSetNode, ResultSetNode.visited]
  | .Join _, s => by
    refine ⟨?_, Or.inr ?_⟩
    · simpa [convertResultSetNode, ResultSetNode.visited, ANode.paramRefs] using Tracks.refl s _
    · simp [convertResultSetNode, ResultSetNode.visited]
  | .SetOprStmt _, s => by
    refine ⟨?_, Or.inr ?_⟩
    · simpa [convertResultSetNode, ResultSetNode.visited, ANode.paramRefs] using Tracks.refl s _
    · simp [convertResultSetNode, ResultSetNode.visited]

theorem convertSelectStmt_tracks : ∀ (n : SelectStmt) (s : State),
    Tracks s n.visited n.existsOnSubquery (convertSelectStmt s n).1.paramRefs
      (convertSelectStmt s n).2 ∧
    ∃ t f w lc lo, (convertSelectStmt s n).1 = ANode.SelectStmt t f w lc lo ANode.nil
  | .mk fields from_ where_ .nil rest, s => by
    have h1 := convertFieldList_tracks fields s
    have h2 := convertExprNode_tracks where_ (convertFieldList s fields).2
    refine ⟨?_, by simp [convertSelectStmt]⟩
    simpa [convertSelectStmt, SelectStmt.visited, SelectStmt.existsOnSubquery, Limit.visited,
      Limit.existsOnSubquery, ANode.paramRefs, paramRefs_convertTableRefsClause]
      using h1.append h2
  | .mk fields from_ where_ (.mk count offset) rest, s => by
    have h1 := convertFieldList_tracks fields s
    have h2 := convertExprNode_tracks where_ (convertFieldList s fields).2
    have h3 := convertExprNode_tracks count (convertExprNode (convertFieldList s fields).2 where_).2
    have h4 := convertExprNode_tracks offset
      (convertExprNode (convertExprNode (convertFieldList s fields).2 where_).2 count).2
    refine ⟨?_, by simp [convertSelectStmt]⟩
    simpa [convertSelectStmt, SelectStmt.visited, SelectStmt.existsOnSubquery, Limit.visited,
      Limit.existsOnSubquery, ANode.paramRefs, paramRefs_convertTableRefsClause,
      List.append_assoc, Bool.and_assoc]
      using (h1.append h2).append (h3.append h4)

theorem convertFieldList_tracks : ∀ (n : FieldList) (s : State),
    Tracks s n.visited n.existsOnSubquery (convertFieldList s n).1.paramRefs
      (convertFieldList s n).2
  | .mk fields, s => by
    simpa [convertFieldList, FieldList.visited, FieldList.existsOnSubquery, ANode.paramRefs]
      using convertSelectFields_tracks fields s

theorem convertSelectFields_tracks : ∀ (fs : List SelectField) (s : State),
    Tracks s (visitedOfFields fs) (existsOnSubqueryFields fs)
      (paramRefsOfList (convertSelectFields s fs).1) (convertSelectFields s fs).2
  | [], s => by
    simpa [convertSelectFields, visitedOfFields, paramRefsOfList] using Tracks.refl s _
  | f :: fs, s => by
    have h1 := convertSelectField_tracks f s
    have h2 := convertSelectFields_tracks fs (convertSelectField s f).2
    simpa [convertSelectFields, visitedOfFields, existsOnSubqueryFields, paramRefsOfList]
      using h1.append h2

theorem convertSelectField_tracks : ∀ (n : SelectField) (s : State),
    Tracks s n.visited n.existsOnSubquery (convertSelectField s n).1.paramRefs
      (convertSelectField s n).2
  | .mk offset (some w) expr asName, s => by
    by_cases e : w.Table.O = "" <;>
      simpa [convertSelectField, SelectField.visited, SelectField.existsOnSubquery,
        ANode.paramRefs, paramRefsOfList, e] using Tracks.refl s true
  | .mk offset none expr asName, s => by
    simpa [convertSelectField, SelectField.visited, SelectField.existsOnSubquery,
      ANode.paramRefs] using convertExprNode_tracks expr s

end

/-! ## Statements and nodes -/

theorem paramRefsOfList_append (xs ys : List ANode) :
    paramRefsOfList (xs ++ ys) = paramRefsOfList xs ++ paramRefsOfList ys := by
  induction xs with
  | nil => simp [paramRefsOfList]
  | cons x xs ih => simp [paramRefsOfList, ih]

theorem paramRefs_alterAddColumns (cmds : List ANode) (ds : List ColumnDef)
    (h : paramRefsOfList cmds = []) : paramRefsOfList (alterAddColumns cmds ds) = [] := by
  induction ds generalizing cmds with
  | nil => simpa [alterAddColumns] using h
  | cons d ds ih =>
    apply ih
    simp [paramRefsOfList_append, h, paramRefsOfList, ANode.paramRefs, alterColumnDef]

theorem paramRefs_alterModifyColumns (cmds : List ANode) (ds : List ColumnDef)
    (h : paramRefsOfList cmds = []) : paramRefsOfList (alterModifyColumns cmds ds) = [] := by
  induction ds generalizing cmds with
  | nil => simpa [alterModifyColumns] using h
  | cons d ds ih =>
    apply ih
    simp [paramRefsOfList_append, h, paramRefsOfList, ANode.paramRefs, alterColumnDef]

theorem alterSpecs_untouched (n : AlterTableStmt) (specs : List AlterTableSpec) :
    ∀ (s : State) (cmds : List ANode), paramRefsOfList cmds = [] →
      (alterSpecs n s cmds specs).1.paramRefs = [] ∧ (alterSpecs n s cmds specs).2.c = s.c := by
  induction specs with
  | nil => intro s cmds h; simp [alterSpecs, ANode.paramRefs, h]
  | cons spec specs ih =>
    intro s cmds h
    unfold alterSpecs
    split
    · exact ih s _ (paramRefs_alterAddColumns _ _ h)
    · exact ih s _ (by simp [paramRefsOfList_append, h, paramRefsOfList, ANode.paramRefs])
    · exact ih s _ h
    · exact ih s _ (paramRefs_alterModifyColumns _ _ h)
    · exact ih s _ h
    · exact ih s _ h
    · simp [ANode.paramRefs]
    · simp [ANode.paramRefs]
    · have := ih (if s.debugActive = true then
          s.print ("dolphin.convert: Unknown alter table cmd " ++ toString ‹Nat› ++ "\n")
        else s) cmds h
      refine ⟨this.1, this.2.trans ?_⟩
      split <;> rfl

theorem paramRefs_convertCreateTableStmt (n : CreateTableStmt) :
    (convertCreateTableStmt n).paramRefs = [] := by
  have h1 : ∀ es : List String, paramRefsOfList (es.map ANode.AstString) = [] := by
    intro es
    induction es with
    | nil => simp [paramRefsOfList]
    | cons e es ih => simp [paramRefsOfList, ANode.paramRefs, ih]
  have h2 : ∀ ds : List ColumnDef, paramRefsOfList (ds.map createColumnDef) = [] := by
    intro ds
    induction ds with
    | nil => simp [paramRefsOfList]
    | cons d ds ih =>
      simp only [List.map_cons, paramRefsOfList, ih, List.append_nil]
      unfold createColumnDef
      simp only [ANode.paramRefs]
      split <;> simp [ANode.paramRefs, h1]
  simp [convertCreateTableStmt, ANode.paramRefs, h2]

theorem paramRefsOfList_columnNames (cols : List ColumnName) :
    paramRefsOfList (cols.map fun col => ANode.ResTarget (some col.Name.O) ANode.nil 0) = [] := by
  induction cols with
  | nil => simp [paramRefsOfList]
  | cons c cs ih => simp [paramRefsOfList, ANode.paramRefs, ih]

theorem paramRefs_convertDropTableStmt (n : DropTableStmt) :
    (convertDropTableStmt n).paramRefs = [] := by
  unfold convertDropTableStmt
  split <;> simp [ANode.paramRefs]

theorem convertAssignment_tracks (n : Assignment) (s : State) :
    Tracks s n.Expr.visited n.Expr.existsOnSubquery (convertAssignment s n).1.paramRefs
      (convertAssignment s n).2 := by
  simpa [convertAssignment, ANode.paramRefs] using convertExprNode_tracks n.Expr s

theorem convertAssignments_tracks : ∀ (as : List Assignment) (s : State),
    Tracks s (visitedOfAssignments as) (existsOnSubqueryAssignments as)
      (paramRefsOfList (convertAssignments s as).1) (convertAssignments s as).2
  | [], s => by
    simpa [convertAssignments, visitedOfAssignments, paramRefsOfList] using Tracks.refl s _
  | a :: as, s => by
    have h1 := convertAssignment_tracks a s
    have h2 := convertAssignments_tracks as (convertAssignment s a).2
    simpa [convertAssignments, visitedOfAssignments, existsOnSubqueryAssignments,
      paramRefsOfList] using h1.append h2

theorem convertLists_tracks : ∀ (lists : List (List ExprNode)) (s : State),
    Tracks s (visitedOfLists lists) (existsOnSubqueryLists lists)
      (convertLists s lists).1.paramRefs (convertLists s lists).2 ∧
    ∃ items, (convertLists s lists).1 = ANode.AstList items
  | [], s => by
    refine ⟨?_, [], by simp [convertLists]⟩
    simpa [convertLists, visitedOfLists, paramRefsOfList, ANode.paramRefs] using Tracks.refl s _
  | exprs :: lists, s => by
    have h1 := convertExprNodes_tracks exprs s
    have h2 := convertLists_tracks lists (convertExprNodes s exprs).2
    obtain ⟨items, hi⟩ := h2.2
    refine ⟨?_, ANode.AstList (convertExprNodes s exprs).1 :: items,
      by simp [convertLists, hi, ANode.Items]⟩
    have h := h1.append h2.1
    rw [hi] at h
    simpa [convertLists, visitedOfLists, existsOnSubqueryLists, paramRefsOfList,
      ANode.paramRefs, hi, ANode.Items] using h

theorem convertDeleteStmt_eq (s : State) (n : DeleteStmt) :
    convertDeleteStmt s n =
      match n.TableRefs.visitTableNames with
      | [t] => .ok (ANode.DeleteStmt (ANode.RangeVar t.Schema.O t.Name.O)
          (convertExprNode s n.Where).1 (ANode.AstList []), (convertExprNode s n.Where).2)
      | _ => .error "expected one range var" := by
  unfold convertDeleteStmt
  simp only [items_convertTableRefsClause]
  rcases n.TableRefs.visitTableNames with _ | ⟨t, _ | ⟨u, ts⟩⟩ <;> simp

theorem convertUpdateStmt_eq (s : State) (n : UpdateStmt) :
    convertUpdateStmt s n =
      match n.TableRefs.visitTableNames with
      | [t] => .ok (ANode.UpdateStmt (ANode.RangeVar t.Schema.O t.Name.O)
          (ANode.AstList (convertAssignments s n.List).1)
          (convertExprNode (convertAssignments s n.List).2 n.Where).1
          (ANode.AstList []) (ANode.AstList []),
          (convertExprNode (convertAssignments s n.List).2 n.Where).2)
      | _ => .error "expected one range var" := by
  unfold convertUpdateStmt
  simp only [items_convertTableRefsClause]
  rcases n.TableRefs.visitTableNames with _ | ⟨t, _ | ⟨u, ts⟩⟩ <;> simp

theorem convertInsertStmt_eq (s : State) (n : InsertStmt) :
    convertInsertStmt s n =
      match n.Table.visitTableNames with
      | [t] => .ok (insertResult s n (ANode.RangeVar t.Schema.O t.Name.O))
      | _ => .error "expected one range var" := by
  unfold convertInsertStmt
  simp only [items_convertTableRefsClause]
  rcases n.Table.visitTableNames with _ | ⟨t, _ | ⟨u, ts⟩⟩
  · simp
  · simp only [List.map_cons, List.map_nil, List.length_singleton, ne_eq, not_true_eq_false,
      if_false, List.head?_cons, insertResult]
    generalize convertResultSetNode s n.Select = ss
    obtain ⟨a, s2⟩ := ss
    cases a <;> rfl
  · simp

theorem insertResult_tracks (s : State) (n : InsertStmt) (relation : ANode)
    (hr : relation.paramRefs = []) :
    Tracks s (n.Select.visited ++ visitedOfLists n.Lists)
      (n.Select.existsOnSubquery && existsOnSubqueryLists n.Lists)
      (insertResult s n relation).1.paramRefs (insertResult s n relation).2 := by
  have h1 := convertResultSetNode_tracks n.Select s
  have h2 := (convertLists_tracks n.Lists (convertResultSetNode s n.Select).2).1
  unfold insertResult
  rcases h1.2 with ⟨t, f, w, lc, lo, hh⟩ | ⟨hh, hv⟩
  · have h := h1.1.append h2
    rw [hh] at h
    simpa [hh, ANode.paramRefs, hr, paramRefsOfList_columnNames, paramRefsOfList,
      List.append_assoc] using h
  · have h1e : Tracks s n.Select.visited n.Select.existsOnSubquery []
        (convertResultSetNode s n.Select).2 := by
      rw [hv]; rw [hv] at h1; exact h1.1.empty
    have h := h1e.append h2
    rcases hh with hh | hh <;>
      simpa [hh, ANode.paramRefs, hr, paramRefsOfList_columnNames, paramRefsOfList] using h

/-- The counter and the `ParamRef`s of a conversion of any node that is not
aborted. -/
theorem convert_tracks (s : State) (n : Node) (r : ANode) (s1 : State)
    (h : convert s n = .ok (r, s1)) :
    Tracks s n.visited n.existsOnSubquery r.paramRefs s1 := by
  cases n with
  | nil =>
    simp only [convert, Except.ok.injEq, Prod.mk.injEq] at h
    obtain ⟨rfl, rfl⟩ := h
    simpa [Node.visited, ANode.paramRefs] using Tracks.refl s _
  | ExprNode e =>
    simp only [convert, Except.ok.injEq] at h
    have := convertExprNode_tracks e s
    rw [h] at this
    simpa [Node.visited, Node.existsOnSubquery] using this
  | ResultSetNode e =>
    simp only [convert, Except.ok.injEq] at h
    have := (convertResultSetNode_tracks e s).1
    rw [h] at this
    simpa [Node.visited, Node.existsOnSubquery] using this
  | AlterTableStmt e =>
    simp only [convert, Except.ok.injEq] at h
    have := alterSpecs_untouched e e.Specs s [] (by simp [paramRefsOfList])
    rw [show alterSpecs e s [] e.Specs = (r, s1) from h] at this
    simpa [Node.visited, Node.existsOnSubquery, this.1] using Tracks.same_counter _ this.2
  | Assignment e =>
    simp only [convert, Except.ok.injEq] at h
    have := convertAssignment_tracks e s
    rw [h] at this
    simpa [Node.visited, Node.existsOnSubquery] using this
  | CreateTableStmt e =>
    simp only [convert, Except.ok.injEq, Prod.mk.injEq] at h
    obtain ⟨rfl, rfl⟩ := h
    simpa [Node.visited, paramRefs_convertCreateTableStmt] using Tracks.refl s _
  | DeleteStmt e =>
    simp only [convert, convertDeleteStmt_eq] at h
    split at h
    · simp only [Except.ok.injEq, Prod.mk.injEq] at h
      obtain ⟨rfl, rfl⟩ := h
      simpa [Node.visited, Node.existsOnSubquery, ANode.paramRefs, paramRefsOfList]
        using convertExprNode_tracks e.Where s
    · simp at h
  | DropTableStmt e =>
    simp only [convert, Except.ok.injEq, Prod.mk.injEq] at h
    obtain ⟨rfl, rfl⟩ := h
    simpa [Node.visited, paramRefs_convertDropTableStmt] using Tracks.refl s _
  | FieldList e =>
    simp only [convert, Except.ok.injEq] at h
    have := convertFieldList_tracks e s
    rw [h] at this
    simpa [Node.visited, Node.existsOnSubquery] using this
  | InsertStmt e =>
    simp only [convert, convertInsertStmt_eq] at h
    split at h
    · simp only [Except.ok.injEq] at h
      have := insertResult_tracks s e (ANode.RangeVar ‹TableName›.Schema.O ‹TableName›.Name.O)
        (by simp [ANode.paramRefs])
      rw [h] at this
      simpa [Node.visited, Node.existsOnSubquery] using this
    · simp at h
  | RenameTableStmt e =>
    simp only [convert, Except.ok.injEq, Prod.mk.injEq] at h
    obtain ⟨rfl, rfl⟩ := h
    simpa [Node.visited, convertRenameTableStmt, ANode.paramRefs] using Tracks.refl s _
  | SelectField e =>
    simp only [convert, Except.ok.injEq] at h
    have := convertSelectField_tracks e s
    rw [h] at this
    simpa [Node.visited, Node.existsOnSubquery] using this
  | TableRefsClause e =>
    simp only [convert, Except.ok.injEq, Prod.mk.injEq] at h
    obtain ⟨rfl, rfl⟩ := h
    simpa [Node.visited, paramRefs_convertTableRefsClause] using Tracks.refl s _
  | UpdateStmt e =>
    simp only [convert, convertUpdateStmt_eq] at h
    split at h
    · simp only [Except.ok.injEq, Prod.mk.injEq] at h
      obtain ⟨rfl, rfl⟩ := h
      simpa [Node.visited, Node.existsOnSubquery, ANode.paramRefs, paramRefsOfList]
        using (convertAssignments_tracks e.List s).append
          (convertExprNode_tracks e.Where (convertAssignments s e.List).2)
    · simp at h
  | WildCardField e =>
    simp only [convert, Except.ok.injEq, Prod.mk.injEq] at h
    obtain ⟨rfl, rfl⟩ := h
    simpa [Node.visited, paramRefs_convertWildCardField] using Tracks.refl s _
  | stub k c =>
    simp only [convert, Except.ok.injEq, Prod.mk.injEq] at h
    obtain ⟨rfl, rfl⟩ := h
    simpa [Node.visited, ANode.paramRefs] using Tracks.refl s _
  | unknown t c =>
    simp only [convert, Except.ok.injEq, Prod.mk.injEq] at h
    obtain ⟨rfl, rfl⟩ := h
    have hc : (logUnknownNode s t).c = s.c := by
      unfold logUnknownNode State.print; split <;> rfl
    simpa [Node.visited, ANode.paramRefs] using Tracks.same_counter _ hc

/-! ## ALTER TABLE -/

theorem alterAddColumns_eq (cmds : List ANode) (ds : List ColumnDef) :
    alterAddColumns cmds ds = cmds ++ ds.map specAddColumn := by
  induction ds generalizing cmds with
  | nil => simp [alterAddColumns]
  | cons d ds ih => simp [alterAddColumns, ih, specAddColumn, alterColumnDef]

theorem alterModifyColumns_eq (cmds : List ANode) (ds : List ColumnDef) :
    alterModifyColumns cmds ds =
      cmds ++ ds.flatMap fun d => [specDropColumn d, specAddColumn d] := by
  induction ds generalizing cmds with
  | nil => simp [alterModifyColumns]
  | cons d ds ih =>
    simp [alterModifyColumns, ih, specAddColumn, specDropColumn, alterColumnDef]

theorem alterSpecs_no_rename (n : AlterTableStmt) (specs : List AlterTableSpec) :
    ∀ (s : State) (cmds : List ANode), (∀ spec ∈ specs, spec.isRename = false) →
      (alterSpecs n s cmds specs).1 =
        ANode.AlterTableStmt (parseTableName n.Table)
          (ANode.AstList (cmds ++ specs.flatMap specCommands)) := by
  induction specs with
  | nil => intro s cmds _; simp [alterSpecs]
  | cons spec specs ih =>
    intro s cmds h
    have hs : spec.isRename = false := h spec (List.mem_cons_self _ _)
    have ht : ∀ x ∈ specs, x.isRename = false := fun x hx => h x (List.mem_cons_of_mem _ hx)
    unfold alterSpecs
    split <;> rename_i htp <;>
      simp [AlterTableSpec.isRename, htp] at hs <;>
      simp [ih _ _ ht, specCommands, htp, alterAddColumns_eq, alterModifyColumns_eq]

theorem alterSpecs_rename (n : AlterTableStmt) (specs : List AlterTableSpec)
    (spec : AlterTableSpec) :
    ∀ (s : State) (cmds : List ANode), specs.find? AlterTableSpec.isRename = some spec →
      (spec.Tp = .AlterTableRenameColumn →
        (alterSpecs n s cmds specs).1 =
          ANode.RenameColumnStmt (parseTableName n.Table)
            (ANode.ColumnRef ANode.nil spec.OldColumnName.Str) (some spec.NewColumnName.Str)) ∧
      (spec.Tp = .AlterTableRenameTable →
        (alterSpecs n s cmds specs).1 =
          ANode.RenameTableStmt (parseTableName n.Table)
            (some (parseTableName spec.NewTable).Name)) := by
  induction specs with
  | nil => intro s cmds h; simp at h
  | cons x specs ih =>
    intro s cmds h
    rw [List.find?_cons] at h
    unfold alterSpecs
    split <;> rename_i htp <;> simp [AlterTableSpec.isRename, htp] at h
    all_goals first
      | exact ih _ _ h
      | (subst h; simp [htp])

theorem specCommands_length (spec : AlterTableSpec) :
    (specCommands spec).length = specCommandCount spec := by
  have h : ∀ ds : List ColumnDef,
      (ds.flatMap fun d => [specDropColumn d, specAddColumn d]).length = 2 * ds.length := by
    intro ds
    induction ds with
    | nil => simp
    | cons d ds ih => simp only [List.flatMap_cons, List.length_append, ih, List.length_cons,
        List.length_nil]; omega
  unfold specCommands specCommandCount
  split <;> simp [h]

/-! ## Visited markers are markers of the tree -/

mutual

theorem visited_le_markers_exprNode : ∀ e : ExprNode, e.visited.length ≤ e.markers
  | .nil => by simp [ExprNode.visited]
  | .ParamMarkerExpr _ => by simp [ExprNode.visited, ExprNode.markers]
  | .ValueExpr _ => by simp [ExprNode.visited]
  | .AggregateFuncExpr n => by
    simpa [ExprNode.visited, ExprNode.markers] using visited_le_markers_aggregateFuncExpr n
  | .BinaryOperationExpr n => by
    simpa [ExprNode.visited, ExprNode.markers] using visited_le_markers_binaryOperationExpr n
  | .ColumnNameExpr _ => by simp [ExprNode.visited]
  | .ExistsSubqueryExpr n => by
    simpa [ExprNode.visited, ExprNode.markers] using visited_le_markers_existsSubqueryExpr n
  | .FuncCallExpr n => by
    simpa [ExprNode.visited, ExprNode.markers] using visited_le_markers_funcCallExpr n
  | .SubqueryExpr n => by
    simpa [ExprNode.visited, ExprNode.markers] using visited_le_markers_subqueryExpr n
  | .stub _ _ _ => by simp [ExprNode.visited]
  | .unknown _ _ _ => by simp [ExprNode.visited]

theorem visitedOfExprs_le : ∀ es : List ExprNode, (visitedOfExprs es).length ≤ markersOfExprs es
  | [] => by simp [visitedOfExprs]
  | e :: es => by
    have h1 := visited_le_markers_exprNode e
    have h2 := visitedOfExprs_le es
    simp only [visitedOfExprs, markersOfExprs, List.length_append]
    omega

theorem visitedOfAggregateArgs_le : ∀ es : List ExprNode,
    (visitedOfAggregateArgs es).length ≤ markersOfExprs es
  | [] => by simp [visitedOfAggregateArgs]
  | e :: es => by
    have h1 := visited_le_markers_exprNode e
    have h2 := visitedOfAggregateArgs_le es
    simp only [visitedOfAggregateArgs, markersOfExprs]
    split
    · omega
    · simp only [List.length_append]; omega

theorem visited_le_markers_aggregateFuncExpr : ∀ n : AggregateFuncExpr, n.visited.length ≤ n.markers
  | .mk _ args _ => by
    simpa [AggregateFuncExpr.visited, AggregateFuncExpr.markers]
      using visitedOfAggregateArgs_le args

theorem visited_le_markers_binaryOperationExpr : ∀ n : BinaryOperationExpr,
    n.visited.length ≤ n.markers
  | .mk _ l r => by
    have h1 := visited_le_markers_exprNode l
    have h2 := visited_le_markers_exprNode r
    simp only [BinaryOperationExpr.visited, BinaryOperationExpr.markers, List.length_append]
    omega

theorem visited_le_markers_existsSubqueryExpr : ∀ n : ExistsSubqueryExpr,
    n.visited.length ≤ n.markers
  | .mk sel => by
    simpa [ExistsSubqueryExpr.visited, ExistsSubqueryExpr.markers] using visited_le_markers_exprNode sel

theorem visited_le_markers_funcCallExpr : ∀ n : FuncCallExpr, n.visited.length ≤ n.markers
  | .mk _ _ args _ => by
    simpa [FuncCallExpr.visited, FuncCallExpr.markers] using visitedOfExprs_le args

theorem visited_le_markers_subqueryExpr : ∀ n : SubqueryExpr, n.visited.length ≤ n.markers
  | .mk query => by
    simpa [SubqueryExpr.visited, SubqueryExpr.markers] using visited_le_markers_resultSetNode query

theorem visited_le_markers_resultSetNode : ∀ n : ResultSetNode, n.visited.length ≤ n.markers
  | .nil => by simp [ResultSetNode.visited]
  | .SelectStmt n => by
    simpa [ResultSetNode.visited, ResultSetNode.markers] using visited_le_markers_selectStmt n
  | .SubqueryExpr n => by
    simpa [ResultSetNode.visited, ResultSetNode.markers] using visited_le_markers_subqueryExpr n
  | .TableSource _ _ => by simp [ResultSetNode.visited]
  | .TableName _ => by simp [ResultSetNode.visited]
  | .Join _ => by simp [ResultSetNode.visited]
  | .SetOprStmt _ => by simp [ResultSetNode.visited]

theorem visited_le_markers_selectStmt : ∀ n : SelectStmt, n.visited.length ≤ n.markers
  | .mk fields from_ where_ limit rest => by
    have h1 := visited_le_markers_fieldList fields
    have h2 := visited_le_markers_exprNode where_
    have h3 := visited_le_markers_limit limit
    simp only [SelectStmt.visited, SelectStmt.markers, List.length_append]
    omega

theorem visited_le_markers_fieldList : ∀ n : FieldList, n.visited.length ≤ n.markers
  | .mk fields => by
    simpa [FieldList.visited, FieldList.markers] using visitedOfFields_le fields

theorem visitedOfFields_le : ∀ fs : List SelectField,
    (visitedOfFields fs).length ≤ markersOfFields fs
  | [] => by simp [visitedOfFields]
  | f :: fs => by
    have h1 := visited_le_markers_selectField f
    have h2 := visitedOfFields_le fs
    simp only [visitedOfFields, markersOfFields, List.length_append]
    omega

theorem visited_le_markers_selectField : ∀ n : SelectField, n.visited.length ≤ n.markers
  | .mk _ (some _) _ _ => by simp [SelectField.visited]
  | .mk _ none expr _ => by
    simpa [SelectField.visited, SelectField.markers] using visited_le_markers_exprNode expr

theorem visited_le_markers_limit : ∀ n : Limit, n.visited.length ≤ n.markers
  | .nil => by simp [Limit.visited]
  | .mk count offset => by
    have h1 := visited_le_markers_exprNode count
    have h2 := visited_le_markers_exprNode offset
    simp only [Limit.visited, Limit.markers, List.length_append]
    omega

end

theorem visitedOfLists_le : ∀ lists : List (List ExprNode),
    (visitedOfLists lists).length ≤ markersOfLists lists
  | [] => by simp [visitedOfLists]
  | exprs :: lists => by
    have h1 := visitedOfExprs_le exprs
    have h2 := visitedOfLists_le lists
    simp only [visitedOfLists, markersOfLists, List.length_append]
    omega

theorem visitedOfAssignments_le : ∀ as : List Assignment,
    (visitedOfAssignments as).length ≤ (as.map fun a => a.Expr.markers).sum
  | [] => by simp [visitedOfAssignments]
  | a :: as => by
    have h1 := visited_le_markers_exprNode a.Expr
    have h2 := visitedOfAssignments_le as
    simp only [visitedOfAssignments, List.map_cons, List.sum_cons, List.length_append]
    omega

theorem visited_le_markers_node (n : Node) : n.visited.length ≤ n.markers := by
  cases n with
  | ExprNode e => simpa [Node.visited, Node.markers] using visited_le_markers_exprNode e
  | ResultSetNode e => simpa [Node.visited, Node.markers] using visited_le_markers_resultSetNode e
  | Assignment e => simpa [Node.visited, Node.markers] using visited_le_markers_exprNode e.Expr
  | DeleteStmt e =>
    have := visited_le_markers_exprNode e.Where
    simp only [Node.visited, Node.markers]; omega
  | FieldList e => simpa [Node.visited, Node.markers] using visited_le_markers_fieldList e
  | InsertStmt e =>
    have h1 := visited_le_markers_resultSetNode e.Select
    have h2 := visitedOfLists_le e.Lists
    simp only [Node.visited, Node.markers, List.length_append]; omega
  | SelectField e => simpa [Node.visited, Node.markers] using visited_le_markers_selectField e
  | UpdateStmt e =>
    have h1 := visitedOfAssignments_le e.List
    have h2 := visited_le_markers_exprNode e.Where
    simp only [Node.visited, Node.markers, List.length_append]; omega
  | _ => simp [Node.visited]

/-! ## The claims -/

/-- C1, as stated, fails: `SELECT * FROM t WHERE a BETWEEN ? AND ?` has two
parameter markers in its tree, and its conversion from a fresh context has no
`ParamRef` at all, the BETWEEN expression being converted to the
placeholder. -/
theorem between_select_markers_not_numbered :
    sampleBetweenSelect.markers = 2 ∧
    ∃ r s1, convert (State.fresh false) sampleBetweenSelect = .ok (r, s1) ∧
      r.paramNumbers = [] :=
  ⟨rfl, _, _, rfl, rfl⟩

/-- C1 (amended): for every statement in which each EXISTS has a subquery as
its operand, a conversion from a fresh context that is not aborted yields a
tree whose `ParamRef` numbers are exactly 1, ..., m, each occurring once,
where m is the number of markers the dispatcher visits; m is the final
counter and is at most the number k of markers in the tree. -/
theorem convert_paramNumbers_exact (debugActive : Bool) (n : Node) (r : ANode) (s1 : State)
    (hn : n.existsOnSubquery = true)
    (h : convert (State.fresh debugActive) n = .ok (r, s1)) :
    r.paramNumbers = List.range' 1 n.visited.length ∧
    r.paramNumbers.Nodup ∧
    (∀ i, i ∈ r.paramNumbers ↔ 1 ≤ i ∧ i ≤ n.visited.length) ∧
    s1.c.paramCount = n.visited.length ∧
    n.visited.length ≤ n.markers := by
  have ht := convert_tracks _ n r s1 h
  have he : r.paramNumbers = List.range' 1 n.visited.length := by
    have := ht.2.2 hn
    simp only [ANode.paramNumbers, this, State.fresh]
    simpa using map_fst_numbered 0 n.visited
  refine ⟨he, ?_, ?_, ?_, visited_le_markers_node n⟩
  · rw [he]; exact List.nodup_range' _ _
  · intro i
    rw [he, List.mem_range'_1]
    omega
  · simpa [State.fresh] using ht.1

/-- C1 (amended) at `SELECT * FROM t WHERE a = ? AND EXISTS (SELECT * FROM u
WHERE b = ?)`. -/
theorem convert_paramNumbers_exact_witness :
    sampleExistsSelect.existsOnSubquery = true ∧
    ∃ r s1, convert (State.fresh false) sampleExistsSelect = .ok (r, s1) ∧
      r.paramNumbers = List.range' 1 sampleExistsSelect.visited.length ∧
      r.paramNumbers = [1, 2] :=
  ⟨rfl, _, _, rfl, (convert_paramNumbers_exact false sampleExistsSelect _ _ rfl rfl).1, rfl⟩

/-- C2 fails on `SELECT * FROM t LIMIT ?, ?`: the count of the limit is
converted before its offset, so the marker at offset 25 gets number 1 and the
marker at offset 22, which comes first in the text, gets number 2. -/
theorem limit_select_numbers_against_text_order :
    ∃ t f w s1, convert (State.fresh false) sampleLimitSelect =
      .ok (ANode.SelectStmt t f w (ANode.ParamRef 1 25) (ANode.ParamRef 2 22) ANode.nil, s1) :=
  ⟨_, _, _, _, rfl⟩

/-- C3: a visit of a parameter marker increments the counter by one and
gives the `ParamRef` the value after the increment; and after a conversion
from a fresh context that is not aborted the counter is the number of markers
visited, every `ParamRef` of the result is the marker of some visit i with
number i, and the numbers of the result are strictly increasing in the order
of the visits, pairwise distinct and between 1 and the final counter. -/
theorem convert_numbers_in_visit_order (debugActive : Bool) (n : Node) (r : ANode)
    (s1 : State) (h : convert (State.fresh debugActive) n = .ok (r, s1)) :
    (∀ (s : State) (m : ParamMarkerExpr),
      convertParamMarkerExpr s m =
        (ANode.ParamRef (s.c.paramCount + 1) m.Offset,
          { s with c := { paramCount := s.c.paramCount + 1 } })) ∧
    s1.c.paramCount = n.visited.length ∧
    r.paramRefs.Sublist (numbered 0 n.visited) ∧
    (numbered 0 n.visited).map Prod.fst = List.range' 1 n.visited.length ∧
    (numbered 0 n.visited).map Prod.snd = n.visited ∧
    r.paramNumbers.Pairwise (· < ·) ∧
    r.paramNumbers.Nodup ∧
    ∀ i ∈ r.paramNumbers, 1 ≤ i ∧ i ≤ s1.c.paramCount := by
  have ht := convert_tracks _ n r s1 h
  have hc : s1.c.paramCount = n.visited.length := by simpa [State.fresh] using ht.1
  have hs : r.paramRefs.Sublist (numbered 0 n.visited) := by simpa [State.fresh] using ht.2.1
  have hm : (numbered 0 n.visited).map Prod.fst = List.range' 1 n.visited.length := by
    simpa using map_fst_numbered 0 n.visited
  have hsub : r.paramNumbers.Sublist (List.range' 1 n.visited.length) := by
    rw [← hm]; exact hs.map _
  refine ⟨fun s m => rfl, hc, hs, hm, map_snd_numbered _ _, ?_, ?_, ?_⟩
  · exact List.Pairwise.sublist hsub (List.pairwise_lt_range' _ _)
  · exact List.Nodup.sublist hsub (List.nodup_range' _ _)
  · intro i hi
    have := List.mem_range'_1.mp (hsub.subset hi)
    omega

/-- C3 at `UPDATE t SET a = ?, b = MAX(?) WHERE c = ?`. -/
theorem convert_numbers_in_visit_order_witness :
    ∃ r s1, convert (State.fresh false) sampleUpdate = .ok (r, s1) ∧
      s1.c.paramCount = sampleUpdate.visited.length ∧
      r.paramRefs = [(1, 17), (2, 28), (3, 41)] :=
  ⟨_, _, rfl, (convert_numbers_in_visit_order false sampleUpdate _ _ rfl).2.1, rfl⟩

theorem length_items_convertTableRefsClause (n : TableRefsClause) :
    (convertTableRefsClause n).Items.length = n.visitTableNames.length := by
  simp [items_convertTableRefsClause]

/-- C4: the conversion of a DELETE, an UPDATE or an INSERT is aborted if and
only if the list its table clause flattens to has a length other than one;
when the clause flattens to the one table `t` the conversion succeeds with
the relation of schema and name of `t`; and the abort "expected range var" is
never the result. -/
theorem dml_single_relation (s : State) :
    (∀ n : DeleteStmt,
      (aborted (convert s (.DeleteStmt n)) ↔
        (convertTableRefsClause n.TableRefs).Items.length ≠ 1) ∧
      (∀ t, n.TableRefs.visitTableNames = [t] →
        (convertTableRefsClause n.TableRefs).Items = [ANode.RangeVar t.Schema.O t.Name.O] ∧
        ∃ w ret s1, convert s (.DeleteStmt n) =
          .ok (ANode.DeleteStmt (ANode.RangeVar t.Schema.O t.Name.O) w ret, s1)) ∧
      convert s (.DeleteStmt n) ≠ .error "expected range var") ∧
    (∀ n : UpdateStmt,
      (aborted (convert s (.UpdateStmt n)) ↔
        (convertTableRefsClause n.TableRefs).Items.length ≠ 1) ∧
      (∀ t, n.TableRefs.visitTableNames = [t] →
        (convertTableRefsClause n.TableRefs).Items = [ANode.RangeVar t.Schema.O t.Name.O] ∧
        ∃ l w f ret s1, convert s (.UpdateStmt n) =
          .ok (ANode.UpdateStmt (ANode.RangeVar t.Schema.O t.Name.O) l w f ret, s1)) ∧
      convert s (.UpdateStmt n) ≠ .error "expected range var") ∧
    (∀ n : InsertStmt,
      (aborted (convert s (.InsertStmt n)) ↔
        (convertTableRefsClause n.Table).Items.length ≠ 1) ∧
      (∀ t, n.Table.visitTableNames = [t] →
        (convertTableRefsClause n.Table).Items = [ANode.RangeVar t.Schema.O t.Name.O] ∧
        ∃ cols ret sel s1, convert s (.InsertStmt n) =
          .ok (ANode.InsertStmt (ANode.RangeVar t.Schema.O t.Name.O) cols ret sel, s1)) ∧
      convert s (.InsertStmt n) ≠ .error "expected range var") := by
  refine ⟨fun n => ?_, fun n => ?_, fun n => ?_⟩
  · simp only [convert, convertDeleteStmt_eq, length_items_convertTableRefsClause,
      items_convertTableRefsClause, aborted]
    rcases n.TableRefs.visitTableNames with _ | ⟨t, _ | ⟨u, ts⟩⟩ <;> simp
  · simp only [convert, convertUpdateStmt_eq, length_items_convertTableRefsClause,
      items_convertTableRefsClause, aborted]
    rcases n.TableRefs.visitTableNames with _ | ⟨t, _ | ⟨u, ts⟩⟩ <;> simp
  · simp only [convert, convertInsertStmt_eq, length_items_convertTableRefsClause,
      items_convertTableRefsClause, aborted]
    rcases n.Table.visitTableNames with _ | ⟨t, _ | ⟨u, ts⟩⟩
    · simp
    · have hx : ∃ cols ret sel s1, insertResult s n (ANode.RangeVar t.Schema.O t.Name.O) =
          (ANode.InsertStmt (ANode.RangeVar t.Schema.O t.Name.O) cols ret sel, s1) := by
        unfold insertResult
        generalize convertResultSetNode s n.Select = ss
        obtain ⟨a, s2⟩ := ss
        cases a <;> exact ⟨_, _, _, _, rfl⟩
      simpa using hx
    · simp

/-- C5: when the first rename spec of an ALTER TABLE statement, in list
order, is `spec`, the conversion returns the rename statement of `spec` and no
AlterTable: a RenameColumn with the table of the statement and the old and new
column names of `spec`, or a RenameTable with the table of the statement and
the name of the new table of `spec`; no other spec of the list appears in
it. -/
theorem alter_rename_short_circuit (s : State) (n : AlterTableStmt) (spec : AlterTableSpec)
    (h : n.Specs.find? AlterTableSpec.isRename = some spec) :
    (spec.Tp = .AlterTableRenameColumn ∨ spec.Tp = .AlterTableRenameTable) ∧
    (spec.Tp = .AlterTableRenameColumn →
      (convertAlterTableStmt s n).1 =
        ANode.RenameColumnStmt (parseTableName n.Table)
          (ANode.ColumnRef ANode.nil spec.OldColumnName.Str) (some spec.NewColumnName.Str)) ∧
    (spec.Tp = .AlterTableRenameTable →
      (convertAlterTableStmt s n).1 =
        ANode.RenameTableStmt (parseTableName n.Table)
          (some (parseTableName spec.NewTable).Name)) ∧
    (∀ table cmds, (convertAlterTableStmt s n).1 ≠ ANode.AlterTableStmt table cmds) ∧
    convert s (.AlterTableStmt n) = .ok (convertAlterTableStmt s n) := by
  have hr := alterSpecs_rename n n.Specs spec s [] h
  have ht : spec.Tp = .AlterTableRenameColumn ∨ spec.Tp = .AlterTableRenameTable := by
    have := List.find?_some h
    unfold AlterTableSpec.isRename at this
    split at this <;> simp_all
  refine ⟨ht, hr.1, hr.2, ?_, rfl⟩
  intro table cmds
  unfold convertAlterTableStmt
  rcases ht with ht | ht
  · rw [hr.1 ht]; simp
  · rw [hr.2 ht]; simp

/-- C5 at `ALTER TABLE t ADD COLUMN c int, RENAME COLUMN a TO b, DROP COLUMN
a`. -/
theorem alter_rename_short_circuit_witness :
    (convertAlterTableStmt (State.fresh false) sampleAlterRename).1 =
      ANode.RenameColumnStmt ⟨"", "t"⟩ (ANode.ColumnRef ANode.nil "a") (some "b") :=
  (alter_rename_short_circuit (State.fresh false) sampleAlterRename
    (sampleSpec .AlterTableRenameColumn []) rfl).2.1 rfl

/-- C6: an ALTER TABLE statement with one modify-column spec converts to an
AlterTable whose commands are, for each new column definition in order, the
DropColumn of its name followed by the AddColumn of its name with a definition
of that column name, the type name of its type and its not-null flag; for one
definition these are exactly the two commands. -/
theorem alter_modify_column_commands (s : State) (table : TableName) (spec : AlterTableSpec)
    (h : spec.Tp = .AlterTableModifyColumn) :
    convertAlterTableStmt s { Table := table, Specs := [spec] } =
      (ANode.AlterTableStmt (parseTableName table)
        (ANode.AstList (spec.NewColumns.flatMap fun d => [specDropColumn d, specAddColumn d])),
        s) ∧
    ∀ d, spec.NewColumns = [d] →
      convertAlterTableStmt s { Table := table, Specs := [spec] } =
        (ANode.AlterTableStmt (parseTableName table)
          (ANode.AstList
            [ANode.AlterTableCmd (some d.Name.Str) .AT_DropColumn ANode.nil false,
             ANode.AlterTableCmd (some d.Name.Str) .AT_AddColumn
              (ANode.ColumnDef d.Name.Str d.Tp.TypeStr (isNotNull d) "" ANode.nil) false]),
          s) := by
  have e : convertAlterTableStmt s { Table := table, Specs := [spec] } =
      (ANode.AlterTableStmt (parseTableName table)
        (ANode.AstList (spec.NewColumns.flatMap fun d => [specDropColumn d, specAddColumn d])),
        s) := by
    simp [convertAlterTableStmt, alterSpecs, h, alterModifyColumns_eq]
  refine ⟨e, ?_⟩
  intro d hd
  rw [e, hd]
  simp [specDropColumn, specAddColumn]

/-- C6 at `ALTER TABLE t MODIFY COLUMN d text`. -/
theorem alter_modify_column_commands_witness :
    convertAlterTableStmt (State.fresh false)
        { Table := ⟨⟨""⟩, ⟨"t"⟩⟩
          Specs := [sampleSpec .AlterTableModifyColumn [sampleColumnDef "d" "text"]] } =
      (ANode.AlterTableStmt ⟨"", "t"⟩
        (ANode.AstList
          [ANode.AlterTableCmd (some "d") .AT_DropColumn ANode.nil false,
           ANode.AlterTableCmd (some "d") .AT_AddColumn
            (ANode.ColumnDef "d" "text" false "" ANode.nil) false]),
        State.fresh false) :=
  (alter_modify_column_commands (State.fresh false) ⟨⟨""⟩, ⟨"t"⟩⟩
    (sampleSpec .AlterTableModifyColumn [sampleColumnDef "d" "text"]) rfl).2 _ rfl

/-- C7: an ALTER TABLE statement without a rename spec converts to an
AlterTable whose command list is the concatenation, in the order of the specs,
of the commands of each spec: one AddColumn per new column of an add-columns
spec, one DropColumn with the IF EXISTS flag as missing-ok flag for a
drop-column spec, a DropColumn and AddColumn pair per new column of a
modify-column spec, and no command for any other kind; its length is the sum
of these counts. -/
theorem alter_commands_in_spec_order (s : State) (n : AlterTableStmt)
    (h : ∀ spec ∈ n.Specs, spec.isRename = false) :
    (convertAlterTableStmt s n).1 =
      ANode.AlterTableStmt (parseTableName n.Table)
        (ANode.AstList (n.Specs.flatMap specCommands)) ∧
    (n.Specs.flatMap specCommands).length = (n.Specs.map specCommandCount).sum := by
  refine ⟨?_, ?_⟩
  · simpa [convertAlterTableStmt] using alterSpecs_no_rename n n.Specs s [] h
  · rw [List.length_flatMap]
    congr 1
    apply List.map_congr_left
    intro spec _
    exact specCommands_length spec

/-- C7 at `ALTER TABLE t ADD COLUMN c int, MODIFY COLUMN d text, DROP COLUMN
IF EXISTS a, ALTER COLUMN ...`. -/
theorem alter_commands_in_spec_order_witness :
    (convertAlterTableStmt (State.fresh false) sampleAlter).1 =
      ANode.AlterTableStmt ⟨"", "t"⟩
        (ANode.AstList
          [ANode.AlterTableCmd (some "c") .AT_AddColumn
            (ANode.ColumnDef "c" "int" false "" ANode.nil) false,
           ANode.AlterTableCmd (some "d") .AT_DropColumn ANode.nil false,
           ANode.AlterTableCmd (some "d") .AT_AddColumn
            (ANode.ColumnDef "d" "text" false "" ANode.nil) false,
           ANode.AlterTableCmd (some "a") .AT_DropColumn ANode.nil true]) :=
  (alter_commands_in_spec_order (State.fresh false) sampleAlter (by
    intro spec hs
    simp only [sampleAlter, List.mem_cons, List.mem_singleton, List.not_mem_nil, or_false] at hs
    rcases hs with rfl | rfl | rfl | rfl <;> rfl)).1

/-- C8: an aggregate call whose only argument is a literal of integer value
1, the form in which both COUNT(1) and COUNT(*) arrive, converts to a function
call with the name of the aggregate, an empty argument list and the star flag
set; so two such calls of the same name and DISTINCT modifier convert to equal
nodes. -/
theorem aggregate_literal_one_is_star (s : State) (f : String) (distinct : Bool)
    (one star : ValueExpr) (h1 : one.Datum.GetInt64 = 1) (h2 : star.Datum.GetInt64 = 1) :
    convertAggregateFuncExpr s (.mk f [.ValueExpr one] distinct) =
      (ANode.FuncCall { Schema := "", Name := f } (ANode.AstList [ANode.AstString f])
        (ANode.AstList []) (ANode.AstList []) true distinct 0, s) ∧
    convert s (.ExprNode (.AggregateFuncExpr (.mk f [.ValueExpr one] distinct))) =
      convert s (.ExprNode (.AggregateFuncExpr (.mk f [.ValueExpr star] distinct))) := by
  have e : ∀ v : ValueExpr, v.Datum.GetInt64 = 1 →
      convertAggregateFuncExpr s (.mk f [.ValueExpr v] distinct) =
        (ANode.FuncCall { Schema := "", Name := f } (ANode.AstList [ANode.AstString f])
          (ANode.AstList []) (ANode.AstList []) true distinct 0, s) := by
    intro v hv
    simp [convertAggregateFuncExpr, convertAggregateArgs, isValueOne, hv]
  refine ⟨e one h1, ?_⟩
  simp only [convert, convertExprNode, e one h1, e star h2]

/-- C8 at `COUNT(1)`, once with a literal that also carries the text "1". -/
theorem aggregate_literal_one_is_star_witness :
    convertAggregateFuncExpr (State.fresh false)
        (.mk "count" [.ValueExpr ⟨⟨.KindInt64, 1, ""⟩⟩] false) =
      (ANode.FuncCall { Schema := "", Name := "count" }
        (ANode.AstList [ANode.AstString "count"])
        (ANode.AstList []) (ANode.AstList []) true false 0, State.fresh false) :=
  (aggregate_literal_one_is_star (State.fresh false) "count" false ⟨⟨.KindInt64, 1, ""⟩⟩ ⟨⟨.KindInt64, 1, "1"⟩⟩
    rfl rfl).1

theorem logUnknownNode_c (s : State) (typeName : String) :
    (logUnknownNode s typeName).c = s.c := by
  unfold logUnknownNode State.print; split <;> rfl

theorem convertExprNode_unimplemented (s : State) (e : ExprNode)
    (he : e.unimplemented = true) :
    (convertExprNode s e).1 = ANode.TODO ∧ (convertExprNode s e).2.c = s.c := by
  cases e <;> simp [ExprNode.unimplemented] at he <;>
    simp [convertExprNode, logUnknownNode_c]

theorem convertSelectFields_append (pre post : List SelectField) :
    ∀ s : State, convertSelectFields s (pre ++ post) =
      ((convertSelectFields s pre).1 ++ (convertSelectFields (convertSelectFields s pre).2 post).1,
        (convertSelectFields (convertSelectFields s pre).2 post).2) := by
  induction pre with
  | nil => intro s; simp [convertSelectFields]
  | cons f fs ih => intro s; simp [convertSelectFields, ih]

theorem convertExprNodes_append (pre post : List ExprNode) :
    ∀ s : State, convertExprNodes s (pre ++ post) =
      ((convertExprNodes s pre).1 ++ (convertExprNodes (convertExprNodes s pre).2 post).1,
        (convertExprNodes (convertExprNodes s pre).2 post).2) := by
  induction pre with
  | nil => intro s; simp [convertExprNodes]
  | cons f fs ih => intro s; simp [convertExprNodes, ih]

theorem convertAssignments_append (pre post : List Assignment) :
    ∀ s : State, convertAssignments s (pre ++ post) =
      ((convertAssignments s pre).1 ++ (convertAssignments (convertAssignments s pre).2 post).1,
        (convertAssignments (convertAssignments s pre).2 post).2) := by
  induction pre with
  | nil => intro s; simp [convertAssignments]
  | cons f fs ih => intro s; simp [convertAssignments, ih]

theorem convertLists_append (pre post : List (List ExprNode)) :
    ∀ s : State, convertLists s (pre ++ post) =
      (ANode.AstList ((convertLists s pre).1.Items ++
          (convertLists (convertLists s pre).2 post).1.Items),
        (convertLists (convertLists s pre).2 post).2) := by
  induction pre with
  | nil =>
    intro s
    have := (convertLists_tracks post s).2
    obtain ⟨items, hi⟩ := this
    simp only [List.nil_append, convertLists, ANode.Items]
    rw [Prod.ext_iff]
    simp [hi, ANode.Items]
  | cons f fs ih => intro s; simp [convertLists, ih, ANode.Items]

/-- C9: the dispatcher gives no node for nil, and the placeholder for every
node of a kind without an implemented conversion: the kinds whose converter is
a stub leave the state as it is, and the kinds without a case leave the
counter as it is and write one line to the diagnostics sink when debug mode is
on; the value returned is the placeholder whether debug mode is on or off, and
the conversion is never aborted. -/
theorem convert_unimplemented_placeholder (s : State) :
    convert s .nil = .ok (ANode.nil, s) ∧
    convert s (.ExprNode .nil) = .ok (ANode.nil, s) ∧
    convert s (.ResultSetNode .nil) = .ok (ANode.nil, s) ∧
    (∀ kind children, convert s (.stub kind children) = .ok (ANode.TODO, s)) ∧
    (∀ kind exprs sources,
      convert s (.ExprNode (.stub kind exprs sources)) = .ok (ANode.TODO, s)) ∧
    (∀ source asName,
      convert s (.ResultSetNode (.TableSource source asName)) = .ok (ANode.TODO, s)) ∧
    (∀ name, convert s (.ResultSetNode (.TableName name)) = .ok (ANode.TODO, s)) ∧
    (∀ join, convert s (.ResultSetNode (.Join join)) = .ok (ANode.TODO, s)) ∧
    (∀ selects, convert s (.ResultSetNode (.SetOprStmt selects)) = .ok (ANode.TODO, s)) ∧
    (∀ typeName children,
      convert s (.unknown typeName children) = .ok (ANode.TODO, logUnknownNode s typeName)) ∧
    (∀ typeName exprs sources,
      convert s (.ExprNode (.unknown typeName exprs sources)) =
        .ok (ANode.TODO, logUnknownNode s typeName)) ∧
    (∀ typeName, (logUnknownNode s typeName).c = s.c ∧
      (s.debugActive = false → logUnknownNode s typeName = s)) ∧
    (∀ typeName children debugActive,
      (convert { s with debugActive := debugActive } (.unknown typeName children)).map Prod.fst =
        .ok ANode.TODO) ∧
    (∀ typeName exprs sources debugActive,
      (convert { s with debugActive := debugActive }
        (.ExprNode (.unknown typeName exprs sources))).map Prod.fst = .ok ANode.TODO) := by
  refine ⟨rfl, rfl, rfl, fun _ _ => rfl, fun _ _ _ => rfl, fun _ _ => rfl, fun _ => rfl,
    fun _ => rfl, fun _ => rfl, fun _ _ => rfl, fun _ _ _ => rfl, fun t => ?_, fun _ _ _ => rfl,
    fun _ _ _ _ => rfl⟩
  refine ⟨logUnknownNode_c s t, fun h => ?_⟩
  simp [logUnknownNode, h]

/-- C10: an expression of a kind without an implemented conversion converts
to the placeholder and leaves the counter as it is, and so the conversion of a
SELECT, or of a DELETE, UPDATE or INSERT whose table clause flattens to one
table, that holds it as where clause, limit count, limit offset, select field,
assignment or value is not aborted and has the placeholder at that position,
the other fields being the conversions of the other parts in their order. -/
theorem unimplemented_nested_placeholder (s : State) (e : ExprNode)
    (he : e.unimplemented = true) :
    ((convertExprNode s e).1 = ANode.TODO ∧ (convertExprNode s e).2.c = s.c) ∧
    (∀ n, convert s (.ResultSetNode (.SelectStmt n)) = .ok (convertSelectStmt s n)) ∧
    (∀ fields from_ rest,
      convertSelectStmt s (.mk fields from_ e .nil rest) =
        (ANode.SelectStmt (convertFieldList s fields).1 (convertTableRefsClause from_)
          ANode.TODO ANode.nil ANode.nil ANode.nil,
          (convertExprNode (convertFieldList s fields).2 e).2)) ∧
    (∀ fields from_ count offset rest,
      convertSelectStmt s (.mk fields from_ e (.mk count offset) rest) =
        (ANode.SelectStmt (convertFieldList s fields).1 (convertTableRefsClause from_)
          ANode.TODO
          (convertExprNode (convertExprNode (convertFieldList s fields).2 e).2 count).1
          (convertExprNode
            (convertExprNode (convertExprNode (convertFieldList s fields).2 e).2 count).2
            offset).1
          ANode.nil,
          (convertExprNode
            (convertExprNode (convertExprNode (convertFieldList s fields).2 e).2 count).2
            offset).2)) ∧
    (∀ fields from_ where_ offset rest,
      (convertSelectStmt s (.mk fields from_ where_ (.mk e offset) rest)).1 =
        ANode.SelectStmt (convertFieldList s fields).1 (convertTableRefsClause from_)
          (convertExprNode (convertFieldList s fields).2 where_).1
          ANode.TODO
          (convertExprNode
            (convertExprNode (convertExprNode (convertFieldList s fields).2 where_).2 e).2
            offset).1
          ANode.nil) ∧
    (∀ fields from_ where_ count rest,
      (convertSelectStmt s (.mk fields from_ where_ (.mk count e) rest)).1 =
        ANode.SelectStmt (convertFieldList s fields).1 (convertTableRefsClause from_)
          (convertExprNode (convertFieldList s fields).2 where_).1
          (convertExprNode (convertExprNode (convertFieldList s fields).2 where_).2 count).1
          ANode.TODO
          ANode.nil) ∧
    (∀ pre post offset asName,
      (convertSelectFields s (pre ++ SelectField.mk offset none e asName :: post)).1 =
        (convertSelectFields s pre).1 ++
          ANode.ResTarget (if asName.O ≠ "" then some asName.O else none) ANode.TODO offset ::
          (convertSelectFields (convertExprNode (convertSelectFields s pre).2 e).2 post).1) ∧
    (∀ pre post column,
      (convertAssignments s (pre ++ ({ Column := column, Expr := e } : Assignment) :: post)).1 =
        (convertAssignments s pre).1 ++
          ANode.ResTarget (some column.Name.O) ANode.TODO 0 ::
          (convertAssignments (convertExprNode (convertAssignments s pre).2 e).2 post).1) ∧
    (∀ pre post,
      (convertExprNodes s (pre ++ e :: post)).1 =
        (convertExprNodes s pre).1 ++
          ANode.TODO :: (convertExprNodes (convertExprNode (convertExprNodes s pre).2 e).2 post).1) ∧
    (∀ (n : DeleteStmt) t, n.TableRefs.visitTableNames = [t] → n.Where = e →
      convert s (.DeleteStmt n) =
        .ok (ANode.DeleteStmt (ANode.RangeVar t.Schema.O t.Name.O) ANode.TODO (ANode.AstList []),
          (convertExprNode s e).2)) ∧
    (∀ (n : UpdateStmt) t, n.TableRefs.visitTableNames = [t] → n.Where = e →
      convert s (.UpdateStmt n) =
        .ok (ANode.UpdateStmt (ANode.RangeVar t.Schema.O t.Name.O)
          (ANode.AstList (convertAssignments s n.List).1) ANode.TODO (ANode.AstList [])
          (ANode.AstList []), (convertExprNode (convertAssignments s n.List).2 e).2)) ∧
    (∀ (n : UpdateStmt) t, n.TableRefs.visitTableNames = [t] →
      convert s (.UpdateStmt n) =
        .ok (ANode.UpdateStmt (ANode.RangeVar t.Schema.O t.Name.O)
          (ANode.AstList (convertAssignments s n.List).1)
          (convertExprNode (convertAssignments s n.List).2 n.Where).1 (ANode.AstList [])
          (ANode.AstList []), (convertExprNode (convertAssignments s n.List).2 n.Where).2)) ∧
    (∀ preRows postRows pre post,
      (convertLists s (preRows ++ (pre ++ e :: post) :: postRows)).1.Items =
        (convertLists s preRows).1.Items ++
          ANode.AstList ((convertExprNodes (convertLists s preRows).2 pre).1 ++
            ANode.TODO ::
            (convertExprNodes
              (convertExprNode (convertExprNodes (convertLists s preRows).2 pre).2 e).2
              post).1) ::
          (convertLists (convertExprNodes (convertLists s preRows).2 (pre ++ e :: post)).2
            postRows).1.Items) ∧
    (∀ (n : InsertStmt) t, n.Table.visitTableNames = [t] →
      ∃ cols t1 f w lc lo s1, convert s (.InsertStmt n) =
        .ok (ANode.InsertStmt (ANode.RangeVar t.Schema.O t.Name.O) cols (ANode.AstList [])
          (ANode.SelectStmt t1 f w lc lo
            (convertLists (convertResultSetNode s n.Select).2 n.Lists).1), s1)) := by
  have hu : ∀ s0 : State, (convertExprNode s0 e).1 = ANode.TODO := fun s0 =>
    (convertExprNode_unimplemented s0 e he).1
  refine ⟨convertExprNode_unimplemented s e he, fun _ => rfl, ?_, ?_, ?_, ?_, ?_, ?_, ?_, ?_, ?_,
    ?_, ?_, ?_⟩
  · intro fields from_ rest
    simp [convertSelectStmt, hu]
  · intro fields from_ count offset rest
    simp [convertSelectStmt, hu]
  · intro fields from_ where_ offset rest
    simp [convertSelectStmt, hu]
  · intro fields from_ where_ count rest
    simp [convertSelectStmt, hu]
  · intro pre post offset asName
    simp [convertSelectFields_append, convertSelectFields, convertSelectField, hu]
  · intro pre post column
    simp [convertAssignments_append, convertAssignments, convertAssignment, hu]
  · intro pre post
    simp [convertExprNodes_append, convertExprNodes, hu]
  · intro n t ht hw
    simp [convert, convertDeleteStmt_eq, ht, hw, hu]
  · intro n t ht hw
    simp [convert, convertUpdateStmt_eq, ht, hw, hu]
  · intro n t ht
    simp [convert, convertUpdateStmt_eq, ht]
  · intro preRows postRows pre post
    simp [convertLists_append, convertLists, convertExprNodes_append, convertExprNodes, hu,
      ANode.Items]
  · intro n t ht
    simp only [convert, convertInsertStmt_eq, ht, insertResult]
    generalize convertResultSetNode s n.Select = ss
    obtain ⟨a, s2⟩ := ss
    cases a <;> exact ⟨_, _, _, _, _, _, _, rfl⟩

/-- C10 at the BETWEEN expression of `SELECT * FROM t WHERE a BETWEEN ? AND
?`. -/
theorem unimplemented_nested_placeholder_witness :
    convertSelectStmt (State.fresh false)
        (.mk (.mk [sampleStar]) (sampleFrom "t")
          (.stub .BetweenExpr
            [sampleColumn "a", .ParamMarkerExpr ⟨30⟩, .ParamMarkerExpr ⟨36⟩] [])
          .nil []) =
      (ANode.SelectStmt
        (ANode.AstList [ANode.ResTarget none (ANode.ColumnRef (ANode.AstList [ANode.A_Star]) "") 7])
        (ANode.AstList [ANode.RangeVar "" "t"]) ANode.TODO ANode.nil ANode.nil ANode.nil,
        State.fresh false) :=
  (unimplemented_nested_placeholder (State.fresh false)
    (.stub .BetweenExpr [sampleColumn "a", .ParamMarkerExpr ⟨30⟩, .ParamMarkerExpr ⟨36⟩] [])
    rfl).2.2.1 _ _ _

/-- C11: the flattener gives the empty list for the nil clause, with no
abort, and so a SELECT without a FROM clause converts to a Select whose from
list is empty. -/
theorem flatten_nil_clause (s : State) :
    convertTableRefsClause .nil = ANode.AstList [] ∧
    (convertTableRefsClause .nil).Items.length = 0 ∧
    convert s (.TableRefsClause .nil) = .ok (ANode.AstList [], s) ∧
    (∀ fields where_ limit rest, ∃ t w lc lo,
      (convertSelectStmt s (.mk fields .nil where_ limit rest)).1 =
        ANode.SelectStmt t (ANode.AstList []) w lc lo ANode.nil) ∧
    (∀ fields where_ limit rest, ∃ t w lc lo s1,
      convert s (.ResultSetNode (.SelectStmt (.mk fields .nil where_ limit rest))) =
        .ok (ANode.SelectStmt t (ANode.AstList []) w lc lo ANode.nil, s1)) := by
  refine ⟨rfl, rfl, rfl, ?_, ?_⟩
  · intro fields where_ limit rest
    cases limit <;> exact ⟨_, _, _, _, rfl⟩
  · intro fields where_ limit rest
    cases limit <;> exact ⟨_, _, _, _, _, rfl⟩

/-- C12: for a clause that is not nil the flattener gives one `RangeVar` per
table-name node of the subtree of the clause, in depth-first pre-order, each
with the schema and the name of its node, and every element of the result is
a `RangeVar`.  The order is fixed node by node: the tables of a join are those
of its left side, then those of its right side, then those below its ON
condition; the tables of an aliased source are those of the source; the
tables of a SELECT are those below its select list, then those of its FROM
clause, then those below its WHERE condition, then those below its other
clauses, then those below its LIMIT clause; the tables below a list of
expressions or of fields are those below its first element, then those below
the others; an operation gives those of its left operand before those of its
right operand, and a subquery those of its query.  The join kind, the USING
columns and the aliases change nothing in the result.  The ON condition is
never an element of the result: it adds the tables of the subqueries below
it, after those of the right side, and nothing when there is no table below
it.  So `a LEFT JOIN b ON x = y` gives a then b,
`a JOIN b ON EXISTS (SELECT 1 FROM c)` gives a, b, c, and a derived table with
a below its select list, b in its FROM clause and c below its WHERE
condition, joined with e, gives a, b, c, e. -/
theorem flatten_preorder (j : Join) :
    convertTableRefsClause (.mk j) =
      ANode.AstList
        (j.visitTableNames.map fun name => ANode.RangeVar name.Schema.O name.Name.O) ∧
    (convertTableRefsClause (.mk j)).Items.length = j.visitTableNames.length ∧
    (∀ x ∈ (convertTableRefsClause (.mk j)).Items, ∃ schema name, x = ANode.RangeVar schema name) ∧
    (∀ l r tp cond cols,
      Join.visitTableNames (.mk l r tp cond cols) =
        l.visitTableNames ++ r.visitTableNames ++ cond.visitTableNames) ∧
    (∀ source asName,
      ResultSetNode.visitTableNames (.TableSource source asName) = source.visitTableNames) ∧
    (∀ name, ResultSetNode.visitTableNames (.TableName name) = [name]) ∧
    (∀ l r tp tp1 cond cols cols1,
      convertTableRefsClause (.mk (.mk l r tp cond cols)) =
        convertTableRefsClause (.mk (.mk l r tp1 cond cols1))) ∧
    (∀ a b aliasA aliasB tp cond cols, cond.visitTableNames = [] →
      convertTableRefsClause
          (.mk (.mk (.TableSource (.TableName a) aliasA) (.TableSource (.TableName b) aliasB)
            tp cond cols)) =
        ANode.AstList [ANode.RangeVar a.Schema.O a.Name.O, ANode.RangeVar b.Schema.O b.Name.O]) ∧
    (∀ fields from_ where_ limit rest,
      ResultSetNode.visitTableNames (.SelectStmt (.mk fields from_ where_ limit rest)) =
        fields.visitTableNames ++ from_.visitTableNames ++ where_.visitTableNames ++
          visitExprs rest ++ limit.visitTableNames) ∧
    (∀ offset wildCard expr asName fields,
      FieldList.visitTableNames (.mk (.mk offset wildCard expr asName :: fields)) =
        expr.visitTableNames ++ FieldList.visitTableNames (.mk fields)) ∧
    FieldList.visitTableNames (.mk []) = [] ∧
    (∀ e es, visitExprs (e :: es) = e.visitTableNames ++ visitExprs es) ∧
    visitExprs [] = [] ∧
    (∀ r rs, visitSources (r :: rs) = r.visitTableNames ++ visitSources rs) ∧
    visitSources [] = [] ∧
    (∀ count offset,
      Limit.visitTableNames (.mk count offset) =
        count.visitTableNames ++ offset.visitTableNames) ∧
    Limit.visitTableNames .nil = [] ∧
    TableRefsClause.visitTableNames .nil = [] ∧
    (∀ tableRefs, TableRefsClause.visitTableNames (.mk tableRefs) = tableRefs.visitTableNames) ∧
    (∀ n, ResultSetNode.visitTableNames (.Join n) = n.visitTableNames) ∧
    (∀ query, ResultSetNode.visitTableNames (.SubqueryExpr (.mk query)) =
      query.visitTableNames) ∧
    (∀ selectList, ResultSetNode.visitTableNames (.SetOprStmt selectList) =
      visitSources selectList) ∧
    ResultSetNode.visitTableNames .nil = [] ∧
    (∀ query, ExprNode.visitTableNames (.SubqueryExpr (.mk query)) = query.visitTableNames) ∧
    (∀ sel, ExprNode.visitTableNames (.ExistsSubqueryExpr (.mk sel)) = sel.visitTableNames) ∧
    (∀ op l r, ExprNode.visitTableNames (.BinaryOperationExpr (.mk op l r)) =
      l.visitTableNames ++ r.visitTableNames) ∧
    (∀ f args distinct, ExprNode.visitTableNames (.AggregateFuncExpr (.mk f args distinct)) =
      visitExprs args) ∧
    (∀ schema fnName args offset,
      ExprNode.visitTableNames (.FuncCallExpr (.mk schema fnName args offset)) =
        visitExprs args) ∧
    (∀ kind exprs sources, ExprNode.visitTableNames (.stub kind exprs sources) =
      visitExprs exprs ++ visitSources sources) ∧
    (∀ typeName exprs sources, ExprNode.visitTableNames (.unknown typeName exprs sources) =
      visitExprs exprs ++ visitSources sources) ∧
    (∀ m value name, ExprNode.visitTableNames (.ParamMarkerExpr m) = [] ∧
      ExprNode.visitTableNames (.ValueExpr value) = [] ∧
      ExprNode.visitTableNames (.ColumnNameExpr name) = [] ∧
      ExprNode.visitTableNames .nil = []) ∧
    (∀ l r tp cond cols asName asName1,
      convertTableRefsClause (.mk (.mk (.TableSource l asName) r tp cond cols)) =
        convertTableRefsClause (.mk (.mk (.TableSource l asName1) r tp cond cols)) ∧
      convertTableRefsClause (.mk (.mk l (.TableSource r asName) tp cond cols)) =
        convertTableRefsClause (.mk (.mk l (.TableSource r asName1) tp cond cols))) ∧
    (∀ l r tp cond cols,
      (convertTableRefsClause (.mk (.mk l r tp cond cols))).Items =
        (convertTableRefsClause (.mk (.mk l r tp .nil cols))).Items ++
          cond.visitTableNames.map fun name => ANode.RangeVar name.Schema.O name.Name.O) ∧
    (∀ l r tp cond cols, cond.visitTableNames = [] →
      convertTableRefsClause (.mk (.mk l r tp cond cols)) =
        convertTableRefsClause (.mk (.mk l r tp .nil cols))) ∧
    convertTableRefsClause sampleJoinOn =
      ANode.AstList [ANode.RangeVar "" "a", ANode.RangeVar "" "b"] ∧
    convertTableRefsClause sampleJoinOnExists =
      ANode.AstList [ANode.RangeVar "" "a", ANode.RangeVar "" "b", ANode.RangeVar "" "c"] ∧
    convertTableRefsClause sampleDerivedJoin =
      ANode.AstList [ANode.RangeVar "" "a", ANode.RangeVar "" "b", ANode.RangeVar "" "c",
        ANode.RangeVar "" "e"] := by
  have e := convertTableRefsClause_eq
  refine ⟨by simpa [TableRefsClause.visitTableNames] using e (.mk j), ?_, ?_, ?_, ?_, ?_, ?_, ?_,
    ?_, ?_, ?_, ?_, ?_, ?_, ?_, ?_, ?_, ?_, ?_, ?_, ?_, ?_, ?_, ?_, ?_, ?_, ?_, ?_, ?_, ?_, ?_,
    ?_, ?_, ?_, rfl, rfl, rfl⟩
  · simp [items_convertTableRefsClause, TableRefsClause.visitTableNames]
  · intro x hx
    rw [items_convertTableRefsClause] at hx
    obtain ⟨t, _, rfl⟩ := List.mem_map.mp hx
    exact ⟨_, _, rfl⟩
  · intro l r tp cond cols; simp [Join.visitTableNames]
  · intro source asName; simp [ResultSetNode.visitTableNames]
  · intro name; simp [ResultSetNode.visitTableNames]
  · intro l r tp tp1 cond cols cols1
    simp [e, TableRefsClause.visitTableNames, Join.visitTableNames]
  · intro a b aliasA aliasB tp cond cols h
    simp [e, TableRefsClause.visitTableNames, Join.visitTableNames,
      ResultSetNode.visitTableNames, h]
  · intro fields from_ where_ limit rest
    simp [ResultSetNode.visitTableNames, SelectStmt.visitTableNames]
  · intro offset wildCard expr asName fields
    simp [FieldList.visitTableNames, visitFields, SelectField.visitTableNames]
  · simp [FieldList.visitTableNames, visitFields]
  · intro e es; simp [visitExprs]
  · simp [visitExprs]
  · intro r rs; simp [visitSources]
  · simp [visitSources]
  · intro count offset; simp [Limit.visitTableNames]
  · simp [Limit.visitTableNames]
  · simp [TableRefsClause.visitTableNames]
  · intro tableRefs; simp [TableRefsClause.visitTableNames]
  · intro n; simp [ResultSetNode.visitTableNames]
  · intro query; simp [ResultSetNode.visitTableNames, SubqueryExpr.visitTableNames]
  · intro selectList; simp [ResultSetNode.visitTableNames]
  · simp [ResultSetNode.visitTableNames]
  · intro query; simp [ExprNode.visitTableNames, SubqueryExpr.visitTableNames]
  · intro sel; simp [ExprNode.visitTableNames, ExistsSubqueryExpr.visitTableNames]
  · intro op l r; simp [ExprNode.visitTableNames, BinaryOperationExpr.visitTableNames]
  · intro f args distinct
    simp [ExprNode.visitTableNames, AggregateFuncExpr.visitTableNames]
  · intro schema fnName args offset
    simp [ExprNode.visitTableNames, FuncCallExpr.visitTableNames]
  · intro kind exprs sources; simp [ExprNode.visitTableNames]
  · intro typeName exprs sources; simp [ExprNode.visitTableNames]
  · intro m value name; simp [ExprNode.visitTableNames]
  · intro l r tp cond cols asName asName1
    simp [e, TableRefsClause.visitTableNames, Join.visitTableNames,
      ResultSetNode.visitTableNames]
  · intro l r tp cond cols
    simp [items_convertTableRefsClause, TableRefsClause.visitTableNames, Join.visitTableNames,
      ExprNode.visitTableNames]
  · intro l r tp cond cols h
    simp [e, TableRefsClause.visitTableNames, Join.visitTableNames, h,
      ExprNode.visitTableNames]

/-- C13: a binary operation with a logical AND or OR converts to a `BoolExpr`
whose arguments are the conversion of the left operand and then the
conversion of the right operand, the left one converted first; with any other
operator it converts to an `A_Expr` with these two conversions as left and
right expression and a name of one element, which is "=" for the equality
operator and the text of the operator for every other one. -/
theorem binary_operation_shape (s : State) (op : Op) (l r : ExprNode) :
    ((op = .LogicAnd ∨ op = .LogicOr) →
      convertBinaryOperationExpr s (.mk op l r) =
        (ANode.BoolExpr (ANode.AstList
          [(convertExprNode s l).1, (convertExprNode (convertExprNode s l).2 r).1]),
          (convertExprNode (convertExprNode s l).2 r).2)) ∧
    (¬ (op = .LogicAnd ∨ op = .LogicOr) →
      convertBinaryOperationExpr s (.mk op l r) =
        (ANode.A_Expr (ANode.AstList [ANode.AstString (opToName op)])
          (convertExprNode s l).1 (convertExprNode (convertExprNode s l).2 r).1,
          (convertExprNode (convertExprNode s l).2 r).2)) ∧
    opToName .EQ = "=" ∧
    (∀ text, opToName (.other text) = text) ∧
    (op ≠ .EQ → opToName op = op.Str) ∧
    convert s (.ExprNode (.BinaryOperationExpr (.mk op l r))) =
      .ok (convertBinaryOperationExpr s (.mk op l r)) := by
  refine ⟨?_, ?_, rfl, fun _ => rfl, ?_, rfl⟩
  · intro h
    simp [convertBinaryOperationExpr, h]
  · intro h
    simp [convertBinaryOperationExpr, h]
  · intro h
    cases op <;> simp_all [opToName]

theorem length_convertExprNodes (es : List ExprNode) :
    ∀ s : State, (convertExprNodes s es).1.length = es.length := by
  induction es with
  | nil => intro s; simp [convertExprNodes]
  | cons e es ih => intro s; simp [convertExprNodes, ih]

/-- C14: a function call converts to a function-call node with its schema and
its name in `Func`, the name path schema then name when the schema is not
empty and the name alone otherwise, and as arguments the conversions of its
arguments, as many and in the same order, each converted after the ones before
it; no argument is dropped and the star flag is never set, a literal 1 being
converted to a constant like every other literal. -/
theorem func_call_shape (s : State) (schema fnName : CIStr) (args : List ExprNode)
    (offset : Int) :
    convertFuncCallExpr s (.mk schema fnName args offset) =
      (ANode.FuncCall { Schema := schema.O, Name := fnName.O }
        (ANode.AstList
          (if schema.O ≠ "" then [ANode.AstString schema.O, ANode.AstString fnName.O]
            else [ANode.AstString fnName.O]))
        (ANode.AstList (convertExprNodes s args).1) ANode.nil false false offset,
        (convertExprNodes s args).2) ∧
    (convertExprNodes s args).1.length = args.length ∧
    (∀ pre a post, args = pre ++ a :: post →
      (convertExprNodes s args).1 =
        (convertExprNodes s pre).1 ++
          (convertExprNode (convertExprNodes s pre).2 a).1 ::
          (convertExprNodes (convertExprNode (convertExprNodes s pre).2 a).2 post).1) ∧
    (∀ (s0 : State) (value : ValueExpr),
      convertExprNode s0 (.ValueExpr value) =
        (ANode.A_Const (ANode.AstString value.Datum.GetString), s0)) ∧
    convert s (.ExprNode (.FuncCallExpr (.mk schema fnName args offset))) =
      .ok (convertFuncCallExpr s (.mk schema fnName args offset)) := by
  refine ⟨?_, length_convertExprNodes args s, ?_, fun _ _ => rfl, rfl⟩
  · by_cases h : schema.O = "" <;> simp [convertFuncCallExpr, h]
  · rintro pre a post rfl
    simp [convertExprNodes_append, convertExprNodes]

/-- C15: a wildcard field converts to a `ColumnRef` whose path is the table
name followed by the star when the table name is not empty, and the star alone
otherwise; a column-name expression converts to a `ColumnRef` whose path is the
one element holding the bare column name, whatever its schema and table
qualifiers are. -/
theorem column_ref_paths (s : State) :
    (∀ n : WildCardField,
      convertWildCardField n =
        ANode.ColumnRef (ANode.AstList
          (if n.Table.O ≠ "" then [ANode.AstString n.Table.O, ANode.A_Star]
            else [ANode.A_Star])) "") ∧
    (∀ n : WildCardField, convert s (.WildCardField n) = .ok (convertWildCardField n, s)) ∧
    (∀ offset w expr asName, ∃ name,
      convertSelectField s (.mk offset (some w) expr asName) =
        (ANode.ResTarget name (convertWildCardField w) offset, s)) ∧
    (∀ n : ColumnNameExpr,
      convertColumnNameExpr n =
        ANode.ColumnRef (ANode.AstList [ANode.AstString n.Name.Name.O]) "") ∧
    (∀ schema table schema1 table1 name str str1,
      convertColumnNameExpr ⟨⟨schema, table, name, str⟩⟩ =
        convertColumnNameExpr ⟨⟨schema1, table1, name, str1⟩⟩) ∧
    (∀ n : ColumnNameExpr,
      convert s (.ExprNode (.ColumnNameExpr n)) = .ok (convertColumnNameExpr n, s)) := by
  refine ⟨?_, fun _ => rfl, fun _ _ _ _ => ⟨_, rfl⟩, fun _ => rfl, fun _ _ _ _ _ _ _ => rfl,
    fun _ => rfl⟩
  intro n
  by_cases h : n.Table.O = "" <;> simp [convertWildCardField, h]

mutual

theorem convertResultSetNode_cases : ∀ (n : ResultSetNode) (s : State),
    (∃ t f w lc lo, (convertResultSetNode s n).1 = ANode.SelectStmt t f w lc lo ANode.nil) ∨
    convertResultSetNode s n = (ANode.TODO, s) ∨
    convertResultSetNode s n = (ANode.nil, s)
  | .nil, s => by simp [convertResultSetNode]
  | .SelectStmt n, s => by
    left
    simpa [convertResultSetNode] using (convertSelectStmt_tracks n s).2
  | .SubqueryExpr n, s => by
    simpa [convertResultSetNode] using convertSubqueryExpr_cases n s
  | .TableSource _ _, s => by simp [convertResultSetNode]
  | .TableName _, s => by simp [convertResultSetNode]
  | .Join _, s => by simp [convertResultSetNode]
  | .SetOprStmt _, s => by simp [convertResultSetNode]

theorem convertSubqueryExpr_cases : ∀ (n : SubqueryExpr) (s : State),
    (∃ t f w lc lo, (convertSubqueryExpr s n).1 = ANode.SelectStmt t f w lc lo ANode.nil) ∨
    convertSubqueryExpr s n = (ANode.TODO, s) ∨
    convertSubqueryExpr s n = (ANode.nil, s)
  | .mk query, s => by
    simpa [convertSubqueryExpr] using convertResultSetNode_cases query s

end

/-- C16, as stated, fails: the subquery `(SELECT 1 UNION SELECT 2)` converts
to the placeholder, not to an empty select. -/
theorem subquery_union_is_placeholder :
    convert (State.fresh false) (.ExprNode sampleUnionSubquery) =
      .ok (ANode.TODO, State.fresh false) :=
  rfl

/-- C16 (amended): a subquery expression converts to exactly the conversion
of its inner query, never aborting: the inner Select when that conversion is a
Select, and otherwise the placeholder or no node, with the state unchanged. -/
theorem subquery_is_inner_conversion (s : State) (query : ResultSetNode) :
    convertSubqueryExpr s (.mk query) = convertResultSetNode s query ∧
    convert s (.ExprNode (.SubqueryExpr (.mk query))) = .ok (convertResultSetNode s query) ∧
    (∀ n, convertSubqueryExpr s (.mk (.SelectStmt n)) = convertSelectStmt s n) ∧
    convertSubqueryExpr s (.mk .nil) = (ANode.nil, s) ∧
    (∀ selects, convertSubqueryExpr s (.mk (.SetOprStmt selects)) = (ANode.TODO, s)) ∧
    ((∃ t f w lc lo,
        (convertSubqueryExpr s (.mk query)).1 = ANode.SelectStmt t f w lc lo ANode.nil) ∨
      convertSubqueryExpr s (.mk query) = (ANode.TODO, s) ∨
      convertSubqueryExpr s (.mk query) = (ANode.nil, s)) :=
  ⟨rfl, rfl, fun _ => rfl, rfl, fun _ => rfl, convertSubqueryExpr_cases (.mk query) s⟩

/-- C17: an EXISTS expression converts to a `SubLink`, never aborting: around
the conversion of its operand when that is a Select, and around nothing when
it is anything else; the state is the one the conversion of the operand
leaves. -/
theorem exists_subquery_link (s : State) (sel : ExprNode) :
    (∀ t f w lc lo v, (convertExprNode s sel).1 = ANode.SelectStmt t f w lc lo v →
      convertExistsSubqueryExpr s (.mk sel) =
        (ANode.SubLink (ANode.SelectStmt t f w lc lo v), (convertExprNode s sel).2)) ∧
    ((∀ t f w lc lo v, (convertExprNode s sel).1 ≠ ANode.SelectStmt t f w lc lo v) →
      convertExistsSubqueryExpr s (.mk sel) =
        (ANode.SubLink ANode.nil, (convertExprNode s sel).2)) ∧
    (∃ inner, convertExistsSubqueryExpr s (.mk sel) =
      (ANode.SubLink inner, (convertExprNode s sel).2)) ∧
    convert s (.ExprNode (.ExistsSubqueryExpr (.mk sel))) =
      .ok (convertExistsSubqueryExpr s (.mk sel)) := by
  refine ⟨?_, ?_, ?_, rfl⟩
  · intro t f w lc lo v h
    simp [convertExistsSubqueryExpr, h]
  · intro h
    unfold convertExistsSubqueryExpr
    generalize convertExprNode s sel = r at h ⊢
    obtain ⟨a, s1⟩ := r
    cases a <;> first
      | rfl
      | exact absurd rfl (h _ _ _ _ _ _)
  · unfold convertExistsSubqueryExpr
    generalize convertExprNode s sel = r
    obtain ⟨a, s1⟩ := r
    cases a <;> exact ⟨_, rfl⟩

theorem length_convertSelectFields (fs : List SelectField) :
    ∀ s : State, (convertSelectFields s fs).1.length = fs.length := by
  induction fs with
  | nil => intro s; simp [convertSelectFields]
  | cons f fs ih => intro s; simp [convertSelectFields, ih]

theorem length_convertAssignments (as : List Assignment) :
    ∀ s : State, (convertAssignments s as).1.length = as.length := by
  induction as with
  | nil => intro s; simp [convertAssignments]
  | cons a as ih => intro s; simp [convertAssignments, ih]

theorem convertLists_items (lists : List (List ExprNode)) :
    ∀ s : State, (convertLists s lists).1 = ANode.AstList (convertLists s lists).1.Items ∧
      (convertLists s lists).1.Items.length = lists.length := by
  induction lists with
  | nil => intro s; exact ⟨rfl, rfl⟩
  | cons l ls ih =>
    intro s
    refine ⟨rfl, ?_⟩
    have h := (ih (convertExprNodes s l).2).2
    show ((convertLists (convertExprNodes s l).2 ls).1.Items.length + 1 = ls.length + 1)
    rw [h]

/-- C18: a SELECT converts to a Select whose target list has one entry per
select field, in the same order, each converted after the ones before it: the
wildcard `ColumnRef` for a wildcard field and the conversion of the expression
otherwise, named by the alias only when the alias is not empty; whose from
list is the flattener applied to the from clause; whose where clause is the
conversion of the where expression, no node when there is none; and whose
limit count and limit offset are the conversions of count and offset when
there is a LIMIT clause and no node when there is none. -/
theorem select_shape (s : State) (fields : List SelectField) (from_ : TableRefsClause)
    (where_ : ExprNode) (rest : List ExprNode) :
    convertSelectStmt s (.mk (.mk fields) from_ where_ .nil rest) =
      (ANode.SelectStmt (ANode.AstList (convertSelectFields s fields).1)
        (convertTableRefsClause from_)
        (convertExprNode (convertSelectFields s fields).2 where_).1
        ANode.nil ANode.nil ANode.nil,
        (convertExprNode (convertSelectFields s fields).2 where_).2) ∧
    (∀ count offset,
      convertSelectStmt s (.mk (.mk fields) from_ where_ (.mk count offset) rest) =
        (ANode.SelectStmt (ANode.AstList (convertSelectFields s fields).1)
          (convertTableRefsClause from_)
          (convertExprNode (convertSelectFields s fields).2 where_).1
          (convertExprNode (convertExprNode (convertSelectFields s fields).2 where_).2 count).1
          (convertExprNode
            (convertExprNode (convertExprNode (convertSelectFields s fields).2 where_).2
              count).2 offset).1
          ANode.nil,
          (convertExprNode
            (convertExprNode (convertExprNode (convertSelectFields s fields).2 where_).2
              count).2 offset).2)) ∧
    (convertSelectFields s fields).1.length = fields.length ∧
    (∀ pre f post, fields = pre ++ f :: post →
      (convertSelectFields s fields).1 =
        (convertSelectFields s pre).1 ++
          (convertSelectField (convertSelectFields s pre).2 f).1 ::
          (convertSelectFields (convertSelectField (convertSelectFields s pre).2 f).2 post).1) ∧
    (∀ (s0 : State) offset w expr asName,
      convertSelectField s0 (.mk offset (some w) expr asName) =
        (ANode.ResTarget (if asName.O ≠ "" then some asName.O else none)
          (convertWildCardField w) offset, s0)) ∧
    (∀ (s0 : State) offset expr asName,
      convertSelectField s0 (.mk offset none expr asName) =
        (ANode.ResTarget (if asName.O ≠ "" then some asName.O else none)
          (convertExprNode s0 expr).1 offset, (convertExprNode s0 expr).2)) ∧
    (∀ s0 : State, convertExprNode s0 .nil = (ANode.nil, s0)) ∧
    (∀ n, convert s (.ResultSetNode (.SelectStmt n)) = .ok (convertSelectStmt s n)) := by
  refine ⟨by simp [convertSelectStmt, convertFieldList],
    fun _ _ => by simp [convertSelectStmt, convertFieldList],
    length_convertSelectFields fields s, ?_, fun _ _ _ _ _ => rfl, fun _ _ _ _ => rfl,
    fun _ => rfl, fun _ => rfl⟩
  rintro pre f post rfl
  simp [convertSelectFields_append, convertSelectFields]

/-- C19: an INSERT whose table clause flattens to the one table `t` converts
to an Insert on that table whose column list has one entry per target column,
in the same order and named by it; the converted row list has one inner list
per row, in the same order, each of the length of its row and holding the
conversions of its elements in order; and the Insert carries the conversion of
the select of the statement with the converted row list as values lists when
that conversion is a Select, and otherwise a Select with empty from and target
lists and the converted row list as values lists. -/
theorem insert_shape (s : State) (n : InsertStmt) (t : TableName)
    (h : n.Table.visitTableNames = [t]) :
    convertColumnNames n.Columns =
      ANode.AstList (n.Columns.map fun col => ANode.ResTarget (some col.Name.O) ANode.nil 0) ∧
    (∀ s0 : State,
      (convertLists s0 n.Lists).1 = ANode.AstList (convertLists s0 n.Lists).1.Items ∧
      (convertLists s0 n.Lists).1.Items.length = n.Lists.length) ∧
    (∀ (s0 : State) preRows row postRows, n.Lists = preRows ++ row :: postRows →
      (convertLists s0 n.Lists).1.Items =
        (convertLists s0 preRows).1.Items ++
          ANode.AstList (convertExprNodes (convertLists s0 preRows).2 row).1 ::
          (convertLists (convertExprNodes (convertLists s0 preRows).2 row).2 postRows).1.Items) ∧
    (∀ (s0 : State) (row : List ExprNode),
      (convertExprNodes s0 row).1.length = row.length ∧
      ∀ pre e post, row = pre ++ e :: post →
        (convertExprNodes s0 row).1 =
          (convertExprNodes s0 pre).1 ++
            (convertExprNode (convertExprNodes s0 pre).2 e).1 ::
            (convertExprNodes (convertExprNode (convertExprNodes s0 pre).2 e).2 post).1) ∧
    (∀ t1 f w lc lo v, (convertResultSetNode s n.Select).1 = ANode.SelectStmt t1 f w lc lo v →
      convert s (.InsertStmt n) =
        .ok (ANode.InsertStmt (ANode.RangeVar t.Schema.O t.Name.O) (convertColumnNames n.Columns)
          (ANode.AstList [])
          (ANode.SelectStmt t1 f w lc lo
            (convertLists (convertResultSetNode s n.Select).2 n.Lists).1),
          (convertLists (convertResultSetNode s n.Select).2 n.Lists).2)) ∧
    ((∀ t1 f w lc lo v, (convertResultSetNode s n.Select).1 ≠ ANode.SelectStmt t1 f w lc lo v) →
      convert s (.InsertStmt n) =
        .ok (ANode.InsertStmt (ANode.RangeVar t.Schema.O t.Name.O) (convertColumnNames n.Columns)
          (ANode.AstList [])
          (ANode.SelectStmt (ANode.AstList []) (ANode.AstList []) ANode.nil ANode.nil ANode.nil
            (convertLists (convertResultSetNode s n.Select).2 n.Lists).1),
          (convertLists (convertResultSetNode s n.Select).2 n.Lists).2)) := by
  refine ⟨rfl, fun s0 => convertLists_items n.Lists s0, ?_, ?_, ?_, ?_⟩
  · intro s0 preRows row postRows hl
    rw [hl]
    simp [convertLists_append, convertLists, ANode.Items]
  · intro s0 row
    refine ⟨length_convertExprNodes row s0, ?_⟩
    rintro pre e post rfl
    simp [convertExprNodes_append, convertExprNodes]
  · intro t1 f w lc lo v hv
    simp only [convert, convertInsertStmt_eq, h, insertResult, hv]
  · intro hv
    simp only [convert, convertInsertStmt_eq, h, insertResult]

/-- C19 at `INSERT INTO t (a, b) VALUES (?, 1)`. -/
theorem insert_shape_witness :
    convert (State.fresh false) (.InsertStmt sampleInsert) =
      .ok (ANode.InsertStmt (ANode.RangeVar "" "t")
        (ANode.AstList [ANode.ResTarget (some "a") ANode.nil 0,
          ANode.ResTarget (some "b") ANode.nil 0])
        (ANode.AstList [])
        (ANode.SelectStmt (ANode.AstList []) (ANode.AstList []) ANode.nil ANode.nil ANode.nil
          (ANode.AstList [ANode.AstList
            [ANode.ParamRef 1 30, ANode.A_Const (ANode.AstString "")]])),
        { c := { paramCount := 1 }, debugActive := false, out := [] }) :=
  (insert_shape (State.fresh false) sampleInsert ⟨⟨""⟩, ⟨"t"⟩⟩ rfl).2.2.2.2.2
    (fun _ _ _ _ _ _ h => ANode.noConfusion h)

theorem Tracks.bounds {s s1 : State} {o : List Int} {f : Bool} {r : List (Nat × Int)}
    (h : Tracks s o f r s1) :
    ∀ p ∈ r, s.c.paramCount < p.1 ∧ p.1 ≤ s1.c.paramCount := by
  intro p hp
  have hm : p.1 ∈ (numbered s.c.paramCount o).map Prod.fst :=
    List.mem_map_of_mem _ (h.2.1.subset hp)
  rw [map_fst_numbered, List.mem_range'_1] at hm
  rw [h.1]
  omega

/-- C20: an UPDATE whose table clause flattens to the one table `t` converts
to an Update on that table whose target list has one entry per assignment, in
the order of the assignments, each named by the column of its assignment and
holding the conversion of its expression; whose where clause is the conversion
of the where expression, no node when there is none; and the assignments are
converted before the where clause, so every `ParamRef` of the target list has
a smaller number than every `ParamRef` of the where clause. -/
theorem update_shape (s : State) (n : UpdateStmt) (t : TableName)
    (h : n.TableRefs.visitTableNames = [t]) :
    convert s (.UpdateStmt n) =
      .ok (ANode.UpdateStmt (ANode.RangeVar t.Schema.O t.Name.O)
        (ANode.AstList (convertAssignments s n.List).1)
        (convertExprNode (convertAssignments s n.List).2 n.Where).1
        (ANode.AstList []) (ANode.AstList []),
        (convertExprNode (convertAssignments s n.List).2 n.Where).2) ∧
    (convertAssignments s n.List).1.length = n.List.length ∧
    (∀ pre a post, n.List = pre ++ a :: post →
      (convertAssignments s n.List).1 =
        (convertAssignments s pre).1 ++
          ANode.ResTarget (some a.Column.Name.O)
            (convertExprNode (convertAssignments s pre).2 a.Expr).1 0 ::
          (convertAssignments (convertExprNode (convertAssignments s pre).2 a.Expr).2 post).1) ∧
    (∀ s0 : State, convertExprNode s0 .nil = (ANode.nil, s0)) ∧
    (∀ p ∈ (ANode.AstList (convertAssignments s n.List).1).paramNumbers,
      ∀ q ∈ (convertExprNode (convertAssignments s n.List).2 n.Where).1.paramNumbers, p < q) := by
  refine ⟨by simp [convert, convertUpdateStmt_eq, h], length_convertAssignments n.List s, ?_,
    fun _ => rfl, ?_⟩
  · rintro pre a post hl
    rw [hl]
    simp [convertAssignments_append, convertAssignments, convertAssignment]
  · intro p hp q hq
    have h1 := (convertAssignments_tracks n.List s).bounds
    have h2 := (convertExprNode_tracks n.Where (convertAssignments s n.List).2).bounds
    simp only [ANode.paramNumbers, ANode.paramRefs, List.mem_map] at hp hq
    obtain ⟨x, hx, rfl⟩ := hp
    obtain ⟨y, hy, rfl⟩ := hq
    have := h1 x hx
    have := h2 y hy
    omega

/-- C20 at `UPDATE t SET a = ? WHERE b = ?`. -/
theorem update_shape_witness :
    convert (State.fresh false) (.UpdateStmt sampleUpdateWhere) =
      .ok (ANode.UpdateStmt (ANode.RangeVar "" "t")
        (ANode.AstList [ANode.ResTarget (some "a") (ANode.ParamRef 1 17) 0])
        (ANode.A_Expr (ANode.AstList [ANode.AstString "="])
          (ANode.ColumnRef (ANode.AstList [ANode.AstString "b"]) "") (ANode.ParamRef 2 29))
        (ANode.AstList []) (ANode.AstList []),
        { c := { paramCount := 2 }, debugActive := false, out := [] }) :=
  (update_shape (State.fresh false) sampleUpdateWhere ⟨⟨""⟩, ⟨"t"⟩⟩ rfl).1

theorem columnComment_eq (options : List ColumnOption) :
    ∀ comment : String, columnComment comment options =
      ((options.filterMap fun opt =>
        match opt.Tp, opt.Expr with
        | .ColumnOptionComment, .ValueExpr value => some value.Datum.GetString
        | _, _ => none).getLast?).getD comment := by
  induction options with
  | nil => intro comment; simp [columnComment]
  | cons opt opts ih =>
    intro comment
    unfold columnComment
    cases h1 : opt.Tp <;> cases h2 : opt.Expr <;>
      simp [ih, List.filterMap_cons, h1, h2, List.getLast?_cons]

theorem tableComment_eq (options : List TableOption) :
    ∀ comment : String, tableComment comment options =
      ((options.filterMap fun opt =>
        match opt.Tp with
        | .TableOptionComment => some opt.StrValue
        | _ => none).getLast?).getD comment := by
  induction options with
  | nil => intro comment; simp [tableComment]
  | cons opt opts ih =>
    intro comment
    unfold tableComment
    cases h1 : opt.Tp <;> simp [ih, List.filterMap_cons, h1, List.getLast?_cons]

theorem createColumnDef_eq (d : ColumnDef) : createColumnDef d = specColumnDef d := by
  unfold createColumnDef specColumnDef specColumnComment
  rw [columnComment_eq]
  cases h : d.Tp.Elems <;> simp

/-- C21: a CREATE TABLE converts to a `CreateTableStmt` with one column
definition per declared column, in the order of the declarations, each with
the name of the column, the type name of its type, its not-null flag, as
comment the string of its last COMMENT option with a literal value and the
empty string when there is none, and as values the elements of its type in
their order when there is at least one and nothing when there is none; the IF
NOT EXISTS flag is copied, the referred table is set exactly when the
statement has one, and the comment is that of the last table COMMENT
option. -/
theorem create_table_shape (s : State) (n : CreateTableStmt) :
    convertCreateTableStmt n =
      ANode.CreateTableStmt (parseTableName n.Table) n.IfNotExists
        (n.ReferTable.map parseTableName) (n.Cols.map specColumnDef)
        (specTableComment n.Options) ∧
    (n.Cols.map specColumnDef).length = n.Cols.length ∧
    (∀ (i : Nat) (d : ColumnDef), n.Cols[i]? = some d →
      (n.Cols.map specColumnDef)[i]? = some (specColumnDef d)) ∧
    (n.ReferTable.map parseTableName = none ↔ n.ReferTable = none) ∧
    convert s (.CreateTableStmt n) = .ok (convertCreateTableStmt n, s) := by
  refine ⟨?_, by simp, ?_, by simp, rfl⟩
  · unfold convertCreateTableStmt specTableComment
    rw [tableComment_eq]
    have hc : n.Cols.map createColumnDef = n.Cols.map specColumnDef :=
      List.map_congr_left fun d _ => createColumnDef_eq d
    rw [hc]
    cases n.ReferTable <;> rfl
  · intro i d h
    simp [h]

/-- C22: a DROP TABLE marked as dropping a view converts to the placeholder;
any other converts to a `DropTableStmt` whose tables are the names of the
tables of the statement, as many and in the same order, and whose IF EXISTS
flag is that of the statement. -/
theorem drop_table_shape (s : State) (n : DropTableStmt) :
    (n.IsView = true → convertDropTableStmt n = ANode.TODO) ∧
    (n.IsView = false →
      convertDropTableStmt n = ANode.DropTableStmt n.IfExists (n.Tables.map parseTableName)) ∧
    (n.Tables.map parseTableName).length = n.Tables.length ∧
    (∀ (i : Nat) (t : TableName), n.Tables[i]? = some t →
      (n.Tables.map parseTableName)[i]? = some { Schema := t.Schema.O, Name := t.Name.O }) ∧
    convert s (.DropTableStmt n) = .ok (convertDropTableStmt n, s) := by
  refine ⟨fun h => by simp [convertDropTableStmt, h], fun h => by simp [convertDropTableStmt, h],
    by simp, ?_, rfl⟩
  intro i t h
  simp [h, parseTableName]

theorem paramNumbers_bounds {s s1 : State} {o : List Int} {f : Bool} {a : ANode}
    (h : Tracks s o f a.paramRefs s1) :
    ∀ p ∈ a.paramNumbers, s.c.paramCount < p ∧ p ≤ s1.c.paramCount := by
  intro p hp
  simp only [ANode.paramNumbers, List.mem_map] at hp
  obtain ⟨x, hx, rfl⟩ := hp
  exact h.bounds x hx

/-- C23: in the conversion of a SELECT the numbers are given in the order
target list, where clause, limit count, limit offset, and the from clause gets
none: every `ParamRef` of the target list has a smaller number than every one
of the where clause, these are smaller than every one of the limit count, and
these are smaller than every one of the limit offset. -/
theorem select_numbers_in_field_order (s : State) (fields : FieldList)
    (from_ : TableRefsClause) (where_ : ExprNode) (limit : Limit) (rest : List ExprNode)
    (t f w lc lo v : ANode) (s1 : State)
    (h : convertSelectStmt s (.mk fields from_ where_ limit rest) =
      (ANode.SelectStmt t f w lc lo v, s1)) :
    f.paramNumbers = [] ∧
    (∀ p ∈ t.paramNumbers, ∀ q ∈ w.paramNumbers, p < q) ∧
    (∀ p ∈ t.paramNumbers, ∀ q ∈ lc.paramNumbers, p < q) ∧
    (∀ p ∈ t.paramNumbers, ∀ q ∈ lo.paramNumbers, p < q) ∧
    (∀ p ∈ w.paramNumbers, ∀ q ∈ lc.paramNumbers, p < q) ∧
    (∀ p ∈ w.paramNumbers, ∀ q ∈ lo.paramNumbers, p < q) ∧
    (∀ p ∈ lc.paramNumbers, ∀ q ∈ lo.paramNumbers, p < q) ∧
    (∀ p ∈ (ANode.SelectStmt t f w lc lo v).paramNumbers,
      s.c.paramCount < p ∧ p ≤ s1.c.paramCount) := by
  have h1 := convertFieldList_tracks fields s
  have h2 := convertExprNode_tracks where_ (convertFieldList s fields).2
  have h5 := (convertSelectStmt_tracks (.mk fields from_ where_ limit rest) s).1
  rw [h] at h5
  have b1 := paramNumbers_bounds h1
  have b2 := paramNumbers_bounds h2
  have c2 := h2.1
  cases limit with
  | nil =>
    simp only [convertSelectStmt, Prod.mk.injEq, ANode.SelectStmt.injEq] at h
    obtain ⟨⟨rfl, rfl, rfl, rfl, rfl, rfl⟩, rfl⟩ := h
    refine ⟨by simp [ANode.paramNumbers, paramRefs_convertTableRefsClause], ?_, ?_, ?_, ?_, ?_,
      ?_, paramNumbers_bounds h5⟩
    · intro p hp q hq
      have := b1 p hp; have := b2 q hq; omega
    all_goals
      intro p hp q hq
      simp [ANode.paramNumbers, ANode.paramRefs] at hq
  | mk count offset =>
    have h3 := convertExprNode_tracks count
      (convertExprNode (convertFieldList s fields).2 where_).2
    have h4 := convertExprNode_tracks offset
      (convertExprNode (convertExprNode (convertFieldList s fields).2 where_).2 count).2
    simp only [convertSelectStmt, Prod.mk.injEq, ANode.SelectStmt.injEq] at h
    obtain ⟨⟨rfl, rfl, rfl, rfl, rfl, rfl⟩, rfl⟩ := h
    have b3 := paramNumbers_bounds h3
    have b4 := paramNumbers_bounds h4
    have c3 := h3.1
    refine ⟨by simp [ANode.paramNumbers, paramRefs_convertTableRefsClause], ?_, ?_, ?_, ?_, ?_,
      ?_, paramNumbers_bounds h5⟩
    · intro p hp q hq
      have := b1 p hp; have := b2 q hq; omega
    · intro p hp q hq
      have := b1 p hp; have := b3 q hq; omega
    · intro p hp q hq
      have := b1 p hp; have := b4 q hq; omega
    · intro p hp q hq
      have := b2 p hp; have := b3 q hq; omega
    · intro p hp q hq
      have := b2 p hp; have := b4 q hq; omega
    · intro p hp q hq
      have := b3 p hp; have := b4 q hq; omega

/-- C23 at `SELECT ? FROM t WHERE a = ? LIMIT ? OFFSET ?`. -/
theorem select_numbers_in_field_order_witness :
    convertSelectStmt (State.fresh false) sampleNumberedSelect =
      (ANode.SelectStmt (ANode.AstList [ANode.ResTarget none (ANode.ParamRef 1 7) 7])
        (ANode.AstList [ANode.RangeVar "" "t"])
        (ANode.A_Expr (ANode.AstList [ANode.AstString "="])
          (ANode.ColumnRef (ANode.AstList [ANode.AstString "a"]) "") (ANode.ParamRef 2 26))
        (ANode.ParamRef 3 34) (ANode.ParamRef 4 43) ANode.nil,
        { c := { paramCount := 4 }, debugActive := false, out := [] }) ∧
    (ANode.AstList [ANode.RangeVar "" "t"]).paramNumbers = [] :=
  ⟨rfl, (select_numbers_in_field_order (State.fresh false)
    (.mk [.mk 7 none (.ParamMarkerExpr ⟨7⟩) ⟨""⟩]) (sampleFrom "t")
    (.BinaryOperationExpr (.mk .EQ (sampleColumn "a") (.ParamMarkerExpr ⟨26⟩)))
    (.mk (.ParamMarkerExpr ⟨34⟩) (.ParamMarkerExpr ⟨43⟩)) [] _ _ _ _ _ _ _ rfl).1⟩

theorem convertAggregateArgs_eq (args : List ExprNode) :
    ∀ s : State, convertAggregateArgs s args =
      (((convertExprNodes s (args.filter fun a => !isValueOne a)).1, args.any isValueOne),
        (convertExprNodes s (args.filter fun a => !isValueOne a)).2) := by
  induction args with
  | nil => intro s; simp [convertAggregateArgs, convertExprNodes]
  | cons a as ih =>
    intro s
    by_cases h : isValueOne a = true
    · simp [convertAggregateArgs, h, ih]
    · simp [convertAggregateArgs, h, ih, convertExprNodes]

/-- The loop of `convertAggregateFuncExpr`, read off the code: the arguments
of the result are the conversions, in order, of the arguments that the test
`isValueOne` does not take, the star flag is set exactly when the test takes
one of them, and the distinct flag is the DISTINCT modifier of the call.  The
test takes exactly the literals whose `GetInt64()` is 1, so a parameter
marker is kept, and a literal is kept when its `GetInt64()` is not 1. -/
theorem aggregate_call_shape (s : State) (f : String) (args : List ExprNode)
    (distinct : Bool) :
    convertAggregateFuncExpr s (.mk f args distinct) =
      (ANode.FuncCall { Schema := "", Name := f } (ANode.AstList [ANode.AstString f])
        (ANode.AstList (convertExprNodes s (args.filter fun a => !isValueOne a)).1)
        (ANode.AstList []) (args.any isValueOne) distinct 0,
        (convertExprNodes s (args.filter fun a => !isValueOne a)).2) ∧
    (∀ a, isValueOne a = true ↔ ∃ value : ValueExpr, a = .ValueExpr value ∧
      value.Datum.GetInt64 = 1) ∧
    (∀ a, a ∈ (args.filter fun a => !isValueOne a) ↔ a ∈ args ∧ isValueOne a = false) ∧
    (∀ m : ParamMarkerExpr, isValueOne (.ParamMarkerExpr m) = false) ∧
    (∀ value : ValueExpr, value.Datum.GetInt64 ≠ 1 → isValueOne (.ValueExpr value) = false) ∧
    convert s (.ExprNode (.AggregateFuncExpr (.mk f args distinct))) =
      .ok (convertAggregateFuncExpr s (.mk f args distinct)) := by
  refine ⟨by simp [convertAggregateFuncExpr, convertAggregateArgs_eq], ?_, ?_, fun _ => rfl, ?_,
    rfl⟩
  · intro a
    cases a <;> simp [isValueOne]
  · intro a
    simp [List.mem_filter]
  · intro value h
    simp [isValueOne, h]

/-- C24: the aggregate call `COUNT(5e-324)` converts to a function call with
no argument and the star flag set, the same node as `COUNT(1)`, although its
argument is a float literal and not a literal of integer value 1: the loop of
`convertAggregateFuncExpr` tests `GetInt64()` without looking at the kind of
the datum, and for this float the bits that `GetInt64()` gives are 1. -/
theorem aggregate_float_literal_is_star :
    sampleFloatLiteral.Datum.k = .KindFloat64 ∧
    isLiteralIntegerOne (.ValueExpr sampleFloatLiteral) = false ∧
    sampleFloatLiteral.Datum.GetInt64 = 1 ∧
    convert (State.fresh false)
        (.ExprNode (.AggregateFuncExpr (.mk "count" [.ValueExpr sampleFloatLiteral] false))) =
      .ok (ANode.FuncCall { Schema := "", Name := "count" }
        (ANode.AstList [ANode.AstString "count"]) (ANode.AstList []) (ANode.AstList [])
        true false 0, State.fresh false) ∧
    convert (State.fresh false)
        (.ExprNode (.AggregateFuncExpr (.mk "count" [.ValueExpr sampleFloatLiteral] false))) =
      convert (State.fresh false)
        (.ExprNode (.AggregateFuncExpr
          (.mk "count" [.ValueExpr ⟨⟨.KindInt64, 1, ""⟩⟩] false))) :=
  ⟨rfl, rfl, rfl, rfl, rfl⟩

/-- C25: the conversions of `L AND R` and of `L OR R` are the same, in every
state: the same `BoolExpr`, which does not record the operator, and the same
state left. -/
theorem and_or_indistinguishable (s : State) (l r : ExprNode) :
    convertBinaryOperationExpr s (.mk .LogicAnd l r) =
      convertBinaryOperationExpr s (.mk .LogicOr l r) ∧
    convert s (.ExprNode (.BinaryOperationExpr (.mk .LogicAnd l r))) =
      convert s (.ExprNode (.BinaryOperationExpr (.mk .LogicOr l r))) ∧
    convertBinaryOperationExpr s (.mk .LogicAnd l r) =
      (ANode.BoolExpr (ANode.AstList
        [(convertExprNode s l).1, (convertExprNode (convertExprNode s l).2 r).1]),
        (convertExprNode (convertExprNode s l).2 r).2) := by
  have e : convertBinaryOperationExpr s (.mk .LogicAnd l r) =
      convertBinaryOperationExpr s (.mk .LogicOr l r) := by
    simp [convertBinaryOperationExpr]
  refine ⟨e, ?_, by simp [convertBinaryOperationExpr]⟩
  simp only [convert, convertExprNode, e]

mutual

theorem shift_of_no_refs (k : Nat) : ∀ a : ANode, a.paramRefs = [] → a.shift k = a
  | .nil, _ => rfl
  | .TODO, _ => rfl
  | .AstList items, h => by
    simp only [ANode.paramRefs] at h
    simp [ANode.shift, shiftList_of_no_refs k items h]
  | .AstString _, _ => rfl
  | .A_Star, _ => rfl
  | .A_Const val, h => by
    simp only [ANode.paramRefs] at h
    simp [ANode.shift, shift_of_no_refs k val h]
  | .ParamRef _ _, h => by simp [ANode.paramRefs] at h
  | .ColumnRef fields _, h => by
    simp only [ANode.paramRefs] at h
    simp [ANode.shift, shift_of_no_refs k fields h]
  | .ResTarget _ val _, h => by
    simp only [ANode.paramRefs] at h
    simp [ANode.shift, shift_of_no_refs k val h]
  | .BoolExpr args, h => by
    simp only [ANode.paramRefs] at h
    simp [ANode.shift, shift_of_no_refs k args h]
  | .A_Expr name lexpr rexpr, h => by
    simp only [ANode.paramRefs, List.append_eq_nil] at h
    simp [ANode.shift, shift_of_no_refs k name h.1.1, shift_of_no_refs k lexpr h.1.2,
      shift_of_no_refs k rexpr h.2]
  | .FuncCall _ funcname args aggOrder _ _ _, h => by
    simp only [ANode.paramRefs, List.append_eq_nil] at h
    simp [ANode.shift, shift_of_no_refs k funcname h.1.1, shift_of_no_refs k args h.1.2,
      shift_of_no_refs k aggOrder h.2]
  | .SubLink subselect, h => by
    simp only [ANode.paramRefs] at h
    simp [ANode.shift, shift_of_no_refs k subselect h]
  | .RangeVar _ _, _ => rfl
  | .SelectStmt t f w lc lo v, h => by
    simp only [ANode.paramRefs, List.append_eq_nil] at h
    simp [ANode.shift, shift_of_no_refs k t h.1.1.1.1.1, shift_of_no_refs k f h.1.1.1.1.2,
      shift_of_no_refs k w h.1.1.1.2, shift_of_no_refs k lc h.1.1.2,
      shift_of_no_refs k lo h.1.2, shift_of_no_refs k v h.2]
  | .InsertStmt relation cols returning sel, h => by
    simp only [ANode.paramRefs, List.append_eq_nil] at h
    simp [ANode.shift, shift_of_no_refs k relation h.1.1.1, shift_of_no_refs k cols h.1.1.2,
      shift_of_no_refs k returning h.1.2, shift_of_no_refs k sel h.2]
  | .UpdateStmt relation t w f returning, h => by
    simp only [ANode.paramRefs, List.append_eq_nil] at h
    simp [ANode.shift, shift_of_no_refs k relation h.1.1.1.1, shift_of_no_refs k t h.1.1.1.2,
      shift_of_no_refs k w h.1.1.2, shift_of_no_refs k f h.1.2,
      shift_of_no_refs k returning h.2]
  | .DeleteStmt relation w returning, h => by
    simp only [ANode.paramRefs, List.append_eq_nil] at h
    simp [ANode.shift, shift_of_no_refs k relation h.1.1, shift_of_no_refs k w h.1.2,
      shift_of_no_refs k returning h.2]
  | .ColumnDef _ _ _ _ vals, h => by
    simp only [ANode.paramRefs] at h
    simp [ANode.shift, shift_of_no_refs k vals h]
  | .AlterTableCmd _ _ d _, h => by
    simp only [ANode.paramRefs] at h
    simp [ANode.shift, shift_of_no_refs k d h]
  | .AlterTableStmt _ cmds, h => by
    simp only [ANode.paramRefs] at h
    simp [ANode.shift, shift_of_no_refs k cmds h]
  | .CreateTableStmt _ _ _ cols _, h => by
    simp only [ANode.paramRefs] at h
    simp [ANode.shift, shiftList_of_no_refs k cols h]
  | .DropTableStmt _ _, _ => rfl
  | .RenameColumnStmt _ col _, h => by
    simp only [ANode.paramRefs] at h
    simp [ANode.shift, shift_of_no_refs k col h]
  | .RenameTableStmt _ _, _ => rfl

theorem shiftList_of_no_refs (k : Nat) : ∀ xs : List ANode,
    paramRefsOfList xs = [] → shiftList k xs = xs
  | [], _ => rfl
  | x :: xs, h => by
    simp only [paramRefsOfList, List.append_eq_nil] at h
    simp [shiftList, shift_of_no_refs k x h.1, shiftList_of_no_refs k xs h.2]

end

mutual

theorem paramRefs_shift (k : Nat) : ∀ a : ANode,
    (a.shift k).paramRefs = a.paramRefs.map fun p => (p.1 + k, p.2)
  | .nil => rfl
  | .TODO => rfl
  | .AstList items => by simp [ANode.shift, ANode.paramRefs, paramRefsOfList_shift k items]
  | .AstString _ => rfl
  | .A_Star => rfl
  | .A_Const val => by simp [ANode.shift, ANode.paramRefs, paramRefs_shift k val]
  | .ParamRef _ _ => by simp [ANode.shift, ANode.paramRefs]
  | .ColumnRef fields _ => by simp [ANode.shift, ANode.paramRefs, paramRefs_shift k fields]
  | .ResTarget _ val _ => by simp [ANode.shift, ANode.paramRefs, paramRefs_shift k val]
  | .BoolExpr args => by simp [ANode.shift, ANode.paramRefs, paramRefs_shift k args]
  | .A_Expr name lexpr rexpr => by
    simp [ANode.shift, ANode.paramRefs, paramRefs_shift k name, paramRefs_shift k lexpr,
      paramRefs_shift k rexpr]
  | .FuncCall _ funcname args aggOrder _ _ _ => by
    simp [ANode.shift, ANode.paramRefs, paramRefs_shift k funcname, paramRefs_shift k args,
      paramRefs_shift k aggOrder]
  | .SubLink subselect => by simp [ANode.shift, ANode.paramRefs, paramRefs_shift k subselect]
  | .RangeVar _ _ => rfl
  | .SelectStmt t f w lc lo v => by
    simp [ANode.shift, ANode.paramRefs, paramRefs_shift k t, paramRefs_shift k f,
      paramRefs_shift k w, paramRefs_shift k lc, paramRefs_shift k lo, paramRefs_shift k v]
  | .InsertStmt relation cols returning sel => by
    simp [ANode.shift, ANode.paramRefs, paramRefs_shift k relation, paramRefs_shift k cols,
      paramRefs_shift k returning, paramRefs_shift k sel]
  | .UpdateStmt relation t w f returning => by
    simp [ANode.shift, ANode.paramRefs, paramRefs_shift k relation, paramRefs_shift k t,
      paramRefs_shift k w, paramRefs_shift k f, paramRefs_shift k returning]
  | .DeleteStmt relation w returning => by
    simp [ANode.shift, ANode.paramRefs, paramRefs_shift k relation, paramRefs_shift k w,
      paramRefs_shift k returning]
  | .ColumnDef _ _ _ _ vals => by simp [ANode.shift, ANode.paramRefs, paramRefs_shift k vals]
  | .AlterTableCmd _ _ d _ => by simp [ANode.shift, ANode.paramRefs, paramRefs_shift k d]
  | .AlterTableStmt _ cmds => by simp [ANode.shift, ANode.paramRefs, paramRefs_shift k cmds]
  | .CreateTableStmt _ _ _ cols _ => by
    simp [ANode.shift, ANode.paramRefs, paramRefsOfList_shift k cols]
  | .DropTableStmt _ _ => rfl
  | .RenameColumnStmt _ col _ => by simp [ANode.shift, ANode.paramRefs, paramRefs_shift k col]
  | .RenameTableStmt _ _ => rfl

theorem paramRefsOfList_shift (k : Nat) : ∀ xs : List ANode,
    paramRefsOfList (shiftList k xs) = (paramRefsOfList xs).map fun p => (p.1 + k, p.2)
  | [] => rfl
  | x :: xs => by
    simp [shiftList, paramRefsOfList, paramRefs_shift k x, paramRefsOfList_shift k xs]

end

theorem logUnknownNode_addCount (s : State) (typeName : String) (k : Nat) :
    logUnknownNode (s.addCount k) typeName = (logUnknownNode s typeName).addCount k := by
  unfold logUnknownNode State.addCount State.withCount State.print
  split <;> simp_all

mutual

theorem convertExprNode_shift (k : Nat) : ∀ (e : ExprNode) (s : State),
    convertExprNode (s.addCount k) e =
      ((convertExprNode s e).1.shift k, (convertExprNode s e).2.addCount k)
  | .nil, s => by simp [convertExprNode, ANode.shift]
  | .ParamMarkerExpr n, s => by
    simp [convertExprNode, convertParamMarkerExpr, ANode.shift, State.addCount, State.withCount]
    omega
  | .ValueExpr n, s => by simp [convertExprNode, convertValueExpr, ANode.shift]
  | .AggregateFuncExpr n, s => by
    simpa [convertExprNode] using convertAggregateFuncExpr_shift k n s
  | .BinaryOperationExpr n, s => by
    simpa [convertExprNode] using convertBinaryOperationExpr_shift k n s
  | .ColumnNameExpr n, s => by
    simp [convertExprNode, convertColumnNameExpr, ANode.shift, shiftList]
  | .ExistsSubqueryExpr n, s => by
    simpa [convertExprNode] using convertExistsSubqueryExpr_shift k n s
  | .FuncCallExpr n, s => by
    simpa [convertExprNode] using convertFuncCallExpr_shift k n s
  | .SubqueryExpr n, s => by
    simpa [convertExprNode] using convertSubqueryExpr_shift k n s
  | .stub _ _ _, s => by simp [convertExprNode, ANode.shift]
  | .unknown t _ _, s => by simp [convertExprNode, ANode.shift, logUnknownNode_addCount]

theorem convertExprNodes_shift (k : Nat) : ∀ (es : List ExprNode) (s : State),
    convertExprNodes (s.addCount k) es =
      (shiftList k (convertExprNodes s es).1, (convertExprNodes s es).2.addCount k)
  | [], s => by simp [convertExprNodes, shiftList]
  | e :: es, s => by
    simp [convertExprNodes, shiftList, convertExprNode_shift k e s,
      convertExprNodes_shift k es (convertExprNode s e).2]

theorem convertAggregateFuncExpr_shift (k : Nat) : ∀ (n : AggregateFuncExpr) (s : State),
    convertAggregateFuncExpr (s.addCount k) n =
      ((convertAggregateFuncExpr s n).1.shift k, (convertAggregateFuncExpr s n).2.addCount k)
  | .mk f args d, s => by
    simp [convertAggregateFuncExpr, ANode.shift, shiftList, convertAggregateArgs_shift k args s]

theorem convertAggregateArgs_shift (k : Nat) : ∀ (es : List ExprNode) (s : State),
    convertAggregateArgs (s.addCount k) es =
      ((shiftList k (convertAggregateArgs s es).1.1, (convertAggregateArgs s es).1.2),
        (convertAggregateArgs s es).2.addCount k)
  | [], s => by simp [convertAggregateArgs, shiftList]
  | a :: as, s => by
    by_cases ha : isValueOne a = true
    · simp [convertAggregateArgs, ha, convertAggregateArgs_shift k as s]
    · simp [convertAggregateArgs, ha, shiftList, convertExprNode_shift k a s,
        convertAggregateArgs_shift k as (convertExprNode s a).2]

theorem convertBinaryOperationExpr_shift (k : Nat) : ∀ (n : BinaryOperationExpr) (s : State),
    convertBinaryOperationExpr (s.addCount k) n =
      ((convertBinaryOperationExpr s n).1.shift k,
        (convertBinaryOperationExpr s n).2.addCount k)
  | .mk op l r, s => by
    unfold convertBinaryOperationExpr
    split <;>
      simp [ANode.shift, shiftList, convertExprNode_shift k l s,
        convertExprNode_shift k r (convertExprNode s l).2]

theorem convertExistsSubqueryExpr_shift (k : Nat) : ∀ (n : ExistsSubqueryExpr) (s : State),
    convertExistsSubqueryExpr (s.addCount k) n =
      ((convertExistsSubqueryExpr s n).1.shift k,
        (convertExistsSubqueryExpr s n).2.addCount k)
  | .mk sel, s => by
    unfold convertExistsSubqueryExpr
    simp only [convertExprNode_shift k sel s]
    generalize convertExprNode s sel = r
    obtain ⟨a, s1⟩ := r
    cases a <;> simp [ANode.shift]

theorem convertFuncCallExpr_shift (k : Nat) : ∀ (n : FuncCallExpr) (s : State),
    convertFuncCallExpr (s.addCount k) n =
      ((convertFuncCallExpr s n).1.shift k, (convertFuncCallExpr s n).2.addCount k)
  | .mk schema fnName args offset, s => by
    by_cases h : schema.O = "" <;>
      simp [convertFuncCallExpr, ANode.shift, shiftList, h, convertExprNodes_shift k args s]

theorem convertSubqueryExpr_shift (k : Nat) : ∀ (n : SubqueryExpr) (s : State),
    convertSubqueryExpr (s.addCount k) n =
      ((convertSubqueryExpr s n).1.shift k, (convertSubqueryExpr s n).2.addCount k)
  | .mk query, s => by
    simpa [convertSubqueryExpr] using convertResultSetNode_shift k query s

theorem convertResultSetNode_shift (k : Nat) : ∀ (n : ResultSetNode) (s : State),
    convertResultSetNode (s.addCount k) n =
      ((convertResultSetNode s n).1.shift k, (convertResultSetNode s n).2.addCount k)
  | .nil, s => by simp [convertResultSetNode, ANode.shift]
  | .SelectStmt n, s => by
    simpa [convertResultSetNode] using convertSelectStmt_shift k n s
  | .SubqueryExpr n, s => by
    simpa [convertResultSetNode] using convertSubqueryExpr_shift k n s
  | .TableSource _ _, s => by simp [convertResultSetNode, ANode.shift]
  | .TableName _, s => by simp [convertResultSetNode, ANode.shift]
  | .Join _, s => by simp [convertResultSetNode, ANode.shift]
  | .SetOprStmt _, s => by simp [convertResultSetNode, ANode.shift]

theorem convertSelectStmt_shift (k : Nat) : ∀ (n : SelectStmt) (s : State),
    convertSelectStmt (s.addCount k) n =
      ((convertSelectStmt s n).1.shift k, (convertSelectStmt s n).2.addCount k)
  | .mk fields from_ where_ .nil rest, s => by
    have hf := shift_of_no_refs k _ (paramRefs_convertTableRefsClause from_)
    simp [convertSelectStmt, ANode.shift, hf, convertFieldList_shift k fields s,
      convertExprNode_shift k where_ (convertFieldList s fields).2]
  | .mk fields from_ where_ (.mk count offset) rest, s => by
    have hf := shift_of_no_refs k _ (paramRefs_convertTableRefsClause from_)
    simp [convertSelectStmt, ANode.shift, hf, convertFieldList_shift k fields s,
      convertExprNode_shift k where_ (convertFieldList s fields).2,
      convertExprNode_shift k count (convertExprNode (convertFieldList s fields).2 where_).2,
      convertExprNode_shift k offset
        (convertExprNode (convertExprNode (convertFieldList s fields).2 where_).2 count).2]

theorem convertFieldList_shift (k : Nat) : ∀ (n : FieldList) (s : State),
    convertFieldList (s.addCount k) n =
      ((convertFieldList s n).1.shift k, (convertFieldList s n).2.addCount k)
  | .mk fields, s => by
    simp [convertFieldList, ANode.shift, convertSelectFields_shift k fields s]

theorem convertSelectFields_shift (k : Nat) : ∀ (fs : List SelectField) (s : State),
    convertSelectFields (s.addCount k) fs =
      (shiftList k (convertSelectFields s fs).1, (convertSelectFields s fs).2.addCount k)
  | [], s => by simp [convertSelectFields, shiftList]
  | f :: fs, s => by
    simp [convertSelectFields, shiftList, convertSelectField_shift k f s,
      convertSelectFields_shift k fs (convertSelectField s f).2]

theorem convertSelectField_shift (k : Nat) : ∀ (n : SelectField) (s : State),
    convertSelectField (s.addCount k) n =
      ((convertSelectField s n).1.shift k, (convertSelectField s n).2.addCount k)
  | .mk offset (some w) expr asName, s => by
    by_cases h : w.Table.O = "" <;>
      simp [convertSelectField, convertWildCardField, ANode.shift, shiftList, h]
  | .mk offset none expr asName, s => by
    simp [convertSelectField, ANode.shift, convertExprNode_shift k expr s]

end

theorem convertAssignments_shift (k : Nat) : ∀ (as : List Assignment) (s : State),
    convertAssignments (s.addCount k) as =
      (shiftList k (convertAssignments s as).1, (convertAssignments s as).2.addCount k)
  | [], s => by simp [convertAssignments, shiftList]
  | a :: as, s => by
    simp [convertAssignments, convertAssignment, shiftList, ANode.shift,
      convertExprNode_shift k a.Expr s,
      convertAssignments_shift k as (convertExprNode s a.Expr).2]

theorem convertLists_shift (k : Nat) : ∀ (lists : List (List ExprNode)) (s : State),
    convertLists (s.addCount k) lists =
      ((convertLists s lists).1.shift k, (convertLists s lists).2.addCount k)
  | [], s => by simp [convertLists, ANode.shift, shiftList]
  | exprs :: lists, s => by
    have h := convertLists_shift k lists (convertExprNodes s exprs).2
    obtain ⟨hi, _⟩ := convertLists_items lists (convertExprNodes s exprs).2
    simp only [convertLists, convertExprNodes_shift k exprs s, h]
    rw [hi]
    simp [ANode.shift, shiftList, ANode.Items]

theorem alterSpecs_addCount (n : AlterTableStmt) (k : Nat) (specs : List AlterTableSpec) :
    ∀ (s : State) (cmds : List ANode),
      alterSpecs n (s.addCount k) cmds specs =
        ((alterSpecs n s cmds specs).1, (alterSpecs n s cmds specs).2.addCount k) := by
  induction specs with
  | nil => intro s cmds; simp [alterSpecs]
  | cons spec specs ih =>
    intro s cmds
    unfold alterSpecs
    split <;> try simp [ih]
    rename_i code _
    have e : (if (s.addCount k).debugActive = true then
          (s.addCount k).print ("dolphin.convert: Unknown alter table cmd " ++ toString code ++ "\n")
        else s.addCount k) =
        (if s.debugActive = true then
          s.print ("dolphin.convert: Unknown alter table cmd " ++ toString code ++ "\n")
        else s).addCount k := by
      unfold State.addCount State.withCount State.print
      split <;> simp_all
    rw [e, ih]

/-- The conversion from a state with the counter raised by `k` is the
conversion from the state itself with every `ParamRef` number and the counter
raised by `k`, and it is aborted when that one is. -/
theorem convert_shift (k : Nat) (s : State) (n : Node) :
    convert (s.addCount k) n = shiftResult k (convert s n) := by
  cases n with
  | nil => simp [convert, shiftResult, ANode.shift]
  | ExprNode e => simp [convert, shiftResult, convertExprNode_shift k e s]
  | ResultSetNode e => simp [convert, shiftResult, convertResultSetNode_shift k e s]
  | AlterTableStmt e =>
    have h := (alterSpecs_untouched e e.Specs s [] (by simp [paramRefsOfList])).1
    simp [convert, shiftResult, convertAlterTableStmt, alterSpecs_addCount,
      shift_of_no_refs k _ h]
  | Assignment e =>
    simp [convert, shiftResult, convertAssignment, ANode.shift, convertExprNode_shift k e.Expr s]
  | CreateTableStmt e =>
    simp [convert, shiftResult, shift_of_no_refs k _ (paramRefs_convertCreateTableStmt e)]
  | DeleteStmt e =>
    simp only [convert, convertDeleteStmt_eq]
    split <;> simp [shiftResult, ANode.shift, shiftList, convertExprNode_shift k e.Where s]
  | DropTableStmt e =>
    simp [convert, shiftResult, shift_of_no_refs k _ (paramRefs_convertDropTableStmt e)]
  | FieldList e => simp [convert, shiftResult, convertFieldList_shift k e s]
  | InsertStmt e =>
    simp only [convert, convertInsertStmt_eq]
    split
    · simp only [shiftResult, insertResult, convertResultSetNode_shift k e.Select s,
        convertLists_shift k e.Lists]
      have hc := shiftList_of_no_refs k _ (paramRefsOfList_columnNames e.Columns)
      generalize convertResultSetNode s e.Select = ss
      obtain ⟨a, s2⟩ := ss
      cases a <;> simp [ANode.shift, shiftList, convertColumnNames, hc]
    · simp [shiftResult]
  | RenameTableStmt e => simp [convert, shiftResult, convertRenameTableStmt, ANode.shift]
  | SelectField e => simp [convert, shiftResult, convertSelectField_shift k e s]
  | TableRefsClause e =>
    simp [convert, shiftResult, shift_of_no_refs k _ (paramRefs_convertTableRefsClause e)]
  | UpdateStmt e =>
    simp only [convert, convertUpdateStmt_eq]
    split <;>
      simp [shiftResult, ANode.shift, shiftList, convertAssignments_shift k e.List s,
        convertExprNode_shift k e.Where (convertAssignments s e.List).2]
  | WildCardField e =>
    simp [convert, shiftResult, shift_of_no_refs k _ (paramRefs_convertWildCardField e)]
  | stub kind children => simp [convert, shiftResult, ANode.shift]
  | unknown t children => simp [convert, shiftResult, ANode.shift, logUnknownNode_addCount]

theorem withCount_addCount (s : State) (c : Nat) : (s.withCount 0).addCount c = s.withCount c := by
  simp [State.addCount, State.withCount]

/-- C26: the conversion of a node from a state with counter `c` is aborted
exactly when the conversion from the same state with counter 0 is, and
otherwise gives the tree of that conversion with every `ParamRef` number
raised by `c` and leaves the counter at `c` plus the number of markers
visited; so a state left by the conversion of a first statement with k
visited markers numbers the markers of a second statement from k + 1 on. -/
theorem counter_is_an_offset (s : State) (c : Nat) (n : Node) :
    convert (s.withCount c) n = shiftResult c (convert (s.withCount 0) n) ∧
    (aborted (convert (s.withCount c) n) ↔ aborted (convert (s.withCount 0) n)) ∧
    (∀ r s1, convert (s.withCount 0) n = .ok (r, s1) →
      convert (s.withCount c) n = .ok (r.shift c, s1.addCount c) ∧
      (r.shift c).paramRefs = r.paramRefs.map (fun p => (p.1 + c, p.2)) ∧
      (r.shift c).paramNumbers = r.paramNumbers.map (fun i => i + c) ∧
      (s1.addCount c).c.paramCount = c + n.visited.length) ∧
    (∀ debugActive first r1 s1 r2 s2,
      convert (State.fresh debugActive) first = .ok (r1, s1) → convert s1 n = .ok (r2, s2) →
      s1.c.paramCount = first.visited.length ∧
      r2.paramRefs.Sublist (numbered first.visited.length n.visited) ∧
      (n.existsOnSubquery = true →
        r2.paramNumbers = List.range' (first.visited.length + 1) n.visited.length) ∧
      s2.c.paramCount = first.visited.length + n.visited.length) := by
  have e : convert (s.withCount c) n = shiftResult c (convert (s.withCount 0) n) := by
    rw [← convert_shift, withCount_addCount]
  refine ⟨e, ?_, ?_, ?_⟩
  · rw [e]
    cases convert (s.withCount 0) n with
    | error m => simp [shiftResult, aborted]
    | ok p => simp [shiftResult, aborted]
  · intro r s1 h
    have ht := convert_tracks _ n r s1 h
    refine ⟨by rw [e, h]; rfl, paramRefs_shift c r, ?_, ?_⟩
    · simp [ANode.paramNumbers, paramRefs_shift c r]
    · have := ht.1
      simp only [State.withCount] at this
      simp only [State.addCount, State.withCount, this]
      omega
  · intro debugActive first r1 s1 r2 s2 h1 h2
    have t1 := convert_tracks _ first r1 s1 h1
    have t2 := convert_tracks _ n r2 s2 h2
    have hk : s1.c.paramCount = first.visited.length := by simpa [State.fresh] using t1.1
    obtain ⟨u1, u2, u3⟩ := t2
    rw [hk] at u1 u2 u3
    refine ⟨hk, u2, ?_, u1⟩
    intro hn
    simp only [ANode.paramNumbers, u3 hn, map_fst_numbered]

end Dolphin
